import Mathlib

/-!
Verification model of the x-poker-club-management weekly reconciliation
engine (TypeScript sources under src/).

Shallow-embedding conventions used throughout:
  - JavaScript numbers carrying money and rates are modelled as exact
    rationals; Math.round is round-half-up, Math.ceil and Math.floor are
    the integer ceiling and floor.
  - JavaScript Map objects are modelled as insertion-ordered association
    lists: set replaces the value of an existing key in place, otherwise
    appends; iteration follows list order, matching Map iteration order.
  - The Notion store is modelled as lists of typed pages; queries skip
    archived pages, matching the Notion API which never returns archived
    pages from a database query.
  - String.localeCompare with the "ja" locale is modelled as code-point
    lexicographic comparison (an external runtime facility; the claims
    that depend on it only use it on ASCII names where the two agree on
    the relative order of distinct capitalised words).
-/

attribute [local semireducible] Rat.add Rat.mul Rat.sub Rat.inv Rat.ofScientific

namespace XPoker

/-- Computable floor of a rational (equal to the mathematical floor, see
ratFloor_eq); used so that concrete instances evaluate inside the kernel. -/
def ratFloor (q : ℚ) : ℤ := q.num / (q.den : ℤ)

/-- Computable ceiling of a rational (equal to the mathematical ceiling,
see ratCeil_eq). -/
def ratCeil (q : ℚ) : ℤ := -ratFloor (-q)

/-- Math.round on a rational: round half up (toward positive infinity). -/
def jsRound (q : ℚ) : ℤ := ratFloor (q + 1/2)

/-- Insertion-ordered association-list lookup, modelling JavaScript Map.get. -/
def lookupA {α β : Type} [DecidableEq α] : List (α × β) → α → Option β
  | [], _ => none
  | e :: rest, k => if e.1 = k then some e.2 else lookupA rest k

/-- Insertion-ordered association-list set, modelling JavaScript Map.set:
an existing key keeps its position and gets the new value, a new key is
appended at the end. -/
def setA {α β : Type} [DecidableEq α] : List (α × β) → α → β → List (α × β)
  | [], k, v => [(k, v)]
  | e :: rest, k, v => if e.1 = k then (k, v) :: rest else e :: setA rest k v

/-- The keys of an association list are pairwise distinct. -/
def NoDupKeys {α β : Type} (m : List (α × β)) : Prop := (m.map Prod.fst).Nodup

/-! ## Fixed-point money helpers (src/unnamed/part_003, collect command) -/

/-- クラブレーキを銭（セント）に変換: Math.round(clubRake * 100). -/
def clubRakeCents (clubRake : ℚ) : ℤ := jsRound (clubRake * 100)

/-- レーキバック（銭）: Math.ceil(clubRakeCents * rakebackRate). -/
def rakebackCents (clubRake rate : ℚ) : ℤ := ratCeil ((clubRakeCents clubRake : ℚ) * rate)

/-- レーキバック（pt）: rakebackCents / 100. -/
def rakebackOf (clubRake rate : ℚ) : ℚ := (rakebackCents clubRake rate : ℚ) / 100

/-! ## Week-period parsing (src/src/lib/notion.ts, parseWeekPeriod) -/

/-- Separator characters of a week period: 〜 (wave dash) or ～ (fullwidth tilde). -/
def weekSep (c : Char) : Bool := c = '〜' || c = '～'

/-- Split a character list at every separator character (the semantics of
String.prototype.split with a single-character-class regular expression:
n separator occurrences yield n + 1 parts). -/
def splitChars (sep : Char → Bool) : List Char → List (List Char)
  | [] => [[]]
  | c :: cs =>
    if sep c then [] :: splitChars sep cs
    else
      match splitChars sep cs with
      | [] => [[c]]
      | p :: ps => (c :: p) :: ps

/-- Split a string on the week-period separator characters. -/
def splitSeps (s : String) : List String :=
  (splitChars weekSep s.data).map List.asString

/-- ASCII whitespace test, modelling String.prototype.trim. -/
def isWS (c : Char) : Bool := c = ' ' || c = '\t' || c = '\n' || c = '\r'

/-- Trim leading and trailing whitespace from a string. -/
def trimStr (s : String) : String :=
  (((s.data.dropWhile isWS).reverse.dropWhile isWS).reverse).asString

/-- parseWeekPeriod: split on 〜 or ～; exactly two parts are required,
otherwise the source throws (modelled as none); the two parts are trimmed. -/
def parseWeekPeriod (s : String) : Option (String × String) :=
  match splitSeps s with
  | [a, b] => some (trimStr a, trimStr b)
  | _ => none

/-! ## Agent aggregation (src/src/commands/sync.ts, groupCollectionByAgent) -/

/-- 集金データの1行 (CollectionDataRow). -/
structure CollectionDataRow where
  weekPeriod : String
  agentName : String
  agentId : String
  playerNickname : String
  playerId : String
  revenue : ℚ
  rake : ℚ
  rakebackRate : ℚ
  rakeback : ℚ
  amount : ℚ
deriving DecidableEq

/-- エージェント毎の集計データ (AgentSyncSummary). -/
structure AgentSyncSummary where
  agentId : String
  agentName : String
  feeRate : ℚ
  players : List CollectionDataRow
  totalRake : ℚ
  totalRakeback : ℚ
  totalAmount : ℚ
  agentReward : ℚ
  settlementAmount : ℚ
deriving DecidableEq

/-- The sentinel display label for the direct (no-agent) group. -/
def directLabel : String := "直接"

/-- Group key of a row: row.agentId || '直接'. -/
def agentKeyOf (row : CollectionDataRow) : String :=
  if row.agentId = "" then directLabel else row.agentId

/-- Fresh group for the first row of an agent, fee rate resolved from the
supplied map with default 0.7. -/
def initSummary (feeRates : List (String × ℚ)) (row : CollectionDataRow) :
    AgentSyncSummary :=
  { agentId := row.agentId
    agentName := if row.agentName = "" then directLabel else row.agentName
    feeRate := (lookupA feeRates row.agentId).getD (7/10)
    players := []
    totalRake := 0
    totalRakeback := 0
    totalAmount := 0
    agentReward := 0
    settlementAmount := 0 }

/-- Accumulate one row into its group: the row is always pushed onto the
player list and its amount always added; rake and rakeback are added only
when the row is not the agent's own self-row (playerId == agentId). -/
def accumRow (g : AgentSyncSummary) (row : CollectionDataRow) : AgentSyncSummary :=
  { g with
    players := g.players ++ [row]
    totalRake := if row.playerId = row.agentId then g.totalRake else g.totalRake + row.rake
    totalRakeback :=
      if row.playerId = row.agentId then g.totalRakeback else g.totalRakeback + row.rakeback
    totalAmount := g.totalAmount + row.amount }

/-- One step of the grouping fold over the collection rows. -/
def groupStep (feeRates : List (String × ℚ))
    (m : List (String × AgentSyncSummary)) (row : CollectionDataRow) :
    List (String × AgentSyncSummary) :=
  match lookupA m (agentKeyOf row) with
  | some g => setA m (agentKeyOf row) (accumRow g row)
  | none => setA m (agentKeyOf row) (accumRow (initSummary feeRates row) row)

/-- Second pass: エージェント報酬 = ceil((レーキ合計 × フィーレート −
レーキバック合計) × 100) / 100, 精算金額 = 金額合計 − 報酬 × 100. -/
def finalizeSummary (g : AgentSyncSummary) : AgentSyncSummary :=
  let reward : ℚ := (ratCeil ((g.totalRake * g.feeRate - g.totalRakeback) * 100) : ℤ) / 100
  { g with agentReward := reward, settlementAmount := g.totalAmount - reward * 100 }

/-- Code-point comparison of character lists, the model of localeCompare. -/
def listCmp : List Char → List Char → Int
  | [], [] => 0
  | [], _ :: _ => -1
  | _ :: _, [] => 1
  | a :: as, b :: bs => if a < b then -1 else if b < a then 1 else listCmp as bs

/-- String comparison sign, the model of a.localeCompare(b, 'ja'). -/
def strCmpInt (a b : String) : Int := listCmp a.data b.data

/-- The sort comparator of groupCollectionByAgent: 「直接」 sorts last,
otherwise by agent display name. -/
def cmpAgent (a b : AgentSyncSummary) : Int :=
  if a.agentName = directLabel then 1
  else if b.agentName = directLabel then -1
  else strCmpInt a.agentName b.agentName

/-- Boolean ordering derived from the comparator. -/
def agentLE (a b : AgentSyncSummary) : Bool := cmpAgent a b ≤ 0

/-- Insert into a sorted list according to a boolean ordering. -/
def insertLE {α : Type} (le : α → α → Bool) (a : α) : List α → List α
  | [] => [a]
  | b :: l => if le a b then a :: b :: l else b :: insertLE le a l

/-- Insertion sort according to a boolean ordering (a deterministic model
of Array.prototype.sort with the source's comparator). -/
def sortLE {α : Type} (le : α → α → Bool) : List α → List α
  | [] => []
  | a :: l => insertLE le a (sortLE le l)

/-- groupCollectionByAgent: fold the rows into insertion-ordered groups,
compute each group's reward and settlement, and sort with 「直接」 last. -/
def groupCollectionByAgent (collectionData : List CollectionDataRow)
    (agentFeeRates : List (String × ℚ)) : List AgentSyncSummary :=
  sortLE agentLE
    (((collectionData.foldl (groupStep agentFeeRates) []).map Prod.snd).map finalizeSummary)

/-! ## The Notion store model

Pages live in per-entity lists; page ids are allocated from a counter.
Database queries never return archived pages, so every query model
filters on the archived flag. -/

/-- エージェントDBのページ. -/
structure AgentPage where
  id : Nat
  archived : Bool
  agentId : String
  agentName : String
  remark : String
  superAgentName : String
  feeRate : ℚ
deriving DecidableEq

/-- プレイヤーDBのページ. agents is the エージェント relation property. -/
structure PlayerPage where
  id : Nat
  archived : Bool
  playerId : String
  nickname : String
  country : String
  remark : String
  rakebackRate : ℚ
  agents : List Nat
deriving DecidableEq

/-- 週次集金DBのページ. agents is the エージェント relation, detailIds the
週次集金個別 relation used by the rollups. -/
structure SummaryPage where
  id : Nat
  archived : Bool
  title : String
  weekStart : String
  weekEnd : String
  agents : List Nat
  playerCount : ℚ
  agentReward : ℚ
  settlementAmount : ℚ
  detailIds : List Nat
deriving DecidableEq

/-- 週次集金個別DBのページ. summaryIds is the 週次集金 relation, playerIds
the プレイヤー relation. -/
structure DetailPage where
  id : Nat
  archived : Bool
  nickname : String
  summaryIds : List Nat
  playerIds : List Nat
  playerId : String
  revenue : ℚ
  rake : ℚ
  rakebackRate : ℚ
  rakeback : ℚ
  amount : ℚ
deriving DecidableEq

/-- 週次トータルDBのページ. houseSales is the ハウス売上 number property. -/
structure TotalPage where
  id : Nat
  archived : Bool
  title : String
  weekStart : String
  weekEnd : String
  totalRake : ℚ
  totalRakeback : ℚ
  totalAgentFee : ℚ
  houseSales : ℚ
  summaryIds : List Nat
deriving DecidableEq

/-- The whole external store: one list per database plus an id counter. -/
structure Store where
  nextId : Nat
  agents : List AgentPage
  players : List PlayerPage
  summaries : List SummaryPage
  details : List DetailPage
  totals : List TotalPage
deriving DecidableEq

/-! ## Source data read from the ledger (Google Sheets) -/

/-- エージェントデータの1行 (SheetsAgentData). -/
structure SheetsAgentData where
  agentId : String
  agentName : String
  superAgentId : String
  superAgentName : String
  feeRate : ℚ
  remark : String
deriving DecidableEq

/-- プレイヤーデータの1行 (SheetsPlayerData). -/
structure SheetsPlayerData where
  playerId : String
  nickname : String
  agentId : String
  agentName : String
  country : String
  remark : String
  rakebackRate : ℚ
deriving DecidableEq

/-! ## Store queries (src/src/lib/notion.ts) -/

/-- getAllAgents: paginate every non-archived page, keep pages with a
non-empty エージェントID, last page with a given id wins. -/
def getAllAgentsMap (pages : List AgentPage) : List (String × (Nat × ℚ)) :=
  pages.foldl
    (fun m p =>
      if p.archived then m
      else if p.agentId = "" then m
      else setA m p.agentId (p.id, p.feeRate)) []

/-- getAllPlayers: keyed by (プレイヤーID, first エージェント relation id);
pages with an empty プレイヤーID are skipped. The source key is the string
playerId + ":" + (agentPageId or ""), modelled as a pair with none for "". -/
def getAllPlayersMap (pages : List PlayerPage) : List ((String × Option Nat) × Nat) :=
  pages.foldl
    (fun m p =>
      if p.archived then m
      else if p.playerId = "" then m
      else setA m (p.playerId, p.agents.head?) p.id) []

/-- findWeeklySummary's query: first non-archived page whose 週期間 start
equals the given start and whose エージェント relation contains the agent. -/
def findSummaryId (pages : List SummaryPage) (start : String) (agentPageId : Nat) :
    Option Nat :=
  ((pages.filter
      (fun p => !p.archived && (p.weekStart = start : Bool) && p.agents.contains agentPageId)).head?).map
    (fun p => p.id)

/-- getAllWeeklySummariesByPeriod: map from first エージェント relation id to
page id over non-archived pages of the given week start; pages without an
agent relation are skipped. -/
def getAllSummariesByPeriodMap (pages : List SummaryPage) (start : String) :
    List (Nat × Nat) :=
  pages.foldl
    (fun m p =>
      if p.archived then m
      else if p.weekStart = start then
        match p.agents.head? with
        | some g => setA m g p.id
        | none => m
      else m) []

/-- findWeeklyDetail's query: first non-archived page whose 週次集金
relation contains the summary and whose プレイヤーID equals the given one. -/
def findDetailId (pages : List DetailPage) (summaryPageId : Nat) (playerId : String) :
    Option Nat :=
  ((pages.filter
      (fun d => !d.archived && d.summaryIds.contains summaryPageId && (d.playerId = playerId : Bool))).head?).map
    (fun d => d.id)

/-- getAllWeeklyDetailsBySummary: map from プレイヤーID to page id over
non-archived pages related to the summary; empty プレイヤーID skipped. -/
def getAllDetailsBySummaryMap (pages : List DetailPage) (summaryPageId : Nat) :
    List (String × Nat) :=
  pages.foldl
    (fun m d =>
      if d.archived then m
      else if d.summaryIds.contains summaryPageId then
        if d.playerId = "" then m else setA m d.playerId d.id
      else m) []

/-- findWeeklyTotal's query: first non-archived page with the given week
start. -/
def findTotalId (pages : List TotalPage) (start : String) : Option Nat :=
  ((pages.filter (fun p => !p.archived && (p.weekStart = start : Bool))).head?).map
    (fun p => p.id)

/-- findWeeklySummary as in the source: parse the week-period string (the
outer none is the thrown parse error), then query on its start date and
the agent relation only. -/
def findWeeklySummaryW (summaries : List SummaryPage) (weekPeriod : String)
    (agentPageId : Nat) : Option (Option Nat) :=
  (parseWeekPeriod weekPeriod).map (fun se => findSummaryId summaries se.1 agentPageId)

/-- findWeeklyTotal as in the source: parse, then query on the start date
alone. -/
def findWeeklyTotalW (totals : List TotalPage) (weekPeriod : String) :
    Option (Option Nat) :=
  (parseWeekPeriod weekPeriod).map (fun se => findTotalId totals se.1)

/-! ## Upsert payloads and page writes -/

/-- NotionAgentData. -/
structure NotionAgentData where
  agentId : String
  agentName : String
  remark : String
  superAgentName : String
  feeRate : ℚ
deriving DecidableEq

/-- createAgent: create a page with all five agent properties. Returns the
updated list, the next counter and the new page id. -/
def createAgentPage (agents : List AgentPage) (nextId : Nat) (d : NotionAgentData) :
    List AgentPage × Nat × Nat :=
  (agents ++ [{ id := nextId, archived := false, agentId := d.agentId,
                agentName := d.agentName, remark := d.remark,
                superAgentName := d.superAgentName, feeRate := d.feeRate }],
   nextId + 1, nextId)

/-- NotionPlayerData. -/
structure NotionPlayerData where
  playerId : String
  nickname : String
  agentId : String
  agentPageId : Option Nat
  country : String
  remark : String
  rakebackRate : ℚ
deriving DecidableEq

/-- upsertPlayer's update payload: all scalar properties are written; the
エージェント relation is written only when an agent page id is present. -/
def applyPlayerPayload (d : NotionPlayerData) (p : PlayerPage) : PlayerPage :=
  { p with nickname := d.nickname, playerId := d.playerId, country := d.country,
           remark := d.remark, rakebackRate := d.rakebackRate,
           agents := match d.agentPageId with | some g => [g] | none => p.agents }

/-- upsertPlayer's create path. -/
def createPlayerPage (players : List PlayerPage) (nextId : Nat) (d : NotionPlayerData) :
    List PlayerPage × Nat × Nat :=
  (players ++ [{ id := nextId, archived := false, playerId := d.playerId,
                 nickname := d.nickname, country := d.country, remark := d.remark,
                 rakebackRate := d.rakebackRate,
                 agents := match d.agentPageId with | some g => [g] | none => [] }],
   nextId + 1, nextId)

/-- pages.update on one player page; the flag records whether any written
property value actually differed. -/
def updatePlayerById (players : List PlayerPage) (pid : Nat) (d : NotionPlayerData) :
    List PlayerPage × Bool :=
  (players.map (fun p => if p.id = pid then applyPlayerPayload d p else p),
   players.any (fun p => (p.id = pid : Bool) && (applyPlayerPayload d p ≠ p : Bool)))

/-- NotionWeeklySummaryData, with the 週期間 already parsed. -/
structure SummaryPayload where
  title : String
  weekStart : String
  weekEnd : String
  agentPageId : Nat
  playerCount : ℚ
  agentReward : ℚ
  settlementAmount : ℚ
deriving DecidableEq

/-- The payload built in runSync step 12 for one agent group: the title
prefers the ledger's リマーク over the agent name; エージェント報酬 is
Math.floor(agentReward * 100). -/
def summaryPayloadOf (targetPeriod start endd : String)
    (sheetsAgentData : List SheetsAgentData) (g : AgentSyncSummary) (apid : Nat) :
    SummaryPayload :=
  let sa := sheetsAgentData.find? (fun a => (a.agentId = g.agentId : Bool))
  let remark : Option String :=
    match sa with
    | some a => if a.remark = "" then none else some a.remark
    | none => none
  let displayName := remark.getD g.agentName
  { title := targetPeriod ++ " - " ++ displayName
    weekStart := start
    weekEnd := endd
    agentPageId := apid
    playerCount := (g.players.length : ℚ)
    agentReward := (ratFloor (g.agentReward * 100) : ℚ)
    settlementAmount := g.settlementAmount }

/-- upsertWeeklySummary's update payload: every declared property except
the 週次集金個別 relation (written later by the wiring step). -/
def applySummaryPayload (d : SummaryPayload) (p : SummaryPage) : SummaryPage :=
  { p with title := d.title, weekStart := d.weekStart, weekEnd := d.weekEnd,
           agents := [d.agentPageId], playerCount := d.playerCount,
           agentReward := d.agentReward, settlementAmount := d.settlementAmount }

/-- upsertWeeklySummary's create path. -/
def createSummaryPage (summaries : List SummaryPage) (nextId : Nat) (d : SummaryPayload) :
    List SummaryPage × Nat × Nat :=
  (summaries ++ [{ id := nextId, archived := false, title := d.title,
                   weekStart := d.weekStart, weekEnd := d.weekEnd,
                   agents := [d.agentPageId], playerCount := d.playerCount,
                   agentReward := d.agentReward, settlementAmount := d.settlementAmount,
                   detailIds := [] }],
   nextId + 1, nextId)

/-- pages.update on one summary page, with a changed-values flag. -/
def updateSummaryById (summaries : List SummaryPage) (pid : Nat) (d : SummaryPayload) :
    List SummaryPage × Bool :=
  (summaries.map (fun p => if p.id = pid then applySummaryPayload d p else p),
   summaries.any (fun p => (p.id = pid : Bool) && (applySummaryPayload d p ≠ p : Bool)))

/-- NotionWeeklyDetailData. -/
structure DetailPayload where
  nickname : String
  summaryPageId : Nat
  playerPageId : Option Nat
  playerId : String
  revenue : ℚ
  rake : ℚ
  rakebackRate : ℚ
  rakeback : ℚ
  amount : ℚ
deriving DecidableEq

/-- The payload built in runSync step 13 for one collection row: 収益・
レーキ・レーキバック are Math.floor(x * 100), 金額 is written unscaled. -/
def detailPayloadOf (row : CollectionDataRow) (spid : Nat) (ppid : Option Nat) :
    DetailPayload :=
  { nickname := row.playerNickname
    summaryPageId := spid
    playerPageId := ppid
    playerId := row.playerId
    revenue := (ratFloor (row.revenue * 100) : ℚ)
    rake := (ratFloor (row.rake * 100) : ℚ)
    rakebackRate := row.rakebackRate
    rakeback := (ratFloor (row.rakeback * 100) : ℚ)
    amount := row.amount }

/-- upsertWeeklyDetail's update payload: the プレイヤー relation is written
only when a player page id was resolved. -/
def applyDetailPayload (d : DetailPayload) (p : DetailPage) : DetailPage :=
  { p with nickname := d.nickname, summaryIds := [d.summaryPageId],
           playerId := d.playerId, revenue := d.revenue, rake := d.rake,
           rakebackRate := d.rakebackRate, rakeback := d.rakeback, amount := d.amount,
           playerIds := match d.playerPageId with | some x => [x] | none => p.playerIds }

/-- upsertWeeklyDetail's create path. -/
def createDetailPage (details : List DetailPage) (nextId : Nat) (d : DetailPayload) :
    List DetailPage × Nat × Nat :=
  (details ++ [{ id := nextId, archived := false, nickname := d.nickname,
                 summaryIds := [d.summaryPageId],
                 playerIds := match d.playerPageId with | some x => [x] | none => [],
                 playerId := d.playerId, revenue := d.revenue, rake := d.rake,
                 rakebackRate := d.rakebackRate, rakeback := d.rakeback,
                 amount := d.amount }],
   nextId + 1, nextId)

/-- pages.update on one detail page, with a changed-values flag. -/
def updateDetailById (details : List DetailPage) (pid : Nat) (d : DetailPayload) :
    List DetailPage × Bool :=
  (details.map (fun p => if p.id = pid then applyDetailPayload d p else p),
   details.any (fun p => (p.id = pid : Bool) && (applyDetailPayload d p ≠ p : Bool)))

/-- NotionWeeklyTotalData with the 週期間 parsed; the sync command passes
no summary relation, so only these properties are written. -/
structure TotalPayload where
  title : String
  weekStart : String
  weekEnd : String
  totalRake : ℚ
  totalRakeback : ℚ
  totalAgentFee : ℚ
  houseSales : ℚ
deriving DecidableEq

/-- upsertWeeklyTotal's update payload. -/
def applyTotalPayload (d : TotalPayload) (p : TotalPage) : TotalPage :=
  { p with title := d.title, weekStart := d.weekStart, weekEnd := d.weekEnd,
           totalRake := d.totalRake, totalRakeback := d.totalRakeback,
           totalAgentFee := d.totalAgentFee, houseSales := d.houseSales }

/-- upsertWeeklyTotal's create path. -/
def createTotalPage (totals : List TotalPage) (nextId : Nat) (d : TotalPayload) :
    List TotalPage × Nat × Nat :=
  (totals ++ [{ id := nextId, archived := false, title := d.title,
                weekStart := d.weekStart, weekEnd := d.weekEnd,
                totalRake := d.totalRake, totalRakeback := d.totalRakeback,
                totalAgentFee := d.totalAgentFee, houseSales := d.houseSales,
                summaryIds := [] }],
   nextId + 1, nextId)

/-- pages.update on one total page, with a changed-values flag. -/
def updateTotalById (totals : List TotalPage) (pid : Nat) (d : TotalPayload) :
    List TotalPage × Bool :=
  (totals.map (fun p => if p.id = pid then applyTotalPayload d p else p),
   totals.any (fun p => (p.id = pid : Bool) && (applyTotalPayload d p ≠ p : Bool)))

/-! ## The Reconciler phases (src/src/commands/sync.ts, runSync) -/

/-- Fee-rate resolution map: Notion values first, then ledger values for
agent ids not present, with lookup defaulting to 0.7 at use sites. -/
def agentFeeRatesMap (notionM : List (String × (Nat × ℚ))) (sheetsM : List (String × ℚ)) :
    List (String × ℚ) :=
  let base := notionM.foldl (fun m e => setA m e.1 e.2.2) []
  sheetsM.foldl (fun m e => if (lookupA m e.1).isSome then m else setA m e.1 e.2) base

/-- The ledger fee-rate map built from the エージェントデータ sheet. -/
def sheetsFeeRatesMap (l : List SheetsAgentData) : List (String × ℚ) :=
  l.foldl (fun m a => setA m a.agentId a.feeRate) []

/-- Output of step 9 (agent upsert: create-only). -/
structure AgentPhaseOut where
  agents : List AgentPage
  nextId : Nat
  pageIds : List (String × Nat)
  created : Nat
deriving DecidableEq

/-- Step 9: for every non-direct group, reuse the existing agent page or
create one, pulling リマーク / Super Agent from the ledger agent master. -/
def agentStep (sheetsAgentData : List SheetsAgentData)
    (existingAgents : List (String × (Nat × ℚ)))
    (acc : AgentPhaseOut) (g : AgentSyncSummary) : AgentPhaseOut :=
  if g.agentId = "" then acc
  else
    match lookupA existingAgents g.agentId with
    | some e => { acc with pageIds := setA acc.pageIds g.agentId e.1 }
    | none =>
      let sa := sheetsAgentData.find? (fun a => (a.agentId = g.agentId : Bool))
      let d : NotionAgentData :=
        { agentId := g.agentId, agentName := g.agentName,
          remark := (sa.map (fun a => a.remark)).getD "",
          superAgentName := (sa.map (fun a => a.superAgentName)).getD "",
          feeRate := g.feeRate }
      let c := createAgentPage acc.agents acc.nextId d
      { agents := c.1, nextId := c.2.1,
        pageIds := setA acc.pageIds g.agentId c.2.2, created := acc.created + 1 }

/-- Step 9: for every non-direct group, reuse the existing agent page or
create one, pulling リマーク / Super Agent from the ledger agent master. -/
def agentPhase (sheetsAgentData : List SheetsAgentData)
    (existingAgents : List (String × (Nat × ℚ)))
    (agentSummaries : List AgentSyncSummary)
    (agents0 : List AgentPage) (n0 : Nat) : AgentPhaseOut :=
  agentSummaries.foldl (agentStep sheetsAgentData existingAgents)
    { agents := agents0, nextId := n0, pageIds := [], created := 0 }

/-- Output of step 10 (player sync over the full player master). -/
structure PlayerPhaseOut where
  players : List PlayerPage
  nextId : Nat
  pageIdMap : List ((String × String) × Nat)
  created : Nat
  changed : Nat
deriving DecidableEq

/-- Step 10: upsert every ledger player row by (プレイヤーID, agent page id),
recording the page under (プレイヤーID, エージェントID). -/
def playerPayloadOf (agentPageIds : List (String × Nat)) (pl : SheetsPlayerData) :
    NotionPlayerData :=
  { playerId := pl.playerId, nickname := pl.nickname, agentId := pl.agentId,
    agentPageId := if pl.agentId = "" then none else lookupA agentPageIds pl.agentId,
    country := pl.country, remark := pl.remark,
    rakebackRate := pl.rakebackRate }

/-- Step 10: upsert every ledger player row by (プレイヤーID, agent page id),
recording the page under (プレイヤーID, エージェントID). -/
def playerStep (agentPageIds : List (String × Nat))
    (existingPlayers : List ((String × Option Nat) × Nat))
    (acc : PlayerPhaseOut) (pl : SheetsPlayerData) : PlayerPhaseOut :=
  let apid : Option Nat :=
    if pl.agentId = "" then none else lookupA agentPageIds pl.agentId
  let d : NotionPlayerData := playerPayloadOf agentPageIds pl
  match lookupA existingPlayers (pl.playerId, apid) with
  | some pid =>
    let u := updatePlayerById acc.players pid d
    { acc with
      players := u.1,
      pageIdMap := setA acc.pageIdMap (pl.playerId, pl.agentId) pid,
      changed := acc.changed + (if u.2 then 1 else 0) }
  | none =>
    let c := createPlayerPage acc.players acc.nextId d
    { acc with
      players := c.1, nextId := c.2.1,
      pageIdMap := setA acc.pageIdMap (pl.playerId, pl.agentId) c.2.2,
      created := acc.created + 1 }

/-- Step 10: upsert every ledger player row by (プレイヤーID, agent page id),
recording the page under (プレイヤーID, エージェントID). -/
def playerPhase (sheetsPlayerData : List SheetsPlayerData)
    (agentPageIds : List (String × Nat))
    (existingPlayers : List ((String × Option Nat) × Nat))
    (players0 : List PlayerPage) (n0 : Nat) : PlayerPhaseOut :=
  sheetsPlayerData.foldl (playerStep agentPageIds existingPlayers)
    { players := players0, nextId := n0, pageIdMap := [], created := 0, changed := 0 }

/-- Output of step 12 (weekly summary upsert). -/
structure SummaryPhaseOut where
  summaries : List SummaryPage
  nextId : Nat
  pageIds : List (String × Nat)
  created : Nat
  changed : Nat
deriving DecidableEq

/-- Step 12: upsert one WeeklySummary per non-direct group by
(週期間 start, エージェント relation). -/
def summaryStep (targetPeriod start endd : String)
    (sheetsAgentData : List SheetsAgentData)
    (agentPageIds : List (String × Nat))
    (acc : SummaryPhaseOut) (g : AgentSyncSummary) : SummaryPhaseOut :=
  if g.agentId = "" then acc
  else
    match lookupA agentPageIds g.agentId with
    | none => acc
    | some apid =>
      let d := summaryPayloadOf targetPeriod start endd sheetsAgentData g apid
      match findSummaryId acc.summaries start apid with
      | some pid =>
        let u := updateSummaryById acc.summaries pid d
        { acc with
          summaries := u.1,
          pageIds := setA acc.pageIds g.agentId pid,
          changed := acc.changed + (if u.2 then 1 else 0) }
      | none =>
        let c := createSummaryPage acc.summaries acc.nextId d
        { acc with
          summaries := c.1, nextId := c.2.1,
          pageIds := setA acc.pageIds g.agentId c.2.2,
          created := acc.created + 1 }

/-- Step 12: upsert one WeeklySummary per non-direct group by
(週期間 start, エージェント relation). -/
def summaryPhase (targetPeriod start endd : String)
    (sheetsAgentData : List SheetsAgentData)
    (agentPageIds : List (String × Nat))
    (agentSummaries : List AgentSyncSummary)
    (summaries0 : List SummaryPage) (n0 : Nat) : SummaryPhaseOut :=
  agentSummaries.foldl (summaryStep targetPeriod start endd sheetsAgentData agentPageIds)
    { summaries := summaries0, nextId := n0, pageIds := [], created := 0, changed := 0 }

/-- Step 12.5: archive every summary of the week (from the agent-keyed
query map) whose page id is not among the just-upserted ones. -/
def archiveSummaryStep (syncedIds : List Nat)
    (acc : List SummaryPage × Nat) (e : Nat × Nat) : List SummaryPage × Nat :=
  if syncedIds.contains e.2 then acc
  else
    (acc.1.map (fun p => if p.id = e.2 then { p with archived := true } else p),
     acc.2 + 1)

/-- Step 12.5: archive every summary of the week (from the agent-keyed
query map) whose page id is not among the just-upserted ones. -/
def archiveSummaries (start : String) (syncedIds : List Nat)
    (summaries : List SummaryPage) : List SummaryPage × Nat :=
  (getAllSummariesByPeriodMap summaries start).foldl (archiveSummaryStep syncedIds)
    (summaries, 0)

/-- Inner state of step 13 while walking one group's player rows. -/
structure DetailInner where
  details : List DetailPage
  nextId : Nat
  ids : List Nat
  created : Nat
  changed : Nat
deriving DecidableEq

/-- One collection row of step 13: resolve the player page (synced map
first, then the pre-fetched store map), then upsert the detail by
(週次集金 relation, プレイヤーID). -/
def resolvePpid (agentPageIds : List (String × Nat))
    (playerPageIdMap : List ((String × String) × Nat))
    (existingPlayers : List ((String × Option Nat) × Nat))
    (aid : String) (row : CollectionDataRow) : Option Nat :=
  match lookupA playerPageIdMap (row.playerId, aid) with
  | some x => some x
  | none => lookupA existingPlayers (row.playerId, lookupA agentPageIds aid)

def detailRowStep (agentPageIds : List (String × Nat))
    (playerPageIdMap : List ((String × String) × Nat))
    (existingPlayers : List ((String × Option Nat) × Nat))
    (aid : String) (spid : Nat) (st : DetailInner) (row : CollectionDataRow) :
    DetailInner :=
  let ppid : Option Nat := resolvePpid agentPageIds playerPageIdMap existingPlayers aid row
  let d := detailPayloadOf row spid ppid
  match findDetailId st.details spid row.playerId with
  | some pid =>
    let u := updateDetailById st.details pid d
    { st with
      details := u.1, ids := st.ids ++ [pid],
      changed := st.changed + (if u.2 then 1 else 0) }
  | none =>
    let c := createDetailPage st.details st.nextId d
    { st with
      details := c.1, nextId := c.2.1, ids := st.ids ++ [c.2.2],
      created := st.created + 1 }

/-- Output of step 13. -/
structure DetailPhaseOut where
  details : List DetailPage
  nextId : Nat
  summaryDetailIds : List (String × List Nat)
  created : Nat
  changed : Nat
deriving DecidableEq

/-- Step 13: upsert the details of every non-direct group, collecting the
detail page ids per agent. -/
def detailAgentStep (agentPageIds : List (String × Nat))
    (summaryPageIds : List (String × Nat))
    (playerPageIdMap : List ((String × String) × Nat))
    (existingPlayers : List ((String × Option Nat) × Nat))
    (acc : DetailPhaseOut) (g : AgentSyncSummary) : DetailPhaseOut :=
  if g.agentId = "" then acc
  else
    match lookupA summaryPageIds g.agentId with
    | none => acc
    | some spid =>
      let inner := g.players.foldl
        (detailRowStep agentPageIds playerPageIdMap existingPlayers g.agentId spid)
        { details := acc.details, nextId := acc.nextId, ids := [],
          created := acc.created, changed := acc.changed }
      { details := inner.details, nextId := inner.nextId,
        summaryDetailIds := setA acc.summaryDetailIds g.agentId inner.ids,
        created := inner.created, changed := inner.changed }

/-- Step 13: upsert the details of every non-direct group, collecting the
detail page ids per agent. -/
def detailPhase (agentPageIds : List (String × Nat))
    (summaryPageIds : List (String × Nat))
    (playerPageIdMap : List ((String × String) × Nat))
    (existingPlayers : List ((String × Option Nat) × Nat))
    (agentSummaries : List AgentSyncSummary)
    (details0 : List DetailPage) (n0 : Nat) : DetailPhaseOut :=
  agentSummaries.foldl
    (detailAgentStep agentPageIds summaryPageIds playerPageIdMap existingPlayers)
    { details := details0, nextId := n0, summaryDetailIds := [], created := 0, changed := 0 }

/-- Step 13.5: per synced summary, archive every related detail whose page
id is not among the ids just written for that summary. -/
def archiveDetailInner (ids : List Nat)
    (acc2 : List DetailPage × Nat) (de : String × Nat) : List DetailPage × Nat :=
  if ids.contains de.2 then acc2
  else
    (acc2.1.map (fun d => if d.id = de.2 then { d with archived := true } else d),
     acc2.2 + 1)

/-- One synced summary of step 13.5. -/
def archiveDetailStep (summaryPageIds : List (String × Nat))
    (acc : List DetailPage × Nat) (e : String × List Nat) : List DetailPage × Nat :=
  match lookupA summaryPageIds e.1 with
  | none => acc
  | some spid =>
    (getAllDetailsBySummaryMap acc.1 spid).foldl (archiveDetailInner e.2) acc

/-- Step 13.5: per synced summary, archive every related detail whose page
id is not among the ids just written for that summary. -/
def archiveDetails (summaryPageIds : List (String × Nat))
    (summaryDetailIds : List (String × List Nat))
    (details : List DetailPage) : List DetailPage × Nat :=
  summaryDetailIds.foldl (archiveDetailStep summaryPageIds) (details, 0)

/-- Step 14: point each summary's 週次集金個別 relation at exactly the
detail ids written for it (skipped when the id list is empty). -/
def wiringStep (summaryPageIds : List (String × Nat))
    (acc : List SummaryPage × Nat) (e : String × List Nat) : List SummaryPage × Nat :=
  match lookupA summaryPageIds e.1 with
  | none => acc
  | some spid =>
    if e.2.isEmpty then acc
    else
      (acc.1.map (fun p => if p.id = spid then { p with detailIds := e.2 } else p),
       acc.2 + (if acc.1.any (fun p => (p.id = spid : Bool) && (p.detailIds ≠ e.2 : Bool)) then 1 else 0))

/-- Step 14: point each summary's 週次集金個別 relation at exactly the
detail ids written for it (skipped when the id list is empty). -/
def wiringPhase (summaryPageIds : List (String × Nat))
    (summaryDetailIds : List (String × List Nat))
    (summaries : List SummaryPage) : List SummaryPage × Nat :=
  summaryDetailIds.foldl (wiringStep summaryPageIds) (summaries, 0)

/-- Output of step 15. -/
structure TotalPhaseOut where
  totals : List TotalPage
  nextId : Nat
  created : Nat
  changed : Nat
deriving DecidableEq

/-- Step 15: grand totals over all groups (the direct group included),
ハウス利益 = 総レーキ − 総レーキバック − 総エージェントフィー, upserted by
週期間 start; skipped entirely when no weekly-total database is configured. -/
def totalPhase (hasTotalDb : Bool) (targetPeriod start endd : String)
    (agentSummaries : List AgentSyncSummary)
    (totals0 : List TotalPage) (n0 : Nat) : TotalPhaseOut :=
  if hasTotalDb then
    let grandTotalRake := agentSummaries.foldl (fun s g => s + g.totalRake) 0
    let grandTotalRakeback := agentSummaries.foldl (fun s g => s + g.totalRakeback) 0
    let grandTotalAgentFee := agentSummaries.foldl (fun s g => s + g.agentReward) 0
    let houseProfit := grandTotalRake - grandTotalRakeback - grandTotalAgentFee
    let d : TotalPayload :=
      { title := targetPeriod, weekStart := start, weekEnd := endd,
        totalRake := (ratFloor (grandTotalRake * 100) : ℚ),
        totalRakeback := (ratFloor (grandTotalRakeback * 100) : ℚ),
        totalAgentFee := (ratFloor (grandTotalAgentFee * 100) : ℚ),
        houseSales := (ratFloor (houseProfit * 100) : ℚ) }
    match findTotalId totals0 start with
    | some pid =>
      let u := updateTotalById totals0 pid d
      { totals := u.1, nextId := n0, created := 0,
        changed := if u.2 then 1 else 0 }
    | none =>
      let c := createTotalPage totals0 n0 d
      { totals := c.1, nextId := c.2.1, created := 1, changed := 0 }
  else { totals := totals0, nextId := n0, created := 0, changed := 0 }

/-- Counters and traces of one sync run. -/
structure SyncStats where
  createdAgents : Nat
  createdPlayers : Nat
  createdSummaries : Nat
  createdDetails : Nat
  createdTotals : Nat
  archivedSummaries : Nat
  archivedDetails : Nat
  changedWrites : Nat
  syncedSummaryIds : List Nat
deriving DecidableEq

/-- One week's source data, as loaded from the ledger. -/
structure SyncInput where
  targetPeriod : String
  collectionData : List CollectionDataRow
  sheetsAgentData : List SheetsAgentData
  sheetsPlayerData : List SheetsPlayerData
  hasTotalDb : Bool
deriving DecidableEq

/-- The Reconciler's non-dry-run pipeline over one week (runSync steps
9 to 15). Returns none when the collection set is empty (the command
exits before writing) or when the week-period string does not parse (the
source throws at the first upsert that parses it; the model surfaces the
failure up front and the claims below quantify over successful runs). -/
def runSync (inp : SyncInput) (s : Store) : Option (Store × SyncStats) :=
  if inp.collectionData.isEmpty then none
  else
    match parseWeekPeriod inp.targetPeriod with
    | none => none
    | some se =>
      let start := se.1
      let endd := se.2
      let sheetsFR := sheetsFeeRatesMap inp.sheetsAgentData
      let existingAgents := getAllAgentsMap s.agents
      let feeRates := agentFeeRatesMap existingAgents sheetsFR
      let agentSummaries := groupCollectionByAgent inp.collectionData feeRates
      let ap := agentPhase inp.sheetsAgentData existingAgents agentSummaries s.agents s.nextId
      let existingPlayers := getAllPlayersMap s.players
      let pp := playerPhase inp.sheetsPlayerData ap.pageIds existingPlayers s.players ap.nextId
      let sp := summaryPhase inp.targetPeriod start endd inp.sheetsAgentData ap.pageIds
        agentSummaries s.summaries pp.nextId
      let syncedIds := sp.pageIds.map Prod.snd
      let arS := archiveSummaries start syncedIds sp.summaries
      let dp := detailPhase ap.pageIds sp.pageIds pp.pageIdMap existingPlayers
        agentSummaries s.details sp.nextId
      let arD := archiveDetails sp.pageIds dp.summaryDetailIds dp.details
      let wr := wiringPhase sp.pageIds dp.summaryDetailIds arS.1
      let tp := totalPhase inp.hasTotalDb inp.targetPeriod start endd agentSummaries
        s.totals dp.nextId
      some
        ({ nextId := tp.nextId, agents := ap.agents, players := pp.players,
           summaries := wr.1, details := arD.1, totals := tp.totals },
         { createdAgents := ap.created, createdPlayers := pp.created,
           createdSummaries := sp.created, createdDetails := dp.created,
           createdTotals := tp.created,
           archivedSummaries := arS.2, archivedDetails := arD.2,
           changedWrites := pp.changed + sp.changed + dp.changed + wr.2 + tp.changed,
           syncedSummaryIds := syncedIds })

/-! ## Schema evolver (src/src/lib/notion.ts ensureDatabaseProperties and
ensureRollupProperties, src/src/commands/migrate.ts ensureDetailRelation) -/

/-- Closed model of a Notion property definition, per §9's design note. -/
inductive PropSpec where
  | title : PropSpec
  | richText : PropSpec
  | number (format : String) : PropSpec
  | date : PropSpec
  | checkbox : PropSpec
  | relationSingle (dbId : Option String) : PropSpec
  | relationDual (dbId : Option String) (syncedName : String) : PropSpec
  | rollup (relationName : String) (rollupName : String) (func : String) : PropSpec
  | otherType (tag : String) : PropSpec
deriving DecidableEq

/-- Whether a live property has title type. -/
def isTitle : PropSpec → Bool
  | .title => true
  | _ => false

/-- Whether a live property has rollup type. -/
def isRollup : PropSpec → Bool
  | .rollup _ _ _ => true
  | _ => false

/-- Whether a live property has relation type. -/
def isRelation : PropSpec → Bool
  | .relationSingle _ => true
  | .relationDual _ _ => true
  | _ => false

/-- Rename a property in a live schema, keeping its definition and slot. -/
def renameKey (l : List (String × PropSpec)) (old new : String) :
    List (String × PropSpec) :=
  l.map (fun e => if e.1 = old then (new, e.2) else e)

/-- Bind a declared relation property to the caller-supplied target
database id (the declared schema carries no id). -/
def bindRelation (relationDbId : Option String) : PropSpec → PropSpec
  | .relationSingle none =>
    match relationDbId with
    | some dbId => .relationSingle (some dbId)
    | none => .relationSingle none
  | .relationDual none sn =>
    match relationDbId with
    | some dbId => .relationDual (some dbId) sn
    | none => .relationDual none sn
  | spec => spec

/-- Result of ensureDatabaseProperties. -/
structure EnsurePropsOut where
  schema : List (String × PropSpec)
  added : List String
  existing : List String
  renamed : Option (String × String)
deriving DecidableEq

/-- One declared property of ensureDatabaseProperties' main loop: title
properties are skipped (handled by the rename pass), a name present in
the original live schema is reported as existing and left untouched
whatever its type, and a missing name is appended with the declared
type. -/
def ensurePropsStep (existingNames : List String) (relationDbId : Option String)
    (acc : EnsurePropsOut) (e : String × PropSpec) : EnsurePropsOut :=
  if isTitle e.2 then { acc with existing := acc.existing ++ [e.1] }
  else if existingNames.contains e.1 then
    { acc with existing := acc.existing ++ [e.1] }
  else
    { acc with
      schema := acc.schema ++ [(e.1, bindRelation relationDbId e.2)],
      added := acc.added ++ [e.1] }

/-- ensureDatabaseProperties: rename the live title property to the
declared title name when they differ; then add every declared non-title
property whose name is not already present. -/
def ensureDatabaseProperties (live : List (String × PropSpec))
    (required : List (String × PropSpec)) (relationDbId : Option String) :
    EnsurePropsOut :=
  let requiredTitle := (required.find? (fun e => isTitle e.2)).map Prod.fst
  let existingTitle := (live.find? (fun e => isTitle e.2)).map Prod.fst
  let st : List (String × PropSpec) × Option (String × String) :=
    match requiredTitle, existingTitle with
    | some rt, some et =>
      if rt ≠ et then (renameKey live et rt, some (et, rt)) else (live, none)
    | _, _ => (live, none)
  required.foldl (ensurePropsStep (live.map Prod.fst) relationDbId)
    { schema := st.1, added := [], existing := [], renamed := st.2 }

/-- One declared rollup: remote property name and aggregation function. -/
structure RollupDecl where
  rollupPropName : String
  func : String
deriving DecidableEq

/-- Classification pass of ensureRollupProperties. -/
structure RollupScan where
  added : List String
  existing : List String
  converted : List String
  renames : List String
  toAdd : List (String × PropSpec)
deriving DecidableEq

/-- One declared rollup of ensureRollupProperties' scan: an already-rollup
name is existing; a same-named non-rollup property is marked for a rename
to name_old plus a fresh rollup; a missing name is a plain add. -/
def rollupStep (live : List (String × PropSpec)) (relationPropertyName : String)
    (acc : RollupScan) (e : String × RollupDecl) : RollupScan :=
  match lookupA live e.1 with
  | some spec =>
    if isRollup spec then { acc with existing := acc.existing ++ [e.1] }
    else
      { acc with
        converted := acc.converted ++ [e.1],
        renames := acc.renames ++ [e.1],
        toAdd := acc.toAdd ++
          [(e.1, .rollup relationPropertyName e.2.rollupPropName e.2.func)] }
  | none =>
    { acc with
      added := acc.added ++ [e.1],
      toAdd := acc.toAdd ++
        [(e.1, .rollup relationPropertyName e.2.rollupPropName e.2.func)] }

/-- Scan the declared rollups against the live schema. -/
def rollupScan (live : List (String × PropSpec))
    (rollupSchema : List (String × RollupDecl)) (relationPropertyName : String) :
    RollupScan :=
  rollupSchema.foldl (rollupStep live relationPropertyName)
    { added := [], existing := [], converted := [], renames := [], toAdd := [] }

/-- Apply the collected renames: each listed name becomes name_old. -/
def applyRenames (live : List (String × PropSpec)) (renames : List String) :
    List (String × PropSpec) :=
  renames.foldl (fun l n => renameKey l n (n ++ "_old")) live

/-- Result of ensureRollupProperties. -/
structure EnsureRollupsOut where
  schema : List (String × PropSpec)
  added : List String
  existing : List String
  converted : List String
deriving DecidableEq

/-- ensureRollupProperties: rename wrong-typed same-named properties to
name_old, then append the declared rollups. -/
def ensureRollupProperties (live : List (String × PropSpec))
    (rollupSchema : List (String × RollupDecl)) (relationPropertyName : String) :
    EnsureRollupsOut :=
  let sc := rollupScan live rollupSchema relationPropertyName
  { schema := applyRenames live sc.renames ++ sc.toAdd,
    added := sc.added, existing := sc.existing, converted := sc.converted }

/-- 週次集金DBの週次集金個別リレーション name. -/
def weeklySummaryDetailRelationName : String := "週次集金個別"

/-- Result of ensureDetailRelation. -/
structure EnsureRelOut where
  schema : List (String × PropSpec)
  created : Bool
  existing : Bool
deriving DecidableEq

/-- ensureDetailRelation (non-dry-run): keep an existing relation-typed
property; rename a wrong-typed one to name_old first; then create the
relation pointing at the detail database. -/
def ensureDetailRelation (live : List (String × PropSpec)) (detailDbId : String) :
    EnsureRelOut :=
  let relN := weeklySummaryDetailRelationName
  match lookupA live relN with
  | some spec =>
    if isRelation spec then { schema := live, created := false, existing := true }
    else
      { schema := renameKey live relN (relN ++ "_old") ++
          [(relN, .relationSingle (some detailDbId))],
        created := true, existing := false }
  | none =>
    { schema := live ++ [(relN, .relationSingle (some detailDbId))],
      created := true, existing := false }

/-- The declared 週次集金DB schema (WEEKLY_SUMMARY_DB_SCHEMA). -/
def weeklySummarySchema : List (String × PropSpec) :=
  [("タイトル", .title), ("週期間", .date), ("エージェント", .relationSingle none),
   ("プレイヤー数", .number "number"), ("エージェント報酬", .number "yen"),
   ("対ハウス精算金額", .number "yen"), ("精算済み", .checkbox)]

/-- The declared 週次集金DB rollups (WEEKLY_SUMMARY_ROLLUP_SCHEMA). -/
def weeklySummaryRollupSchema : List (String × RollupDecl) :=
  [("レーキ合計", { rollupPropName := "レーキ", func := "sum" }),
   ("レーキバック合計", { rollupPropName := "レーキバック", func := "sum" }),
   ("成績合計", { rollupPropName := "成績", func := "sum" }),
   ("精算金額合計", { rollupPropName := "精算金額", func := "sum" })]

/-! ## Store well-formedness

The invariants the upsert protocol maintains (§4.3: at most one live
record per natural key; page ids unique and below the allocation
counter; relation lists written by the protocol are singletons). -/

/-- Well-formedness of a store. -/
structure WFStore (s : Store) : Prop where
  agentsFresh : ∀ p ∈ s.agents, p.id < s.nextId
  playersFresh : ∀ p ∈ s.players, p.id < s.nextId
  summariesFresh : ∀ p ∈ s.summaries, p.id < s.nextId
  detailsFresh : ∀ p ∈ s.details, p.id < s.nextId
  totalsFresh : ∀ p ∈ s.totals, p.id < s.nextId
  agentsNodup : (s.agents.map AgentPage.id).Nodup
  playersNodup : (s.players.map PlayerPage.id).Nodup
  summariesNodup : (s.summaries.map SummaryPage.id).Nodup
  detailsNodup : (s.details.map DetailPage.id).Nodup
  totalsNodup : (s.totals.map TotalPage.id).Nodup
  summariesSlim : ∀ p ∈ s.summaries, ¬p.archived → p.agents.length ≤ 1
  summariesKey : ∀ p ∈ s.summaries, ∀ q ∈ s.summaries, ¬p.archived → ¬q.archived →
    p.weekStart = q.weekStart → ∀ g, g ∈ p.agents → g ∈ q.agents → p = q
  detailsSlim : ∀ d ∈ s.details, ¬d.archived → d.summaryIds.length ≤ 1
  detailsKey : ∀ d ∈ s.details, ∀ e ∈ s.details, ¬d.archived → ¬e.archived →
    d.playerId = e.playerId → ∀ i, i ∈ d.summaryIds → i ∈ e.summaryIds → d = e
  totalsKey : ∀ t ∈ s.totals, ∀ u ∈ s.totals, ¬t.archived → ¬u.archived →
    t.weekStart = u.weekStart → t = u

/-- The spec's three-level fee-rate precedence, stated from §4.2's words:
the external store's existing value, else the ledger agent master's,
else 0.70. Reference definition compared against the code's map. -/
def feeRatePrecedence (notionM : List (String × (Nat × ℚ)))
    (sheetsM : List (String × ℚ)) (aid : String) : ℚ :=
  match lookupA notionM aid with
  | some e => e.2
  | none =>
    match lookupA sheetsM aid with
    | some f => f
    | none => 7/10

/-! ## Concrete instances used by witnesses and counterexamples -/

/-- A well-formed week period string. -/
def wp : String := "2025-01-13〜2025-01-19"

/-- All-zero run statistics, used as a getD default. -/
def defaultStats : SyncStats :=
  { createdAgents := 0, createdPlayers := 0, createdSummaries := 0,
    createdDetails := 0, createdTotals := 0, archivedSummaries := 0,
    archivedDetails := 0, changedWrites := 0, syncedSummaryIds := [] }

/-- The empty store. -/
def emptyStore : Store :=
  { nextId := 0, agents := [], players := [], summaries := [], details := [], totals := [] }

/-- One ordinary collection row for agent A with downstream player P. -/
def wit1Row : CollectionDataRow :=
  { weekPeriod := wp, agentName := "Alpha", agentId := "A", playerNickname := "Paul",
    playerId := "P", revenue := 3, rake := 10, rakebackRate := 1/10, rakeback := 1,
    amount := 400 }

/-- A matching player-master row. -/
def wit1Master : SheetsPlayerData :=
  { playerId := "P", nickname := "Paul", agentId := "A", agentName := "Alpha",
    country := "JP", remark := "", rakebackRate := 1/10 }

/-- Source data for the idempotence witness. -/
def wit1Input : SyncInput :=
  { targetPeriod := wp, collectionData := [wit1Row], sheetsAgentData := [],
    sheetsPlayerData := [wit1Master], hasTotalDb := true }

/-- First run of the idempotence witness. -/
def wit1Run1 : Store × SyncStats := (runSync wit1Input emptyStore).getD (emptyStore, defaultStats)

/-- Second run of the idempotence witness. -/
def wit1Run2 : Store × SyncStats := (runSync wit1Input wit1Run1.1).getD (emptyStore, defaultStats)

/-- Agent page for agent A. -/
def cxAgentPage : AgentPage :=
  { id := 1, archived := false, agentId := "A", agentName := "Alpha", remark := "",
    superAgentName := "", feeRate := 7/10 }

/-- A live weekly summary page for the witness week, related to agent page 1. -/
def cxSummary (i : Nat) : SummaryPage :=
  { id := i, archived := false, title := "t", weekStart := "2025-01-13",
    weekEnd := "2025-01-19", agents := [1], playerCount := 0, agentReward := 0,
    settlementAmount := 0, detailIds := [] }

/-- A store holding three live duplicate summaries for the same week and
agent: a state two concurrent runs can leave behind (§5). -/
def cxStore : Store :=
  { nextId := 20, agents := [cxAgentPage], players := [],
    summaries := [cxSummary 10, cxSummary 11, cxSummary 12], details := [], totals := [] }

/-- Source data for the duplicate-summary counterexample run. -/
def cxInput : SyncInput :=
  { targetPeriod := wp, collectionData := [wit1Row], sheetsAgentData := [],
    sheetsPlayerData := [], hasTotalDb := false }

/-- First run over the duplicate-summary store. -/
def cxRun1 : Store × SyncStats := (runSync cxInput cxStore).getD (cxStore, defaultStats)

/-- Second run over the duplicate-summary store. -/
def cxRun2 : Store × SyncStats := (runSync cxInput cxRun1.1).getD (cxStore, defaultStats)

/-- Two player-master rows with the same natural key and differing
nicknames. -/
def cx2Master1 : SheetsPlayerData :=
  { playerId := "P", nickname := "a", agentId := "A", agentName := "Alpha",
    country := "", remark := "", rakebackRate := 0 }

/-- Second duplicate master row. -/
def cx2Master2 : SheetsPlayerData :=
  { playerId := "P", nickname := "b", agentId := "A", agentName := "Alpha",
    country := "", remark := "", rakebackRate := 0 }

/-- Source data with duplicate player-master natural keys. -/
def cx2Input : SyncInput :=
  { targetPeriod := wp, collectionData := [wit1Row], sheetsAgentData := [],
    sheetsPlayerData := [cx2Master1, cx2Master2], hasTotalDb := false }

/-- First run of the duplicate-master counterexample. -/
def cx2Run1 : Store × SyncStats := (runSync cx2Input emptyStore).getD (emptyStore, defaultStats)

/-- Second run of the duplicate-master counterexample. -/
def cx2Run2 : Store × SyncStats := (runSync cx2Input cx2Run1.1).getD (emptyStore, defaultStats)

/-- Agent page for an agent B absent from the witness week's collection. -/
def c5AgentB : AgentPage :=
  { id := 2, archived := false, agentId := "B", agentName := "Beta", remark := "",
    superAgentName := "", feeRate := 7/10 }

/-- A live summary of the witness week for agent B. -/
def c5Summary : SummaryPage :=
  { id := 10, archived := false, title := "t", weekStart := "2025-01-13",
    weekEnd := "2025-01-19", agents := [2], playerCount := 0, agentReward := 0,
    settlementAmount := 0, detailIds := [] }

/-- Store for the archive-on-absence witness: agent B has a live summary
for the week, but the week's collection only names agent A. -/
def c5Store : Store :=
  { nextId := 20, agents := [cxAgentPage, c5AgentB], players := [],
    summaries := [c5Summary], details := [], totals := [] }

/-- Source data for the archive-on-absence witness. -/
def c5Input : SyncInput :=
  { targetPeriod := wp, collectionData := [wit1Row], sheetsAgentData := [],
    sheetsPlayerData := [], hasTotalDb := false }

/-- The archive-on-absence witness run. -/
def c5Run : Store × SyncStats := (runSync c5Input c5Store).getD (c5Store, defaultStats)

/-- §8 scenario row: agent A1, downstream player P1, rake 1000, rakeback
rate 0.1, rakeback joined in by the collect pipeline's rounding rule. -/
def scenRow1 : CollectionDataRow :=
  { weekPeriod := wp, agentName := "Agent One", agentId := "A1", playerNickname := "P1",
    playerId := "P1", revenue := 0, rake := 1000, rakebackRate := 1/10,
    rakeback := rakebackOf 1000 (1/10), amount := 0 }

/-- §8 scenario self-row: playerId equals agentId, rake 0. -/
def scenRow2 : CollectionDataRow :=
  { weekPeriod := wp, agentName := "Agent One", agentId := "A1", playerNickname := "A1",
    playerId := "A1", revenue := 0, rake := 0, rakebackRate := 0, rakeback := 0,
    amount := 0 }

/-- §8 scenario fee-rate map: feeRate = 0.7 for A1. -/
def scenFees : List (String × ℚ) := [("A1", 7/10)]

/-- A self-row-only agent (A2) with nonzero rake and rakeback values. -/
def selfOnlyRow : CollectionDataRow :=
  { weekPeriod := wp, agentName := "Agent Two", agentId := "A2", playerNickname := "A2",
    playerId := "A2", revenue := 5, rake := 500, rakebackRate := 1/10, rakeback := 50,
    amount := 77 }

/-- Sort-order rows: agents named Bravo, Alpha and a direct row. -/
def sortRows : List CollectionDataRow :=
  [{ weekPeriod := wp, agentName := "Bravo", agentId := "B", playerNickname := "x",
     playerId := "x", revenue := 0, rake := 0, rakebackRate := 0, rakeback := 0, amount := 0 },
   { weekPeriod := wp, agentName := "Alpha", agentId := "A", playerNickname := "y",
     playerId := "y", revenue := 0, rake := 0, rakebackRate := 0, rakeback := 0, amount := 0 },
   { weekPeriod := wp, agentName := "", agentId := "", playerNickname := "z",
     playerId := "z", revenue := 0, rake := 0, rakebackRate := 0, rakeback := 0, amount := 0 }]

/-- Store agents for the fee-precedence witness: A exists with 0.6. -/
def c6Agents : List AgentPage :=
  [{ id := 1, archived := false, agentId := "A", agentName := "Alpha", remark := "",
     superAgentName := "", feeRate := 3/5 }]

/-- Ledger agent master for the fee-precedence witness: A at 0.5 (shadowed
by the store), B at 0.55 (used), C absent (defaults). -/
def c6Sheets : List SheetsAgentData :=
  [{ agentId := "A", agentName := "Alpha", superAgentId := "", superAgentName := "",
     feeRate := 1/2, remark := "" },
   { agentId := "B", agentName := "Bravo", superAgentId := "", superAgentName := "",
     feeRate := 11/20, remark := "" }]

/-- Fee-precedence witness row for agent A. -/
def c6RowA : CollectionDataRow :=
  { weekPeriod := wp, agentName := "Alpha", agentId := "A", playerNickname := "p",
    playerId := "p", revenue := 0, rake := 0, rakebackRate := 0, rakeback := 0, amount := 0 }

/-- Fee-precedence witness rows: one row per agent A, B, C. -/
def c6Rows : List CollectionDataRow :=
  [c6RowA,
   { weekPeriod := wp, agentName := "Bravo", agentId := "B", playerNickname := "q",
     playerId := "q", revenue := 0, rake := 0, rakebackRate := 0, rakeback := 0, amount := 0 },
   { weekPeriod := wp, agentName := "Carol", agentId := "C", playerNickname := "r",
     playerId := "r", revenue := 0, rake := 0, rakebackRate := 0, rakeback := 0, amount := 0 }]

/-- The fee map the sync run would build for the witness data. -/
def c6Fees : List (String × ℚ) :=
  agentFeeRatesMap (getAllAgentsMap c6Agents) (sheetsFeeRatesMap c6Sheets)

/-- The A group of the fee-precedence witness (first row's group). -/
def c6GroupA : AgentSyncSummary :=
  finalizeSummary (accumRow (initSummary c6Fees c6RowA) c6RowA)

/-- Summary list for the natural-key witness: one page for the week start
2025-01-13 with agent relation [1]. -/
def c10Summaries : List SummaryPage := [cxSummary 10]

/-- Totals list for the natural-key witness. -/
def c10Totals : List TotalPage :=
  [{ id := 11, archived := false, title := "t", weekStart := "2025-01-13",
     weekEnd := "2025-01-19", totalRake := 0, totalRakeback := 0, totalAgentFee := 0,
     houseSales := 0, summaryIds := [] }]

/-- A second, distinct week-period string with the same start date. -/
def wp2 : String := "2025-01-13 ～ 2025-01-26"

/-- Live schema for the evolver counterexample: the declared number
property プレイヤー数 exists with rich_text type. -/
def c8Live : List (String × PropSpec) :=
  [("タイトル", .title), ("プレイヤー数", .richText)]

/-- Live schema where a declared rollup name exists as a number property. -/
def c8RollupLive : List (String × PropSpec) :=
  [("タイトル", .title), ("レーキ合計", .number "yen")]

/-- Live schema where the 週次集金個別 relation name exists as rich text. -/
def c8RelLive : List (String × PropSpec) :=
  [("タイトル", .title), ("週次集金個別", .richText)]

/-- The accumulator invariant of grouping: each group's rake and rakeback
totals are the sums over its player rows with self-rows contributing
nothing, and its amount total is the plain sum. -/
def TotalsInv (g : AgentSyncSummary) : Prop :=
  g.totalRake = (g.players.map (fun r => if r.playerId = r.agentId then 0 else r.rake)).sum ∧
  g.totalRakeback =
    (g.players.map (fun r => if r.playerId = r.agentId then 0 else r.rakeback)).sum ∧
  g.totalAmount = (g.players.map CollectionDataRow.amount).sum

/-- The A1 group of the §8 scenario, built by the grouping steps. -/
def scenGroupA : AgentSyncSummary :=
  finalizeSummary (accumRow (accumRow (initSummary scenFees scenRow1) scenRow1) scenRow2)

/-- The group of the self-row-only agent A2. -/
def selfGroup : AgentSyncSummary :=
  finalizeSummary (accumRow (initSummary [] selfOnlyRow) selfOnlyRow)

/-- Rows whose direct (no-agent-id) row carries a non-empty agent display
name: the direct group is then displayed as that name, not 「直接」. -/
def c7CxRows : List CollectionDataRow :=
  [{ weekPeriod := wp, agentName := "Aaa", agentId := "", playerNickname := "z",
     playerId := "z", revenue := 0, rake := 0, rakebackRate := 0, rakeback := 0, amount := 0 },
   { weekPeriod := wp, agentName := "Bravo", agentId := "B", playerNickname := "x",
     playerId := "x", revenue := 0, rake := 0, rakebackRate := 0, rakeback := 0, amount := 0 }]

/-- Invariant of the step-12 fold, relating the accumulator to the list of
summaries the phase started from: every original page either survives
untouched or was updated in place (its id is then among the synced page
ids); every accumulator page is an original page, an in-place update of a
live original of the week, or a fresh creation of the week; page ids stay
distinct and below the counter; every synced id names a live
singleton-agent page of the week; and the week keeps at most one live
page per related agent. -/
structure SumInv (start : String) (sums0 : List SummaryPage) (n0 : Nat)
    (acc : SummaryPhaseOut) : Prop where
  keep : ∀ p ∈ sums0, p.id ∉ acc.pageIds.map Prod.snd → p ∈ acc.summaries
  char : ∀ q ∈ acc.summaries,
    (∃ p ∈ sums0, q.id = p.id ∧ q.archived = p.archived ∧ q.detailIds = p.detailIds ∧
      (q = p ∨ (q.archived = false ∧ q.weekStart = start ∧ (∃ g, q.agents = [g]) ∧
        q.id ∈ acc.pageIds.map Prod.snd))) ∨
    (q.id ∉ sums0.map SummaryPage.id ∧ n0 ≤ q.id ∧ q.archived = false ∧
      q.weekStart = start ∧ (∃ g, q.agents = [g]) ∧ q.id ∈ acc.pageIds.map Prod.snd ∧
      q.detailIds = [])
  fresh : ∀ p ∈ acc.summaries, p.id < acc.nextId
  nodup : (acc.summaries.map SummaryPage.id).Nodup
  lower : n0 ≤ acc.nextId
  live : ∀ i ∈ acc.pageIds.map Prod.snd, ∃ q ∈ acc.summaries,
    q.id = i ∧ q.archived = false ∧ q.weekStart = start ∧ ∃ g, q.agents = [g]
  uniq : ∀ q ∈ acc.summaries, ∀ r ∈ acc.summaries, q.archived = false →
    r.archived = false → q.weekStart = start → r.weekStart = start →
    ∀ g ∈ q.agents, g ∈ r.agents → q = r

/-- Invariant of the step-9 fold relating the accumulator to the starting
agent list: created pages are appended, carry fresh ids and group data,
and are recorded in the aid-keyed page map; every page-map entry is either
a reused existing page or a created one. -/
structure AgInvN (ea : List (String × (Nat × ℚ))) (G : List AgentSyncSummary)
    (a0 : List AgentPage) (n0 : Nat) (acc : AgentPhaseOut)
    (news : List AgentPage) : Prop where
  hagents : acc.agents = a0 ++ news
  hprops : ∀ p ∈ news, p.archived = false ∧ p.agentId ≠ "" ∧ n0 ≤ p.id ∧
    p.id < acc.nextId ∧ lookupA ea p.agentId = none ∧
    lookupA acc.pageIds p.agentId = some p.id ∧
    ∃ g ∈ G, g.agentId = p.agentId ∧ p.feeRate = g.feeRate
  haids : (news.map AgentPage.agentId).Nodup
  hids : (news.map AgentPage.id).Nodup
  lower : n0 ≤ acc.nextId
  pmap : ∀ aid v, lookupA acc.pageIds aid = some v → aid ≠ "" ∧
    ((∃ e, lookupA ea aid = some e ∧ v = e.1) ∨ (∃ p ∈ news, p.agentId = aid ∧ p.id = v))

/-- Invariant of the step-10 fold relating the accumulator to the starting
player list: every original page survives with its id, archived flag and
lookup key intact; every page is an original or a fresh creation recorded
in the row-keyed page map; and each page-map entry names the live page
holding exactly the row's payload. -/
structure PlInvN (api : List (String × Nat)) (M : List SheetsPlayerData)
    (p0 : List PlayerPage) (n0 : Nat) (acc : PlayerPhaseOut) : Prop where
  htrace : ∀ p ∈ p0, ∃ q ∈ acc.players, q.id = p.id ∧ q.archived = p.archived ∧
    q.playerId = p.playerId ∧ q.agents.head? = p.agents.head?
  hchar : ∀ q ∈ acc.players,
    (∃ p ∈ p0, q.id = p.id ∧ q.archived = p.archived ∧ q.playerId = p.playerId ∧
      q.agents.head? = p.agents.head?) ∨
    (q.archived = false ∧ n0 ≤ q.id ∧ q.id ∈ acc.pageIdMap.map Prod.snd)
  hfix : ∀ k v, lookupA acc.pageIdMap k = some v →
    ∃ pl ∈ M, pl.playerId = k.1 ∧ pl.agentId = k.2 ∧
      ∃ q ∈ acc.players, q.id = v ∧ q.archived = false ∧ q.playerId = pl.playerId ∧
        q.agents.head? = (playerPayloadOf api pl).agentPageId ∧
        applyPlayerPayload (playerPayloadOf api pl) q = q
  hmnd : NoDupKeys acc.pageIdMap
  hnodup : (acc.players.map PlayerPage.id).Nodup
  huniq : ∀ q ∈ acc.players, ∀ r ∈ acc.players, q.archived = false →
    r.archived = false → q.playerId ≠ "" → q.playerId = r.playerId →
    q.agents.head? = r.agents.head? → q = r
  hfresh : ∀ q ∈ acc.players, q.id < acc.nextId
  hlower : n0 ≤ acc.nextId

/-- One group's summary page is settled: the aid-keyed page map names a
live summary of the week whose agent relation is exactly the group's agent
page and on which the group's payload is a fixed point. -/
def SumFix (tp start endd : String) (sa : List SheetsAgentData)
    (acc : SummaryPhaseOut) (g : AgentSyncSummary) (apid : Nat) : Prop :=
  ∃ q ∈ acc.summaries, lookupA acc.pageIds g.agentId = some q.id ∧
    q.archived = false ∧ q.weekStart = start ∧ q.agents = [apid] ∧
    applySummaryPayload (summaryPayloadOf tp start endd sa g apid) q = q

/-- Invariant of the step-13 fold over the detail list: distinct ids below
the counter, and at most one live detail page per shared summary relation
and プレイヤーID. -/
structure DetInv (n0 : Nat) (details : List DetailPage) (nextId : Nat) : Prop where
  nodup : (details.map DetailPage.id).Nodup
  fresh : ∀ q ∈ details, q.id < nextId
  lower : n0 ≤ nextId
  uniq : ∀ q ∈ details, ∀ r ∈ details, q.archived = false → r.archived = false →
    ∀ s ∈ q.summaryIds, s ∈ r.summaryIds → q.playerId = r.playerId → q = r

/-- One collection row's detail page is settled at page id i: live, related
exactly to the group's summary, keyed by the row's プレイヤーID, and the
row's payload is a fixed point on it. -/
def DetRowFix (api : List (String × Nat))
    (ppm : List ((String × String) × Nat))
    (eps : List ((String × Option Nat) × Nat))
    (aid : String) (spid : Nat) (details : List DetailPage)
    (row : CollectionDataRow) (i : Nat) : Prop :=
  ∃ q ∈ details, q.id = i ∧ q.archived = false ∧ q.summaryIds = [spid] ∧
    q.playerId = row.playerId ∧
    applyDetailPayload (detailPayloadOf row spid
      (resolvePpid api ppm eps aid row)) q = q

/-! # Theorems -/

/-! ## Bridges between the computable rounding helpers and Mathlib -/

theorem ratFloor_eq (q : ℚ) : ratFloor q = ⌊q⌋ := Rat.floor_def.symm

theorem ratCeil_eq (q : ℚ) : ratCeil q = ⌈q⌉ := by
  rw [ratCeil, ratFloor_eq, Int.floor_neg, neg_neg]

/-! ## Association-list lemmas -/

theorem lookupA_nil {α β : Type} [DecidableEq α] (k : α) :
    lookupA ([] : List (α × β)) k = none := rfl

theorem lookupA_cons {α β : Type} [DecidableEq α] (e : α × β) (l : List (α × β)) (k : α) :
    lookupA (e :: l) k = if e.1 = k then some e.2 else lookupA l k := rfl

theorem mem_of_lookupA_some {α β : Type} [DecidableEq α]
    {l : List (α × β)} {k : α} {v : β} (h : lookupA l k = some v) : (k, v) ∈ l := by
  induction l with
  | nil => simp [lookupA] at h
  | cons e rest ih =>
    rw [lookupA_cons] at h
    by_cases he : e.1 = k
    · simp only [he, if_true, Option.some.injEq] at h
      have hek : e = (k, v) := by
        cases e
        simp_all
      rw [← hek]
      exact List.mem_cons_self _ _
    · simp only [he, if_false] at h
      exact List.mem_cons_of_mem _ (ih h)

theorem lookupA_append_of_none {α β : Type} [DecidableEq α]
    {l1 : List (α × β)} {k : α} (l2 : List (α × β)) (h : lookupA l1 k = none) :
    lookupA (l1 ++ l2) k = lookupA l2 k := by
  induction l1 with
  | nil => rfl
  | cons e rest ih =>
    rw [lookupA_cons] at h
    by_cases he : e.1 = k
    · simp [he] at h
    · simpa [lookupA_cons, he] using ih (by simpa [he] using h)

theorem lookupA_append_of_some {α β : Type} [DecidableEq α]
    {l1 : List (α × β)} {k : α} {v : β} (l2 : List (α × β)) (h : lookupA l1 k = some v) :
    lookupA (l1 ++ l2) k = some v := by
  induction l1 with
  | nil => simp [lookupA] at h
  | cons e rest ih =>
    rw [lookupA_cons] at h
    by_cases he : e.1 = k
    · simpa [lookupA_cons, he] using h
    · simpa [lookupA_cons, he] using ih (by simpa [he] using h)

theorem lookupA_singleton_ne {α β : Type} [DecidableEq α]
    {k k' : α} (v : β) (h : k ≠ k') : lookupA [(k, v)] k' = none := by
  simp [lookupA, h]

theorem setA_eq_append {α β : Type} [DecidableEq α]
    {m : List (α × β)} {k : α} (v : β) (h : lookupA m k = none) :
    setA m k v = m ++ [(k, v)] := by
  induction m with
  | nil => rfl
  | cons e rest ih =>
    rw [lookupA_cons] at h
    by_cases he : e.1 = k
    · simp [he] at h
    · simp only [setA, he, if_false, List.cons_append]
      rw [ih (by simpa [he] using h)]

theorem lookupA_setA_self {α β : Type} [DecidableEq α]
    (m : List (α × β)) (k : α) (v : β) : lookupA (setA m k v) k = some v := by
  induction m with
  | nil => simp [setA, lookupA]
  | cons e rest ih =>
    by_cases he : e.1 = k <;> simp [setA, he, lookupA_cons, ih]

theorem lookupA_setA_ne {α β : Type} [DecidableEq α]
    (m : List (α × β)) (k k' : α) (v : β) (h : k' ≠ k) :
    lookupA (setA m k v) k' = lookupA m k' := by
  induction m with
  | nil => simp [setA, lookupA, Ne.symm h]
  | cons e rest ih =>
    by_cases he : e.1 = k
    · simp [setA, he, lookupA_cons, Ne.symm h]
    · simp [setA, he, lookupA_cons, ih]

theorem mem_setA {α β : Type} [DecidableEq α]
    {m : List (α × β)} {k : α} {v : β} {e : α × β} (h : e ∈ setA m k v) :
    e = (k, v) ∨ e ∈ m := by
  induction m with
  | nil => simpa [setA] using h
  | cons f rest ih =>
    by_cases hf : f.1 = k
    · simp only [setA, hf, if_true] at h
      rcases List.mem_cons.mp h with h2 | h2
      · exact Or.inl h2
      · exact Or.inr (List.mem_cons_of_mem _ h2)
    · simp only [setA, hf, if_false] at h
      rcases List.mem_cons.mp h with h2 | h2
      · exact Or.inr (h2 ▸ List.mem_cons_self _ _)
      · rcases ih h2 with h3 | h3
        · exact Or.inl h3
        · exact Or.inr (List.mem_cons_of_mem _ h3)

theorem keys_setA {α β : Type} [DecidableEq α]
    (m : List (α × β)) (k : α) (v : β) :
    (setA m k v).map Prod.fst = m.map Prod.fst ∨
      (setA m k v).map Prod.fst = m.map Prod.fst ++ [k] := by
  induction m with
  | nil => right; rfl
  | cons e rest ih =>
    by_cases he : e.1 = k
    · left; simp [setA, he]
    · rcases ih with ih | ih
      · left; simp [setA, he, ih]
      · right; simp [setA, he, ih]

theorem nodupKeys_setA {α β : Type} [DecidableEq α]
    {m : List (α × β)} (k : α) (v : β) (h : NoDupKeys m) : NoDupKeys (setA m k v) := by
  induction m with
  | nil => simp [setA, NoDupKeys]
  | cons e rest ih =>
    by_cases he : e.1 = k
    · unfold NoDupKeys at h ⊢
      simp only [setA, he, if_true, List.map_cons]
      rw [← he]
      simpa using h
    · unfold NoDupKeys at h ⊢
      simp only [List.map_cons, List.nodup_cons] at h
      have hn := ih h.2
      simp only [setA, he, if_false, List.map_cons, List.nodup_cons]
      refine ⟨?_, hn⟩
      intro hmem
      rcases keys_setA rest k v with hk | hk
      · rw [hk] at hmem
        exact h.1 hmem
      · rw [hk] at hmem
        rcases List.mem_append.mp hmem with hmem | hmem
        · exact h.1 hmem
        · simp at hmem
          exact he hmem

theorem nodupKeys_foldl {α β γ : Type} [DecidableEq α]
    (step : List (α × β) → γ → List (α × β))
    (hstep : ∀ m x, step m x = m ∨ ∃ k v, step m x = setA m k v) :
    ∀ (l : List γ) (m : List (α × β)), NoDupKeys m → NoDupKeys (l.foldl step m) := by
  intro l
  induction l with
  | nil => intro m hm; exact hm
  | cons x rest ih =>
    intro m hm
    rcases hstep m x with h | ⟨k, v, h⟩
    · simpa [h] using ih m hm
    · simpa [h] using ih _ (nodupKeys_setA k v hm)

/-! ## Sorting lemmas -/

theorem mem_insertLE {α : Type} (le : α → α → Bool) (a x : α) (l : List α) :
    x ∈ insertLE le a l ↔ x = a ∨ x ∈ l := by
  induction l with
  | nil => simp [insertLE]
  | cons b rest ih =>
    cases hle : le a b
    · simp only [insertLE, hle, Bool.false_eq_true, if_false, List.mem_cons, ih]
      tauto
    · simp only [insertLE, hle, if_true, List.mem_cons]

theorem mem_sortLE {α : Type} (le : α → α → Bool) (x : α) (l : List α) :
    x ∈ sortLE le l ↔ x ∈ l := by
  induction l with
  | nil => simp [sortLE]
  | cons a rest ih =>
    simp [sortLE, mem_insertLE, ih]

/-! ## Grouping invariants -/

theorem totalsInv_init (fees : List (String × ℚ)) (row : CollectionDataRow) :
    TotalsInv (initSummary fees row) := by
  unfold TotalsInv initSummary
  simp

theorem totalsInv_accum {g : AgentSyncSummary} (row : CollectionDataRow)
    (h : TotalsInv g) : TotalsInv (accumRow g row) := by
  obtain ⟨h1, h2, h3⟩ := h
  unfold TotalsInv accumRow
  refine ⟨?_, ?_, ?_⟩ <;>
    by_cases self : row.playerId = row.agentId <;>
      simp [self, h1, h2, h3]

theorem group_totals_inv (fees : List (String × ℚ)) :
    ∀ (rows : List CollectionDataRow) (m0 : List (String × AgentSyncSummary)),
      (∀ e ∈ m0, TotalsInv e.2) →
      ∀ e ∈ rows.foldl (groupStep fees) m0, TotalsInv e.2 := by
  intro rows
  induction rows with
  | nil => intro m0 h e he; exact h e he
  | cons row rest ih =>
    intro m0 h e he
    simp only [List.foldl_cons] at he
    refine ih _ ?_ e he
    intro f hf
    unfold groupStep at hf
    rcases hlk : lookupA m0 (agentKeyOf row) with _ | g
    · rw [hlk] at hf
      rcases mem_setA hf with rfl | hf2
      · exact totalsInv_accum row (totalsInv_init fees row)
      · exact h f hf2
    · rw [hlk] at hf
      rcases mem_setA hf with rfl | hf2
      · exact totalsInv_accum row (h _ (mem_of_lookupA_some hlk))
      · exact h f hf2

theorem finalize_players (g : AgentSyncSummary) :
    (finalizeSummary g).players = g.players := rfl

theorem mem_group_out {rows : List CollectionDataRow} {fees : List (String × ℚ)}
    {g : AgentSyncSummary} (hg : g ∈ groupCollectionByAgent rows fees) :
    ∃ g₀, (∃ k, (k, g₀) ∈ rows.foldl (groupStep fees) []) ∧ g = finalizeSummary g₀ := by
  unfold groupCollectionByAgent at hg
  rw [mem_sortLE] at hg
  rcases List.mem_map.mp hg with ⟨g₀, hg₀, rfl⟩
  rcases List.mem_map.mp hg₀ with ⟨e, he, rfl⟩
  exact ⟨e.2, ⟨e.1, he⟩, rfl⟩

/-! ## Claim theorems C4, C9, C2, C3 -/

/-- C4: for every non-negative rake amount and rakeback rate, the rakeback
owed in cents is the ceiling of rakeInCents times the rate — at least the
exact product (rounded up in the player's favor, never down) and below
product plus one — where rakeInCents is the rake times 100 rounded to
nearest; for rake = 333 cents (3.33 points) and rate = 0.15 the result is
50 cents, not 49. -/
theorem spec_C4 (rake rate : ℚ) (hrake : 0 ≤ rake) (hrate : 0 ≤ rate) :
    rakebackCents rake rate = ⌈(clubRakeCents rake : ℚ) * rate⌉ ∧
    (clubRakeCents rake : ℚ) * rate ≤ (rakebackCents rake rate : ℚ) ∧
    (rakebackCents rake rate : ℚ) < (clubRakeCents rake : ℚ) * rate + 1 ∧
    clubRakeCents rake = jsRound (rake * 100) ∧
    rakebackCents (333/100) (15/100) = 50 ∧ rakebackCents (333/100) (15/100) ≠ 49 := by
  refine ⟨ratCeil_eq _, ?_, ?_, rfl, by decide, by decide⟩
  · rw [rakebackCents, ratCeil_eq]
    exact Int.le_ceil _
  · rw [rakebackCents, ratCeil_eq]
    exact Int.ceil_lt_add_one _

/-- C4 witness at rake = 3.33 points (333 cents), rate = 0.15. -/
theorem spec_C4_witness :
    (0 : ℚ) ≤ 333/100 ∧ (0 : ℚ) ≤ 15/100 ∧ rakebackCents (333/100) (15/100) = 50 :=
  ⟨by norm_num, by norm_num,
    (spec_C4 (333/100) (15/100) (by norm_num) (by norm_num)).2.2.2.2.1⟩

/-- C9: parseWeekPeriod fails (the source throws) exactly when splitting
on 〜 or ～ does not yield two parts, and otherwise returns the two parts
trimmed. -/
theorem spec_C9 (s : String) :
    (parseWeekPeriod s = none ↔ (splitSeps s).length ≠ 2) ∧
    ∀ a b, splitSeps s = [a, b] → parseWeekPeriod s = some (trimStr a, trimStr b) := by
  constructor
  · rcases hs : splitSeps s with _ | ⟨a, _ | ⟨b, _ | ⟨c, rest⟩⟩⟩ <;>
      simp [parseWeekPeriod, hs]
  · intro a b hab
    unfold parseWeekPeriod
    rw [hab]

/-- C9 witness on a well-formed and a malformed week period. -/
theorem spec_C9_witness :
    splitSeps wp = ["2025-01-13", "2025-01-19"] ∧
    parseWeekPeriod wp = some ("2025-01-13", "2025-01-19") ∧
    (parseWeekPeriod "2025-01-13" = none ↔ (splitSeps "2025-01-13").length ≠ 2) :=
  ⟨by decide,
   ((spec_C9 wp).2 "2025-01-13" "2025-01-19" (by decide)).trans (by decide),
   (spec_C9 "2025-01-13").1⟩

/-- C2: every aggregated group satisfies agentReward =
ceil((totalRake * feeRate - totalRakeback) * 100) / 100 and
settlementAmount = totalAmount - agentReward * 100; on the §8 scenario
rows the A1 group has totalRake 1000, totalRakeback 100 (= ceil(1000*0.1))
and agentReward 600. -/
theorem spec_C2 (rows : List CollectionDataRow) (fees : List (String × ℚ)) :
    (∀ g ∈ groupCollectionByAgent rows fees,
      g.agentReward = ((⌈(g.totalRake * g.feeRate - g.totalRakeback) * 100⌉ : ℤ) : ℚ) / 100 ∧
      g.settlementAmount = g.totalAmount - g.agentReward * 100) ∧
    (groupCollectionByAgent [scenRow1, scenRow2] scenFees).map
        (fun g => (g.totalRake, g.totalRakeback, g.agentReward)) = [(1000, 100, 600)] := by
  refine ⟨?_, by decide⟩
  intro g hg
  rcases mem_group_out hg with ⟨g₀, -, rfl⟩
  constructor
  · show (finalizeSummary g₀).agentReward = _
    simp only [finalizeSummary]
    rw [ratCeil_eq]
  · simp [finalizeSummary]

/-- C2 witness: the scenario group itself satisfies the reward formula. -/
theorem spec_C2_witness :
    scenGroupA ∈ groupCollectionByAgent [scenRow1, scenRow2] scenFees ∧
    scenGroupA.agentReward =
      ((⌈(scenGroupA.totalRake * scenGroupA.feeRate - scenGroupA.totalRakeback) * 100⌉ : ℤ) : ℚ)
        / 100 :=
  ⟨by decide, ((spec_C2 [scenRow1, scenRow2] scenFees).1 scenGroupA (by decide)).1⟩

/-- C3: in every aggregated group the self-row (playerId = agentId) is
excluded from totalRake and totalRakeback but still appears in the player
list, every row contributes its amount to totalAmount, and an agent whose
only row is its own self-row has totalRake = totalRakeback = 0. -/
theorem spec_C3 (rows : List CollectionDataRow) (fees : List (String × ℚ)) :
    (∀ g ∈ groupCollectionByAgent rows fees,
      g.totalRake = (g.players.map (fun r => if r.playerId = r.agentId then 0 else r.rake)).sum ∧
      g.totalRakeback =
        (g.players.map (fun r => if r.playerId = r.agentId then 0 else r.rakeback)).sum ∧
      g.totalAmount = (g.players.map CollectionDataRow.amount).sum) ∧
    (∀ g ∈ groupCollectionByAgent rows fees, ∀ r, g.players = [r] →
      r.playerId = r.agentId → g.totalRake = 0 ∧ g.totalRakeback = 0) ∧
    (groupCollectionByAgent [selfOnlyRow] []).map
        (fun g => (g.totalRake, g.totalRakeback, g.totalAmount)) = [(0, 0, 77)] := by
  have key : ∀ g ∈ groupCollectionByAgent rows fees, TotalsInv g := by
    intro g hg
    rcases mem_group_out hg with ⟨g₀, ⟨k, hk⟩, rfl⟩
    have h0 := group_totals_inv fees rows [] (by simp) (k, g₀) hk
    obtain ⟨h1, h2, h3⟩ := h0
    exact ⟨h1, h2, h3⟩
  refine ⟨key, ?_, by decide⟩
  intro g hg r hpl hself
  obtain ⟨h1, h2, -⟩ := key g hg
  rw [hpl] at h1 h2
  simp [hself] at h1 h2
  exact ⟨h1, h2⟩

/-- C3 witness: the self-row-only agent A2 keeps zero rake and rakeback
totals while its roster holds the self-row. -/
theorem spec_C3_witness :
    selfGroup ∈ groupCollectionByAgent [selfOnlyRow] [] ∧
    selfGroup.players = [selfOnlyRow] ∧
    selfOnlyRow.playerId = selfOnlyRow.agentId ∧
    selfGroup.totalRake = 0 ∧ selfGroup.totalRakeback = 0 :=
  ⟨by decide, by decide, by decide,
   ((spec_C3 [selfOnlyRow] []).2.1 selfGroup (by decide) selfOnlyRow (by decide) (by decide)).1,
   ((spec_C3 [selfOnlyRow] []).2.1 selfGroup (by decide) selfOnlyRow (by decide) (by decide)).2⟩

/-! ## Comparator and sortedness lemmas for C7 -/

theorem listCmp_le_total : ∀ a b : List Char, listCmp a b ≤ 0 ∨ listCmp b a ≤ 0
  | [], [] => Or.inl (by simp [listCmp])
  | [], _ :: _ => Or.inl (by simp [listCmp])
  | _ :: _, [] => Or.inr (by simp [listCmp])
  | x :: as, y :: bs => by
    rcases lt_trichotomy x y with h | h | h
    · left
      simp [listCmp, h]
    · subst h
      rcases listCmp_le_total as bs with ih | ih
      · left
        simpa [listCmp] using ih
      · right
        simpa [listCmp] using ih
    · right
      simp [listCmp, h]

theorem listCmp_le_trans : ∀ a b c : List Char,
    listCmp a b ≤ 0 → listCmp b c ≤ 0 → listCmp a c ≤ 0
  | [], b, c, _, _ => by cases c <;> simp [listCmp]
  | _ :: _, [], _, hab, _ => by simp [listCmp] at hab
  | _ :: _, _ :: _, [], _, hbc => by simp [listCmp] at hbc
  | x :: as, y :: bs, z :: cs, hab, hbc => by
    have hyx : ¬ y < x := fun h => by simp [listCmp, h, asymm h] at hab
    have hzy : ¬ z < y := fun h => by simp [listCmp, h, asymm h] at hbc
    by_cases hlt : x < z
    · simp [listCmp, hlt]
    · have hxz2 : x = z :=
        le_antisymm ((le_of_not_lt hyx).trans (le_of_not_lt hzy)) (le_of_not_lt hlt)
      have hylez : y ≤ z := le_of_not_lt hzy
      rw [← hxz2] at hylez
      have hxy2 : x = y := le_antisymm (le_of_not_lt hyx) hylez
      subst hxy2
      subst hxz2
      simp only [listCmp, lt_self_iff_false, if_false] at hab hbc ⊢
      exact listCmp_le_trans as bs cs hab hbc

theorem agentLE_total_of (a b : AgentSyncSummary)
    (h : ¬(a.agentName = directLabel ∧ b.agentName = directLabel)) :
    agentLE a b = true ∨ agentLE b a = true := by
  unfold agentLE cmpAgent
  by_cases ha : a.agentName = directLabel
  · have hb : ¬ b.agentName = directLabel := fun hb => h ⟨ha, hb⟩
    right
    simp [ha, hb]
  · by_cases hb : b.agentName = directLabel
    · left
      simp [ha, hb]
    · rcases listCmp_le_total a.agentName.data b.agentName.data with hc | hc
      · left
        simp [ha, hb, strCmpInt, hc]
      · right
        simp [ha, hb, strCmpInt, hc]

theorem agentLE_trans (x y z : AgentSyncSummary)
    (hxy : agentLE x y = true) (hyz : agentLE y z = true) : agentLE x z = true := by
  unfold agentLE cmpAgent at *
  by_cases hx : x.agentName = directLabel
  · simp [hx] at hxy
  · by_cases hz : z.agentName = directLabel
    · simp [hx, hz]
    · by_cases hy : y.agentName = directLabel
      · simp [hy] at hyz
      · simp only [hx, hy, hz, if_false, strCmpInt, decide_eq_true_eq] at hxy hyz ⊢
        exact listCmp_le_trans _ _ _ hxy hyz

theorem pairwise_insertLE {α : Type} (le : α → α → Bool)
    (htrans : ∀ x y z, le x y = true → le y z = true → le x z = true) (a : α) :
    ∀ s : List α, s.Pairwise (fun x y => le x y = true) →
      (∀ y ∈ s, le a y = true ∨ le y a = true) →
      (insertLE le a s).Pairwise (fun x y => le x y = true)
  | [], _, _ => by simp [insertLE]
  | b :: s, hs, hcomp => by
    rcases List.pairwise_cons.mp hs with ⟨hb, hs'⟩
    cases hab : le a b
    · have hba : le b a = true := by
        rcases hcomp b (List.mem_cons_self b s) with hcase | hcase
        · rw [hab] at hcase
          cases hcase
        · exact hcase
      simp only [insertLE, hab, Bool.false_eq_true, if_false]
      refine List.pairwise_cons.mpr ⟨?_, ?_⟩
      · intro y hy
        rcases (mem_insertLE le a y s).mp hy with rfl | hy2
        · exact hba
        · exact hb y hy2
      · exact pairwise_insertLE le htrans a s hs'
          (fun y hy => hcomp y (List.mem_cons_of_mem _ hy))
    · simp only [insertLE, hab, if_true]
      refine List.pairwise_cons.mpr ⟨?_, hs⟩
      intro y hy
      rcases List.mem_cons.mp hy with rfl | hy2
      · exact hab
      · exact htrans a b y hab (hb y hy2)

theorem pairwise_sortLE {α : Type} (le : α → α → Bool)
    (htrans : ∀ x y z, le x y = true → le y z = true → le x z = true) :
    ∀ l : List α, l.Pairwise (fun x y => le x y = true ∨ le y x = true) →
      (sortLE le l).Pairwise (fun x y => le x y = true)
  | [], _ => by simp [sortLE]
  | a :: l, hl => by
    rcases List.pairwise_cons.mp hl with ⟨ha, hl'⟩
    exact pairwise_insertLE le htrans a (sortLE le l) (pairwise_sortLE le htrans l hl')
      (fun y hy => ha y ((mem_sortLE le y l).mp hy))

theorem group_key_inv (fees : List (String × ℚ)) :
    ∀ (rows : List CollectionDataRow) (m0 : List (String × AgentSyncSummary)),
      (∀ e ∈ m0, e.1 = (if e.2.agentId = "" then directLabel else e.2.agentId)) →
      ∀ e ∈ rows.foldl (groupStep fees) m0,
        e.1 = (if e.2.agentId = "" then directLabel else e.2.agentId) := by
  intro rows
  induction rows with
  | nil => intro m0 h e he; exact h e he
  | cons row rest ih =>
    intro m0 h e he
    simp only [List.foldl_cons] at he
    refine ih _ ?_ e he
    intro f hf
    unfold groupStep at hf
    rcases hlk : lookupA m0 (agentKeyOf row) with _ | g
    · rw [hlk] at hf
      rcases mem_setA hf with rfl | hf2
      · simp [agentKeyOf, accumRow, initSummary]
      · exact h f hf2
    · rw [hlk] at hf
      rcases mem_setA hf with rfl | hf2
      · have hg := h _ (mem_of_lookupA_some hlk)
        simpa [accumRow, agentKeyOf] using hg
      · exact h f hf2

theorem nodupKeys_groupFold (fees : List (String × ℚ)) (rows : List CollectionDataRow) :
    NoDupKeys (rows.foldl (groupStep fees) []) := by
  refine nodupKeys_foldl (groupStep fees) ?_ rows [] (by simp [NoDupKeys])
  intro m row
  right
  unfold groupStep
  rcases lookupA m (agentKeyOf row) with _ | g
  · exact ⟨agentKeyOf row, _, rfl⟩
  · exact ⟨agentKeyOf row, _, rfl⟩

theorem lookupA_eq_of_nodupKeys {α β : Type} [DecidableEq α]
    {l : List (α × β)} {k : α} {v : β} (hnd : NoDupKeys l) (hm : (k, v) ∈ l) :
    lookupA l k = some v := by
  induction l with
  | nil => cases hm
  | cons e rest ih =>
    unfold NoDupKeys at hnd
    simp only [List.map_cons, List.nodup_cons] at hnd
    rcases List.mem_cons.mp hm with rfl | hm2
    · simp [lookupA_cons]
    · rw [lookupA_cons]
      have hne : e.1 ≠ k := by
        intro hk
        exact hnd.1 (hk ▸ List.mem_map_of_mem Prod.fst hm2)
      simp only [hne, if_false]
      exact ih hnd.2 hm2

theorem group_pre_pairwise (rows : List CollectionDataRow) (fees : List (String × ℚ))
    (hd : ∀ g ∈ groupCollectionByAgent rows fees, g.agentName = directLabel → g.agentId = "") :
    (((rows.foldl (groupStep fees) []).map Prod.snd).map finalizeSummary).Pairwise
      (fun a b => agentLE a b = true ∨ agentLE b a = true) := by
  have hnd := nodupKeys_groupFold fees rows
  have hkey := group_key_inv fees rows [] (by simp)
  unfold NoDupKeys at hnd
  have hpair : (rows.foldl (groupStep fees) []).Pairwise (fun e1 e2 => e1.1 ≠ e2.1) :=
    List.pairwise_map.mp hnd
  rw [List.pairwise_map, List.pairwise_map]
  refine hpair.imp_of_mem ?_
  intro e1 e2 h1 h2 hne
  refine agentLE_total_of _ _ ?_
  rintro ⟨hd1, hd2⟩
  have m1 : finalizeSummary e1.2 ∈ groupCollectionByAgent rows fees := by
    unfold groupCollectionByAgent
    rw [mem_sortLE]
    exact List.mem_map_of_mem _ (List.mem_map_of_mem _ h1)
  have m2 : finalizeSummary e2.2 ∈ groupCollectionByAgent rows fees := by
    unfold groupCollectionByAgent
    rw [mem_sortLE]
    exact List.mem_map_of_mem _ (List.mem_map_of_mem _ h2)
  have hid1 : e1.2.agentId = "" := hd (finalizeSummary e1.2) m1 hd1
  have hid2 : e2.2.agentId = "" := hd (finalizeSummary e2.2) m2 hd2
  have hk1 := hkey e1 h1
  have hk2 := hkey e2 h2
  rw [hid1] at hk1
  rw [hid2] at hk2
  simp only [if_true, if_pos rfl] at hk1 hk2
  exact hne (hk1.trans hk2.symm)

/-- C7: provided no group is displayed as 「直接」 while carrying a real
agent id, the aggregation output is sorted by the source's comparator —
agent display names in the modelled locale order with the direct group
last — and the §8 example [Bravo, Alpha, direct] comes out as
[Alpha, Bravo, direct]. -/
theorem spec_C7 (rows : List CollectionDataRow) (fees : List (String × ℚ))
    (hd : ∀ g ∈ groupCollectionByAgent rows fees, g.agentName = directLabel → g.agentId = "") :
    (groupCollectionByAgent rows fees).Pairwise (fun a b => agentLE a b = true) ∧
    (groupCollectionByAgent sortRows []).map (fun g => g.agentName) =
      ["Alpha", "Bravo", directLabel] := by
  refine ⟨?_, by decide⟩
  unfold groupCollectionByAgent
  exact pairwise_sortLE agentLE agentLE_trans _ (group_pre_pairwise rows fees hd)

/-- C7 witness on the §8 sort-order rows. -/
theorem spec_C7_witness :
    (∀ g ∈ groupCollectionByAgent sortRows [], g.agentName = directLabel → g.agentId = "") ∧
    (groupCollectionByAgent sortRows []).map (fun g => g.agentName) =
      ["Alpha", "Bravo", directLabel] :=
  ⟨by decide, (spec_C7 sortRows [] (by decide)).2⟩

/-! ## Fee-rate resolution lemmas for C6 -/

theorem lookupA_map_value {α β γ : Type} [DecidableEq α] (f : β → γ)
    (l : List (α × β)) (k : α) :
    lookupA (l.map (fun e => (e.1, f e.2))) k = (lookupA l k).map f := by
  induction l with
  | nil => rfl
  | cons e rest ih =>
    by_cases he : e.1 = k <;> simp [lookupA_cons, he, ih]

theorem foldl_setA_map {α β γ : Type} [DecidableEq α] (f : β → γ) :
    ∀ (l : List (α × β)) (acc : List (α × γ)),
      NoDupKeys l → (∀ e ∈ l, lookupA acc e.1 = none) →
      l.foldl (fun m e => setA m e.1 (f e.2)) acc = acc ++ l.map (fun e => (e.1, f e.2))
  | [], acc, _, _ => by simp
  | e :: l, acc, hnd, hacc => by
    unfold NoDupKeys at hnd
    simp only [List.map_cons, List.nodup_cons] at hnd
    simp only [List.foldl_cons]
    rw [setA_eq_append (f e.2) (hacc e (List.mem_cons_self _ _))]
    rw [foldl_setA_map f l (acc ++ [(e.1, f e.2)]) hnd.2 ?_]
    · simp
    · intro x hx
      rw [lookupA_append_of_none _ (hacc x (List.mem_cons_of_mem _ hx))]
      refine lookupA_singleton_ne _ ?_
      intro hk
      exact hnd.1 (hk ▸ List.mem_map_of_mem Prod.fst hx)

theorem lookupA_overlay {α β : Type} [DecidableEq α] :
    ∀ (s : List (α × β)) (base : List (α × β)) (k : α),
      lookupA (s.foldl
          (fun m e => if (lookupA m e.1).isSome then m else setA m e.1 e.2) base) k =
        if (lookupA base k).isSome then lookupA base k else lookupA s k
  | [], base, k => by cases h : lookupA base k <;> simp [h, lookupA]
  | e :: s, base, k => by
    simp only [List.foldl_cons]
    rw [lookupA_overlay s _ k]
    by_cases hk : e.1 = k
    · subst hk
      cases hb : lookupA base e.1 with
      | some v => simp [hb]
      | none =>
        have : setA base e.1 e.2 = base ++ [(e.1, e.2)] := setA_eq_append e.2 hb
        simp only [hb, Option.isSome_none, Bool.false_eq_true, if_false, this]
        rw [lookupA_append_of_none _ hb]
        simp [lookupA, lookupA_cons]
    · have hstep : lookupA (if (lookupA base e.1).isSome then base
          else setA base e.1 e.2) k = lookupA base k := by
        by_cases hb : (lookupA base e.1).isSome
        · simp [hb]
        · simp only [hb, if_false]
          exact lookupA_setA_ne base e.1 k e.2 (fun h => hk h.symm)
      rw [hstep]
      simp [lookupA_cons, hk]

theorem nodupKeys_getAllAgentsMap (pages : List AgentPage) :
    NoDupKeys (getAllAgentsMap pages) := by
  refine nodupKeys_foldl _ ?_ pages [] (by simp [NoDupKeys])
  intro m p
  by_cases ha : p.archived
  · left; simp [ha]
  · by_cases hid : p.agentId = ""
    · left; simp [ha, hid]
    · right
      exact ⟨p.agentId, (p.id, p.feeRate), by simp [ha, hid]⟩

theorem lookupA_agentFeeRatesMap (n : List (String × (Nat × ℚ)))
    (s : List (String × ℚ)) (k : String) (hn : NoDupKeys n) :
    lookupA (agentFeeRatesMap n s) k =
      if (lookupA n k).isSome then (lookupA n k).map (fun e => e.2)
      else lookupA s k := by
  unfold agentFeeRatesMap
  rw [lookupA_overlay]
  have hbase : (n.foldl (fun m e => setA m e.1 e.2.2) []) =
      n.map (fun e => (e.1, e.2.2)) := by
    simpa using foldl_setA_map (fun v => v.2) n [] hn (by simp [lookupA])
  rw [hbase]
  have hv : lookupA (n.map (fun e => (e.1, e.2.2))) k = (lookupA n k).map (fun e => e.2) :=
    lookupA_map_value (fun v => v.2) n k
  rw [hv]
  cases lookupA n k <;> simp

theorem group_fee_inv (fees : List (String × ℚ)) :
    ∀ (rows : List CollectionDataRow) (m0 : List (String × AgentSyncSummary)),
      (∀ e ∈ m0, e.2.feeRate = (lookupA fees e.2.agentId).getD (7/10)) →
      ∀ e ∈ rows.foldl (groupStep fees) m0,
        e.2.feeRate = (lookupA fees e.2.agentId).getD (7/10) := by
  intro rows
  induction rows with
  | nil => intro m0 h e he; exact h e he
  | cons row rest ih =>
    intro m0 h e he
    simp only [List.foldl_cons] at he
    refine ih _ ?_ e he
    intro f hf
    unfold groupStep at hf
    rcases hlk : lookupA m0 (agentKeyOf row) with _ | g
    · rw [hlk] at hf
      rcases mem_setA hf with rfl | hf2
      · simp [accumRow, initSummary]
      · exact h f hf2
    · rw [hlk] at hf
      rcases mem_setA hf with rfl | hf2
      · simpa [accumRow] using h _ (mem_of_lookupA_some hlk)
      · exact h f hf2

/-- C6: the fee rate carried by every aggregated group follows the
three-level precedence — the store's existing agent value, else the
ledger agent master's value, else the 0.70 default. -/
theorem spec_C6 (rows : List CollectionDataRow) (agentPages : List AgentPage)
    (sheetsAgents : List SheetsAgentData) :
    ∀ g ∈ groupCollectionByAgent rows
        (agentFeeRatesMap (getAllAgentsMap agentPages) (sheetsFeeRatesMap sheetsAgents)),
      g.feeRate = feeRatePrecedence (getAllAgentsMap agentPages)
        (sheetsFeeRatesMap sheetsAgents) g.agentId := by
  intro g hg
  rcases mem_group_out hg with ⟨g₀, ⟨k, hk⟩, rfl⟩
  have hfee := group_fee_inv _ rows [] (by simp) (k, g₀) hk
  show g₀.feeRate = feeRatePrecedence _ _ g₀.agentId
  rw [hfee, lookupA_agentFeeRatesMap _ _ _ (nodupKeys_getAllAgentsMap agentPages)]
  unfold feeRatePrecedence
  cases hn : lookupA (getAllAgentsMap agentPages) g₀.agentId
  · simp only [hn, Option.isSome_none, Bool.false_eq_true, if_false]
    cases hs : lookupA (sheetsFeeRatesMap sheetsAgents) g₀.agentId <;> simp [hs]
  · simp [hn]

/-- C6 witness: store value 0.6 beats ledger 0.5 for A, ledger 0.55 is
used for B absent from the store, and C falls back to 0.7. -/
theorem spec_C6_witness :
    c6GroupA ∈ groupCollectionByAgent c6Rows c6Fees ∧
    c6GroupA.feeRate =
      feeRatePrecedence (getAllAgentsMap c6Agents) (sheetsFeeRatesMap c6Sheets)
        c6GroupA.agentId ∧
    (groupCollectionByAgent c6Rows c6Fees).map (fun g => (g.agentId, g.feeRate)) =
      [("A", 3/5), ("B", 11/20), ("C", 7/10)] :=
  ⟨by decide, spec_C6 c6Rows c6Agents c6Sheets c6GroupA (by decide), by decide⟩

/-- C10: findWeeklySummary and findWeeklyTotal key only on the start date
of the week period: two distinct week-period strings with equal start
dates resolve to the same records, so the effective natural keys are
(start date, agent) and (start date) alone. -/
theorem spec_C10 (summaries : List SummaryPage) (totals : List TotalPage)
    (w1 w2 : String) (g : Nat) (s1 s2 : String × String)
    (h1 : parseWeekPeriod w1 = some s1) (h2 : parseWeekPeriod w2 = some s2)
    (hs : s1.1 = s2.1) :
    findWeeklySummaryW summaries w1 g = findWeeklySummaryW summaries w2 g ∧
    findWeeklyTotalW totals w1 = findWeeklyTotalW totals w2 := by
  unfold findWeeklySummaryW findWeeklyTotalW
  rw [h1, h2]
  constructor <;> simp [hs]

/-- C7 counterexample: a direct (no-agent-id) group whose rows carry the
display name Aaa sorts by that name, ahead of agent Bravo, instead of
always sorting last as the claim states. -/
theorem spec_C7_counterexample :
    (groupCollectionByAgent c7CxRows []).map (fun g => (g.agentId, g.agentName)) =
      [("", "Aaa"), ("B", "Bravo")] := by decide

/-! ## Schema-evolver lemmas for C8 -/

theorem mem_renameKey_of_ne (l : List (String × PropSpec)) (old new : String)
    {e : String × PropSpec} (he : e ∈ l) (hne : e.1 ≠ old) : e ∈ renameKey l old new := by
  unfold renameKey
  have hfix : (fun x => if x.1 = old then (new, x.2) else x) e = e := by simp [hne]
  exact hfix ▸ List.mem_map_of_mem _ he

theorem mem_renameKey_self (l : List (String × PropSpec)) (old new : String)
    {v : PropSpec} (hv : (old, v) ∈ l) : (new, v) ∈ renameKey l old new := by
  unfold renameKey
  have hfix : (fun x : String × PropSpec => if x.1 = old then (new, x.2) else x) (old, v) =
      (new, v) := by simp
  exact hfix ▸ List.mem_map_of_mem _ hv

theorem mem_applyRenames_of_not_mem :
    ∀ (renames : List String) (l : List (String × PropSpec)) (e : String × PropSpec),
      e ∈ l → e.1 ∉ renames → e ∈ applyRenames l renames
  | [], _, _, he, _ => he
  | n :: rest, l, e, he, hn => by
    unfold applyRenames
    simp only [List.foldl_cons]
    exact mem_applyRenames_of_not_mem rest _ e
      (mem_renameKey_of_ne l n (n ++ "_old") he
        (fun h => hn (h ▸ List.mem_cons_self _ _)))
      (fun h => hn (List.mem_cons_of_mem _ h))

theorem mem_applyRenames_renamed :
    ∀ (renames : List String) (l : List (String × PropSpec)) (name : String) (v : PropSpec),
      (name, v) ∈ l → name ∈ renames → (name ++ "_old") ∉ renames →
      (name ++ "_old", v) ∈ applyRenames l renames
  | [], _, _, _, _, hmem, _ => absurd hmem (List.not_mem_nil _)
  | n :: rest, l, name, v, hv, hmem, hold => by
    unfold applyRenames
    simp only [List.foldl_cons]
    by_cases hn : name = n
    · subst hn
      exact mem_applyRenames_of_not_mem rest _ _
        (mem_renameKey_self l name _ hv)
        (fun h => hold (List.mem_cons_of_mem _ h))
    · rcases List.mem_cons.mp hmem with h | h
      · exact absurd h hn
      · exact mem_applyRenames_renamed rest _ name v
          (mem_renameKey_of_ne l n _ hv hn) h
          (fun hh => hold (List.mem_cons_of_mem _ hh))

theorem rollupStep_toAdd_mono (live : List (String × PropSpec)) (relName : String)
    (acc : RollupScan) (e : String × RollupDecl) {x : String × PropSpec}
    (hx : x ∈ acc.toAdd) : x ∈ (rollupStep live relName acc e).toAdd := by
  unfold rollupStep
  rcases lookupA live e.1 with _ | spec
  · exact List.mem_append_left _ hx
  · by_cases hr : isRollup spec
    · simpa [hr] using hx
    · simp only [hr, Bool.false_eq_true, if_false]
      exact List.mem_append_left _ hx

theorem rollupFold_toAdd_mono (live : List (String × PropSpec)) (relName : String) :
    ∀ (l : List (String × RollupDecl)) (acc : RollupScan) (x : String × PropSpec),
      x ∈ acc.toAdd → x ∈ (l.foldl (rollupStep live relName) acc).toAdd
  | [], _, _, hx => hx
  | e :: l, acc, x, hx => by
    simp only [List.foldl_cons]
    exact rollupFold_toAdd_mono live relName l _ x (rollupStep_toAdd_mono live relName acc e hx)

theorem rollupFold_toAdd_of_mem (live : List (String × PropSpec)) (relName : String)
    {name : String} {decl : RollupDecl} {spec : PropSpec}
    (hlk : lookupA live name = some spec) (hr : isRollup spec = false) :
    ∀ (l : List (String × RollupDecl)) (acc : RollupScan),
      (name, decl) ∈ l →
      (name, PropSpec.rollup relName decl.rollupPropName decl.func) ∈
        (l.foldl (rollupStep live relName) acc).toAdd
  | [], _, hmem => absurd hmem (List.not_mem_nil _)
  | e :: l, acc, hmem => by
    simp only [List.foldl_cons]
    rcases List.mem_cons.mp hmem with rfl | hmem2
    · refine rollupFold_toAdd_mono live relName l _ _ ?_
      unfold rollupStep
      simp only [hlk, hr, Bool.false_eq_true, if_false]
      exact List.mem_append_right _ (List.mem_singleton.mpr rfl)
    · exact rollupFold_toAdd_of_mem live relName hlk hr l _ hmem2

theorem rollupStep_renames_mono (live : List (String × PropSpec)) (relName : String)
    (acc : RollupScan) (e : String × RollupDecl) {x : String}
    (hx : x ∈ acc.renames) : x ∈ (rollupStep live relName acc e).renames := by
  unfold rollupStep
  rcases lookupA live e.1 with _ | spec
  · simpa using hx
  · by_cases hr : isRollup spec
    · simpa [hr] using hx
    · simp only [hr, Bool.false_eq_true, if_false]
      exact List.mem_append_left _ hx

theorem rollupFold_renames_mono (live : List (String × PropSpec)) (relName : String) :
    ∀ (l : List (String × RollupDecl)) (acc : RollupScan) (x : String),
      x ∈ acc.renames → x ∈ (l.foldl (rollupStep live relName) acc).renames
  | [], _, _, hx => hx
  | e :: l, acc, x, hx => by
    simp only [List.foldl_cons]
    exact rollupFold_renames_mono live relName l _ x
      (rollupStep_renames_mono live relName acc e hx)

theorem rollupFold_renames_of_mem (live : List (String × PropSpec)) (relName : String)
    {name : String} {decl : RollupDecl} {spec : PropSpec}
    (hlk : lookupA live name = some spec) (hr : isRollup spec = false) :
    ∀ (l : List (String × RollupDecl)) (acc : RollupScan),
      (name, decl) ∈ l → name ∈ (l.foldl (rollupStep live relName) acc).renames
  | [], _, hmem => absurd hmem (List.not_mem_nil _)
  | e :: l, acc, hmem => by
    simp only [List.foldl_cons]
    rcases List.mem_cons.mp hmem with rfl | hmem2
    · refine rollupFold_renames_mono live relName l _ _ ?_
      unfold rollupStep
      simp only [hlk, hr, Bool.false_eq_true, if_false]
      exact List.mem_append_right _ (List.mem_singleton.mpr rfl)
    · exact rollupFold_renames_of_mem live relName hlk hr l _ hmem2

theorem rollupFold_renames_subset (live : List (String × PropSpec)) (relName : String) :
    ∀ (l : List (String × RollupDecl)) (acc : RollupScan) (x : String),
      x ∈ (l.foldl (rollupStep live relName) acc).renames →
      x ∈ acc.renames ∨ x ∈ l.map Prod.fst
  | [], _, _, hx => Or.inl hx
  | e :: l, acc, x, hx => by
    simp only [List.foldl_cons] at hx
    rcases rollupFold_renames_subset live relName l (rollupStep live relName acc e) x hx
      with h | h
    · unfold rollupStep at h
      rcases hlk : lookupA live e.1 with _ | spec
      · rw [hlk] at h
        exact Or.inl (by simpa using h)
      · rw [hlk] at h
        by_cases hr : isRollup spec
        · simp only [hr, if_true] at h
          exact Or.inl (by simpa using h)
        · simp only [hr, Bool.false_eq_true, if_false] at h
          rcases List.mem_append.mp h with h2 | h2
          · exact Or.inl h2
          · right
            simp only [List.mem_singleton] at h2
            exact h2 ▸ List.mem_map_of_mem Prod.fst (List.mem_cons_self _ _)
    · right
      simp only [List.map_cons, List.mem_cons]
      exact Or.inr h

theorem mem_applyRenames_exists :
    ∀ (renames : List String) (l : List (String × PropSpec)) (e : String × PropSpec),
      e ∈ l → ∃ n, (n, e.2) ∈ applyRenames l renames
  | [], _, e, he => ⟨e.1, by simpa using he⟩
  | n :: rest, l, e, he => by
    unfold applyRenames
    simp only [List.foldl_cons]
    by_cases hn : e.1 = n
    · have he' : (n, e.2) ∈ l := by
        rw [← hn, Prod.mk.eta]
        exact he
      have h1 : (n ++ "_old", e.2) ∈ renameKey l n (n ++ "_old") :=
        mem_renameKey_self l n _ he'
      rcases mem_applyRenames_exists rest (renameKey l n (n ++ "_old")) (n ++ "_old", e.2) h1
        with ⟨m, hm⟩
      exact ⟨m, hm⟩
    · exact mem_applyRenames_exists rest _ e (mem_renameKey_of_ne l n _ he hn)

theorem ensurePropsFold_schema_mono (names : List String) (dbId : Option String) :
    ∀ (l : List (String × PropSpec)) (acc : EnsurePropsOut) (x : String × PropSpec),
      x ∈ acc.schema → x ∈ (l.foldl (ensurePropsStep names dbId) acc).schema
  | [], _, _, hx => hx
  | e :: l, acc, x, hx => by
    simp only [List.foldl_cons]
    refine ensurePropsFold_schema_mono names dbId l _ x ?_
    unfold ensurePropsStep
    by_cases ht : isTitle e.2
    · simpa [ht] using hx
    · by_cases hc : e.1 ∈ names
      · simpa [ht, hc] using hx
      · have hcc : names.contains e.1 = false := by
          simp only [List.contains, List.elem_eq_mem, decide_eq_false_iff_not]
          exact hc
        simp only [ht, hcc, Bool.false_eq_true, if_false]
        exact List.mem_append_left _ hx

/-- C8 counterexample: the declared number property プレイヤー数 exists in
the live schema as rich text (a different type), yet the evolver's
property pass neither renames it to プレイヤー数_old nor recreates it with
the declared type — the wrong-typed property is simply kept. -/
theorem spec_C8_counterexample :
    lookupA c8Live "プレイヤー数" = some PropSpec.richText ∧
    lookupA weeklySummarySchema "プレイヤー数" = some (PropSpec.number "number") ∧
    PropSpec.richText ≠ PropSpec.number "number" ∧
    lookupA (ensureDatabaseProperties c8Live weeklySummarySchema none).schema
      "プレイヤー数" = some PropSpec.richText ∧
    lookupA (ensureDatabaseProperties c8Live weeklySummarySchema none).schema
      ("プレイヤー数" ++ "_old") = none := by decide

/-- C8 amended: rename-to-name_old-then-recreate applies to the declared
rollup properties and to the 週次集金個別 relation; the general property
pass leaves a same-named live property untouched whatever its type and
never deletes or overwrites a live non-title property; the rollup pass
also never deletes a live property (it survives, possibly renamed). -/
theorem spec_C8_amended :
    (∀ (live required : List (String × PropSpec)) (dbId : Option String)
       (e : String × PropSpec), NoDupKeys live → e ∈ live → isTitle e.2 = false →
       e ∈ (ensureDatabaseProperties live required dbId).schema) ∧
    (∀ (live : List (String × PropSpec)) (rollups : List (String × RollupDecl))
       (relName name : String) (decl : RollupDecl) (spec : PropSpec),
       (name, decl) ∈ rollups → lookupA live name = some spec → isRollup spec = false →
       (name ++ "_old") ∉ rollups.map Prod.fst →
       (name ++ "_old", spec) ∈ (ensureRollupProperties live rollups relName).schema ∧
       (name, PropSpec.rollup relName decl.rollupPropName decl.func) ∈
         (ensureRollupProperties live rollups relName).schema) ∧
    (∀ (live : List (String × PropSpec)) (rollups : List (String × RollupDecl))
       (relName : String) (e : String × PropSpec), e ∈ live →
       ∃ n, (n, e.2) ∈ (ensureRollupProperties live rollups relName).schema) ∧
    (∀ (live : List (String × PropSpec)) (dbId : String) (spec : PropSpec),
       lookupA live weeklySummaryDetailRelationName = some spec →
       isRelation spec = false →
       (weeklySummaryDetailRelationName ++ "_old", spec) ∈
         (ensureDetailRelation live dbId).schema ∧
       (weeklySummaryDetailRelationName, PropSpec.relationSingle (some dbId)) ∈
         (ensureDetailRelation live dbId).schema) := by
  refine ⟨?_, ?_, ?_, ?_⟩
  · intro live required dbId e hnd he ht
    unfold ensureDatabaseProperties
    refine ensurePropsFold_schema_mono _ _ required _ e ?_
    cases hex : live.find? (fun x => isTitle x.2) with
    | none =>
      cases hrt : required.find? (fun x => isTitle x.2) <;> simpa [hex, hrt] using he
    | some t =>
      cases hrt : required.find? (fun x => isTitle x.2) with
      | none => simpa [hex, hrt] using he
      | some tr =>
        have htt : isTitle t.2 = true := by
          have hx := List.find?_some hex
          simpa using hx
        have htm : t ∈ live := List.mem_of_find?_eq_some hex
        have hne : e.1 ≠ t.1 := by
          intro hk
          have h1 : lookupA live e.1 = some e.2 := lookupA_eq_of_nodupKeys hnd (by
            rw [Prod.mk.eta]; exact he)
          have h2 : lookupA live t.1 = some t.2 := lookupA_eq_of_nodupKeys hnd (by
            rw [Prod.mk.eta]; exact htm)
          rw [hk, h2] at h1
          have : e.2 = t.2 := by injection h1.symm
          rw [this, htt] at ht
          cases ht
        by_cases hd : tr.1 ≠ t.1
        · simpa [hex, hrt, hd] using mem_renameKey_of_ne live t.1 tr.1 he hne
        · simpa [hex, hrt, hd] using he
  · intro live rollups relName name decl spec hmem hlk hr hold
    have hrs : name ∈ (rollupScan live rollups relName).renames :=
      rollupFold_renames_of_mem live relName hlk hr rollups _ hmem
    have holdr : (name ++ "_old") ∉ (rollupScan live rollups relName).renames := by
      intro hin
      rcases rollupFold_renames_subset live relName rollups _ _ hin with h | h
      · cases h
      · exact hold h
    constructor
    · exact List.mem_append_left _
        (mem_applyRenames_renamed _ live name spec (mem_of_lookupA_some hlk) hrs holdr)
    · exact List.mem_append_right _
        (rollupFold_toAdd_of_mem live relName hlk hr rollups _ hmem)
  · intro live rollups relName e he
    rcases mem_applyRenames_exists (rollupScan live rollups relName).renames live e he
      with ⟨n, hn⟩
    exact ⟨n, List.mem_append_left _ hn⟩
  · intro live dbId spec hlk hrel
    unfold ensureDetailRelation
    simp only [hlk, hrel, Bool.false_eq_true, if_false]
    exact ⟨List.mem_append_left _
        (mem_renameKey_self live weeklySummaryDetailRelationName _
          (mem_of_lookupA_some hlk)),
      List.mem_append_right _ (List.mem_singleton.mpr rfl)⟩

/-- C8 witness: concrete wrong-typed rollup and relation names get
renamed to name_old and recreated; a live non-title property survives the
general pass. -/
theorem spec_C8_witness :
    lookupA c8RollupLive "レーキ合計" = some (PropSpec.number "yen") ∧
    ("レーキ合計" ++ "_old", PropSpec.number "yen") ∈
      (ensureRollupProperties c8RollupLive weeklySummaryRollupSchema
        weeklySummaryDetailRelationName).schema ∧
    ("レーキ合計", PropSpec.rollup weeklySummaryDetailRelationName "レーキ" "sum") ∈
      (ensureRollupProperties c8RollupLive weeklySummaryRollupSchema
        weeklySummaryDetailRelationName).schema ∧
    ("週次集金個別" ++ "_old", PropSpec.richText) ∈ (ensureDetailRelation c8RelLive "D1").schema ∧
    ("週次集金個別", PropSpec.relationSingle (some "D1")) ∈
      (ensureDetailRelation c8RelLive "D1").schema ∧
    ("プレイヤー数", PropSpec.richText) ∈
      (ensureDatabaseProperties c8Live weeklySummarySchema none).schema :=
  ⟨by decide,
   (spec_C8_amended.2.1 c8RollupLive weeklySummaryRollupSchema
     weeklySummaryDetailRelationName "レーキ合計"
     { rollupPropName := "レーキ", func := "sum" } (PropSpec.number "yen")
     (by decide) (by decide) (by decide) (by decide)).1,
   (spec_C8_amended.2.1 c8RollupLive weeklySummaryRollupSchema
     weeklySummaryDetailRelationName "レーキ合計"
     { rollupPropName := "レーキ", func := "sum" } (PropSpec.number "yen")
     (by decide) (by decide) (by decide) (by decide)).2,
   (spec_C8_amended.2.2.2 c8RelLive "D1" PropSpec.richText (by decide) (by decide)).1,
   (spec_C8_amended.2.2.2 c8RelLive "D1" PropSpec.richText (by decide) (by decide)).2,
   spec_C8_amended.1 c8Live weeklySummarySchema none ("プレイヤー数", PropSpec.richText)
     (by unfold NoDupKeys; decide) (by decide) (by decide)⟩

/-- C10 witness on two distinct period strings sharing the start
2025-01-13. -/
theorem spec_C10_witness :
    parseWeekPeriod wp = some ("2025-01-13", "2025-01-19") ∧
    parseWeekPeriod wp2 = some ("2025-01-13", "2025-01-26") ∧
    wp ≠ wp2 ∧
    findWeeklySummaryW c10Summaries wp 1 = findWeeklySummaryW c10Summaries wp2 1 ∧
    findWeeklyTotalW c10Totals wp = findWeeklyTotalW c10Totals wp2 ∧
    findWeeklySummaryW c10Summaries wp 1 = some (some 10) :=
  ⟨by decide, by decide, by decide,
   (spec_C10 c10Summaries c10Totals wp wp2 1 ("2025-01-13", "2025-01-19")
     ("2025-01-13", "2025-01-26") (by decide) (by decide) rfl).1,
   (spec_C10 c10Summaries c10Totals wp wp2 1 ("2025-01-13", "2025-01-19")
     ("2025-01-13", "2025-01-26") (by decide) (by decide) rfl).2,
   by decide⟩

/-! ## Permutation facts about the sort, and distinctness of group ids -/

theorem perm_insertLE {α : Type} (le : α → α → Bool) (a : α) :
    ∀ l : List α, (insertLE le a l).Perm (a :: l)
  | [] => List.Perm.refl _
  | b :: l => by
    cases hle : le a b
    · simp only [insertLE, hle, Bool.false_eq_true, if_false]
      exact ((perm_insertLE le a l).cons b).trans (List.Perm.swap a b l)
    · simp [insertLE, hle]

theorem perm_sortLE {α : Type} (le : α → α → Bool) : ∀ l : List α, (sortLE le l).Perm l
  | [] => List.Perm.refl _
  | a :: l => (perm_insertLE le a (sortLE le l)).trans ((perm_sortLE le l).cons a)

theorem group_agentIds_nodup (rows : List CollectionDataRow) (fees : List (String × ℚ)) :
    ((groupCollectionByAgent rows fees).map AgentSyncSummary.agentId).Nodup := by
  have hnd := nodupKeys_groupFold fees rows
  have hkey := group_key_inv fees rows [] (by simp)
  unfold NoDupKeys at hnd
  have hpair : (rows.foldl (groupStep fees) []).Pairwise (fun e1 e2 => e1.1 ≠ e2.1) :=
    List.pairwise_map.mp hnd
  have hvals : (((rows.foldl (groupStep fees) []).map Prod.snd).map finalizeSummary).Pairwise
      (fun a b => a.agentId ≠ b.agentId) := by
    rw [List.pairwise_map, List.pairwise_map]
    refine hpair.imp_of_mem ?_
    intro e1 e2 h1 h2 hne heq
    apply hne
    rw [hkey e1 h1, hkey e2 h2]
    show (if e1.2.agentId = "" then directLabel else e1.2.agentId) =
      (if e2.2.agentId = "" then directLabel else e2.2.agentId)
    rw [show (finalizeSummary e1.2).agentId = e1.2.agentId from rfl,
        show (finalizeSummary e2.2).agentId = e2.2.agentId from rfl] at heq
    rw [heq]
  have hperm := perm_sortLE agentLE
    (((rows.foldl (groupStep fees) []).map Prod.snd).map finalizeSummary)
  have hsorted : (groupCollectionByAgent rows fees).Pairwise
      (fun a b => a.agentId ≠ b.agentId) :=
    (hperm.pairwise_iff (fun h => Ne.symm h)).mpr hvals
  exact List.pairwise_map.mpr hsorted

/-! ## Summary phase: find and small helpers -/

theorem head_mem_of_eq {α : Type} {l : List α} {a : α} (h : l.head? = some a) : a ∈ l := by
  cases l with
  | nil => simp at h
  | cons b t =>
    simp only [List.head?_cons, Option.some.injEq] at h
    exact h ▸ List.mem_cons_self _ _

theorem findSummaryId_none_iff (sums : List SummaryPage) (start : String) (g : Nat) :
    findSummaryId sums start g = none ↔
      ∀ p ∈ sums, ¬(p.archived = false ∧ p.weekStart = start ∧ g ∈ p.agents) := by
  unfold findSummaryId
  simp [Option.map_eq_none', List.head?_eq_none_iff, List.filter_eq_nil_iff,
    List.contains, List.elem_eq_mem, Bool.not_eq_true', decide_eq_true_eq]

theorem findSummaryId_some {sums : List SummaryPage} {start : String} {g : Nat} {i : Nat}
    (h : findSummaryId sums start g = some i) :
    ∃ p ∈ sums, p.archived = false ∧ p.weekStart = start ∧ g ∈ p.agents ∧ p.id = i := by
  unfold findSummaryId at h
  rcases Option.map_eq_some'.mp h with ⟨p, hp, hpi⟩
  have hmem := head_mem_of_eq hp
  rcases List.mem_filter.mp hmem with ⟨hin, hprop⟩
  simp only [Bool.and_eq_true, Bool.not_eq_true', decide_eq_true_eq,
    List.contains, List.elem_eq_mem] at hprop
  exact ⟨p, hin, hprop.1.1, hprop.1.2, hprop.2, hpi⟩

theorem mem_update_of_ne {sums : List SummaryPage} {pid : Nat} {d : SummaryPayload}
    {p : SummaryPage} (hp : p ∈ sums) (hne : p.id ≠ pid) :
    p ∈ (updateSummaryById sums pid d).1 := by
  have h := List.mem_map_of_mem
    (fun q => if q.id = pid then applySummaryPayload d q else q) hp
  simpa [updateSummaryById, hne] using h

theorem update_map_id (sums : List SummaryPage) (pid : Nat) (d : SummaryPayload) :
    (updateSummaryById sums pid d).1.map SummaryPage.id = sums.map SummaryPage.id := by
  unfold updateSummaryById
  rw [List.map_map]
  apply List.map_congr_left
  intro p _
  by_cases h : p.id = pid <;> simp [h, applySummaryPayload]

theorem foldl_measure_le {α σ : Type} (f : σ → α → σ) (mu : σ → Nat)
    (h : ∀ acc x, mu acc ≤ mu (f acc x)) :
    ∀ (l : List α) (acc : σ), mu acc ≤ mu (l.foldl f acc) := by
  intro l
  induction l with
  | nil => intro acc; exact le_refl _
  | cons x rest ih =>
    intro acc
    exact le_trans (h acc x) (ih (f acc x))

theorem agentStep_nextId_le (sa : List SheetsAgentData)
    (ea : List (String × (Nat × ℚ))) (acc : AgentPhaseOut) (g : AgentSyncSummary) :
    acc.nextId ≤ (agentStep sa ea acc g).nextId := by
  unfold agentStep
  by_cases h : g.agentId = ""
  · simp [h]
  · rw [if_neg h]
    cases hl : lookupA ea g.agentId with
    | some e => exact le_refl _
    | none => exact Nat.le_succ _

theorem agentPhase_nextId_le (sa : List SheetsAgentData)
    (ea : List (String × (Nat × ℚ))) (G : List AgentSyncSummary)
    (a0 : List AgentPage) (n0 : Nat) :
    n0 ≤ (agentPhase sa ea G a0 n0).nextId := by
  unfold agentPhase
  exact foldl_measure_le _ AgentPhaseOut.nextId
    (fun acc g => agentStep_nextId_le sa ea acc g) G
    { agents := a0, nextId := n0, pageIds := [], created := 0 }

theorem playerStep_nextId_le (api : List (String × Nat))
    (ep : List ((String × Option Nat) × Nat)) (acc : PlayerPhaseOut)
    (pl : SheetsPlayerData) : acc.nextId ≤ (playerStep api ep acc pl).nextId := by
  unfold playerStep
  cases hl : lookupA ep (pl.playerId,
      if pl.agentId = "" then none else lookupA api pl.agentId) with
  | some pid => simp [hl]
  | none => simp [hl]; exact Nat.le_succ _

theorem playerPhase_nextId_le (spd : List SheetsPlayerData) (api : List (String × Nat))
    (ep : List ((String × Option Nat) × Nat)) (p0 : List PlayerPage) (n0 : Nat) :
    n0 ≤ (playerPhase spd api ep p0 n0).nextId := by
  unfold playerPhase
  exact foldl_measure_le _ PlayerPhaseOut.nextId
    (fun acc pl => playerStep_nextId_le api ep acc pl) spd
    { players := p0, nextId := n0, pageIdMap := [], created := 0, changed := 0 }

theorem summaryStep_pageIds (tp start endd : String) (sa : List SheetsAgentData)
    (api : List (String × Nat)) (acc : SummaryPhaseOut) (g : AgentSyncSummary) :
    (summaryStep tp start endd sa api acc g).pageIds = acc.pageIds ∨
      ∃ v, (summaryStep tp start endd sa api acc g).pageIds = setA acc.pageIds g.agentId v := by
  unfold summaryStep
  by_cases h : g.agentId = ""
  · left; simp [h]
  · rw [if_neg h]
    split
    · left; rfl
    · split
      · right; exact ⟨_, rfl⟩
      · right; exact ⟨acc.nextId, rfl⟩

theorem updateSummaryById_fst (sums : List SummaryPage) (pid : Nat) (d : SummaryPayload) :
    (updateSummaryById sums pid d).1
      = sums.map (fun p => if p.id = pid then applySummaryPayload d p else p) := rfl

theorem sumInv_update (start : String) (sums0 : List SummaryPage) (n0 : Nat)
    (acc : SummaryPhaseOut) (aid : String) (apid pid : Nat) (d : SummaryPayload)
    (c1 c2 : Nat)
    (hdw : d.weekStart = start) (hda : d.agentPageId = apid)
    (hk : lookupA acc.pageIds aid = none)
    (hfind : findSummaryId acc.summaries start apid = some pid)
    (inv : SumInv start sums0 n0 acc) :
    SumInv start sums0 n0
      { summaries := acc.summaries.map (fun p => if p.id = pid then applySummaryPayload d p else p),
        nextId := acc.nextId,
        pageIds := setA acc.pageIds aid pid,
        created := c1, changed := c2 } := by
  obtain ⟨qq, hqqmem, hqqlive, hqqweek, hqqag, hqqid⟩ := findSummaryId_some hfind
  have hvals : (setA acc.pageIds aid pid).map Prod.snd
      = acc.pageIds.map Prod.snd ++ [pid] := by
    rw [setA_eq_append pid hk, List.map_append]
    rfl
  have hid : ∀ q : SummaryPage,
      (if q.id = pid then applySummaryPayload d q else q).id = q.id := by
    intro q; by_cases h : q.id = pid <;> simp [h, applySummaryPayload]
  have harch : ∀ q : SummaryPage,
      (if q.id = pid then applySummaryPayload d q else q).archived = q.archived := by
    intro q; by_cases h : q.id = pid <;> simp [h, applySummaryPayload]
  have hdet : ∀ q : SummaryPage,
      (if q.id = pid then applySummaryPayload d q else q).detailIds = q.detailIds := by
    intro q; by_cases h : q.id = pid <;> simp [h, applySummaryPayload]
  have hinj := List.inj_on_of_nodup_map inv.nodup
  have htouched : ∀ q ∈ acc.summaries, q.id = pid → q = qq := by
    intro q hq hqid
    exact hinj hq hqqmem (by rw [hqid, hqqid])
  refine { keep := ?_, char := ?_, fresh := ?_, nodup := ?_, lower := ?_,
           live := ?_, uniq := ?_ }
  · intro p hp hnotin
    dsimp only at hnotin ⊢
    rw [hvals] at hnotin
    have h1 : p.id ∉ acc.pageIds.map Prod.snd :=
      fun hc => hnotin (List.mem_append.mpr (Or.inl hc))
    have h2 : p.id ≠ pid := by
      intro hc
      exact hnotin (List.mem_append.mpr (Or.inr (by simp [hc])))
    have hpmem := inv.keep p hp h1
    have hm := List.mem_map_of_mem
      (fun q => if q.id = pid then applySummaryPayload d q else q) hpmem
    simpa [h2] using hm
  · intro q' hq'
    dsimp only at hq' ⊢
    rw [hvals]
    rcases List.mem_map.mp hq' with ⟨q, hq, him⟩
    by_cases hqid : q.id = pid
    · have hq_eq : q = qq := htouched q hq hqid
      subst hq_eq
      rw [if_pos hqid] at him
      have hid' : q'.id = q.id := by rw [← him]; simp [applySummaryPayload]
      have harch' : q'.archived = q.archived := by rw [← him]; simp [applySummaryPayload]
      have hdet' : q'.detailIds = q.detailIds := by rw [← him]; simp [applySummaryPayload]
      have hws' : q'.weekStart = start := by rw [← him]; simp [applySummaryPayload, hdw]
      have hag' : q'.agents = [d.agentPageId] := by rw [← him]; simp [applySummaryPayload]
      have hmemv : q'.id ∈ acc.pageIds.map Prod.snd ++ [pid] := by
        rw [hid', hqqid]
        exact List.mem_append.mpr (Or.inr (by simp))
      rcases inv.char q hq with ⟨p, hp, h1, h2, h3, _⟩ | ⟨h1, h2, _, _, _, _, h7⟩
      · exact Or.inl ⟨p, hp, hid'.trans h1, harch'.trans h2, hdet'.trans h3,
          Or.inr ⟨harch'.trans hqqlive, hws', ⟨d.agentPageId, hag'⟩, hmemv⟩⟩
      · exact Or.inr ⟨hid' ▸ h1, hid' ▸ h2, harch'.trans hqqlive, hws',
          ⟨d.agentPageId, hag'⟩, hmemv, hdet'.trans h7⟩
    · rw [if_neg hqid] at him
      subst him
      rcases inv.char q hq with ⟨p, hp, h1, h2, h3, h4 | ⟨h5, h6, h7, h8⟩⟩ |
        ⟨h1, h2, h3, h4, h5, h6, h7⟩
      · exact Or.inl ⟨p, hp, h1, h2, h3, Or.inl h4⟩
      · exact Or.inl ⟨p, hp, h1, h2, h3,
          Or.inr ⟨h5, h6, h7, List.mem_append.mpr (Or.inl h8)⟩⟩
      · exact Or.inr ⟨h1, h2, h3, h4, h5, List.mem_append.mpr (Or.inl h6), h7⟩
  · intro p hp
    dsimp only at hp ⊢
    rcases List.mem_map.mp hp with ⟨q, hq, him⟩
    rw [← him, hid q]
    exact inv.fresh q hq
  · dsimp only
    have hmm : (acc.summaries.map
        (fun p => if p.id = pid then applySummaryPayload d p else p)).map SummaryPage.id
        = acc.summaries.map SummaryPage.id := by
      rw [List.map_map]
      apply List.map_congr_left
      intro p _
      exact hid p
    rw [hmm]
    exact inv.nodup
  · exact inv.lower
  · intro i hi
    dsimp only at hi ⊢
    rw [hvals] at hi
    rcases List.mem_append.mp hi with hi | hi
    · rcases inv.live i hi with ⟨q, hq, hqi, hqa, hqw, g0, hqg⟩
      refine ⟨if q.id = pid then applySummaryPayload d q else q,
        List.mem_map_of_mem _ hq, ?_, ?_, ?_, ?_⟩
      · rw [hid q]; exact hqi
      · rw [harch q]; exact hqa
      · by_cases h : q.id = pid
        · simp [h, applySummaryPayload, hdw]
        · simpa [h] using hqw
      · by_cases h : q.id = pid
        · exact ⟨d.agentPageId, by simp [h, applySummaryPayload]⟩
        · exact ⟨g0, by simpa [h] using hqg⟩
    · simp only [List.mem_singleton] at hi
      rw [hi]
      refine ⟨applySummaryPayload d qq, ?_, ?_, ?_, ?_, ?_⟩
      · have hm := List.mem_map_of_mem
          (fun q => if q.id = pid then applySummaryPayload d q else q) hqqmem
        simpa [hqqid] using hm
      · simp [applySummaryPayload, hqqid]
      · simpa [applySummaryPayload] using hqqlive
      · simp [applySummaryPayload, hdw]
      · exact ⟨d.agentPageId, by simp [applySummaryPayload]⟩
  · intro q' hq' r' hr' hqa hra hqw hrw g hgq hgr
    dsimp only at hq' hr'
    rcases List.mem_map.mp hq' with ⟨q, hq, himq⟩
    rcases List.mem_map.mp hr' with ⟨r, hr, himr⟩
    by_cases hq1 : q.id = pid <;> by_cases hr1 : r.id = pid
    · rw [← himq, ← himr, if_pos hq1, if_pos hr1, htouched q hq hq1, htouched r hr hr1]
    · rw [if_pos hq1] at himq
      rw [if_neg hr1] at himr
      subst himr
      have hgapid : g = apid := by
        rw [← himq] at hgq
        simpa [applySummaryPayload, hda] using hgq
      have hre : r = qq := inv.uniq r hr qq hqqmem hra hqqlive hrw hqqweek apid
        (hgapid ▸ hgr) hqqag
      exact absurd (by rw [hre]; exact hqqid) hr1
    · rw [if_neg hq1] at himq
      rw [if_pos hr1] at himr
      subst himq
      have hgapid : g = apid := by
        rw [← himr] at hgr
        simpa [applySummaryPayload, hda] using hgr
      have hqe : q = qq := inv.uniq q hq qq hqqmem hqa hqqlive hqw hqqweek apid
        (hgapid ▸ hgq) hqqag
      exact absurd (by rw [hqe]; exact hqqid) hq1
    · rw [if_neg hq1] at himq
      rw [if_neg hr1] at himr
      subst himq
      subst himr
      exact inv.uniq q hq r hr hqa hra hqw hrw g hgq hgr

theorem sumInv_create (start : String) (sums0 : List SummaryPage) (n0 : Nat)
    (acc : SummaryPhaseOut) (aid : String) (apid : Nat) (d : SummaryPayload)
    (c1 c2 : Nat)
    (hdw : d.weekStart = start) (hda : d.agentPageId = apid)
    (hk : lookupA acc.pageIds aid = none)
    (hfind : findSummaryId acc.summaries start apid = none)
    (h0 : ∀ p ∈ sums0, p.id < n0)
    (inv : SumInv start sums0 n0 acc) :
    SumInv start sums0 n0
      { summaries := acc.summaries ++
          [{ id := acc.nextId, archived := false, title := d.title,
             weekStart := d.weekStart, weekEnd := d.weekEnd, agents := [d.agentPageId],
             playerCount := d.playerCount, agentReward := d.agentReward,
             settlementAmount := d.settlementAmount, detailIds := [] }],
        nextId := acc.nextId + 1,
        pageIds := setA acc.pageIds aid acc.nextId,
        created := c1, changed := c2 } := by
  have hnone := (findSummaryId_none_iff acc.summaries start apid).mp hfind
  have hvals : (setA acc.pageIds aid acc.nextId).map Prod.snd
      = acc.pageIds.map Prod.snd ++ [acc.nextId] := by
    rw [setA_eq_append acc.nextId hk, List.map_append]
    rfl
  refine { keep := ?_, char := ?_, fresh := ?_, nodup := ?_, lower := ?_,
           live := ?_, uniq := ?_ }
  · intro p hp hnotin
    dsimp only at hnotin ⊢
    rw [hvals] at hnotin
    have h1 : p.id ∉ acc.pageIds.map Prod.snd :=
      fun hc => hnotin (List.mem_append.mpr (Or.inl hc))
    exact List.mem_append.mpr (Or.inl (inv.keep p hp h1))
  · intro q' hq'
    dsimp only at hq' ⊢
    rw [hvals]
    rcases List.mem_append.mp hq' with hq | hq
    · rcases inv.char q' hq with ⟨p, hp, h1, h2, h3, h4 | ⟨h5, h6, h7, h8⟩⟩ |
        ⟨h1, h2, h3, h4, h5, h6, h7⟩
      · exact Or.inl ⟨p, hp, h1, h2, h3, Or.inl h4⟩
      · exact Or.inl ⟨p, hp, h1, h2, h3,
          Or.inr ⟨h5, h6, h7, List.mem_append.mpr (Or.inl h8)⟩⟩
      · exact Or.inr ⟨h1, h2, h3, h4, h5, List.mem_append.mpr (Or.inl h6), h7⟩
    · simp only [List.mem_singleton] at hq
      subst hq
      refine Or.inr ⟨?_, inv.lower, rfl, hdw, ⟨d.agentPageId, rfl⟩,
        List.mem_append.mpr (Or.inr (by simp)), rfl⟩
      intro hc
      rcases List.mem_map.mp hc with ⟨p, hp, hpe⟩
      have := h0 p hp
      have := inv.lower
      simp only at hpe
      omega
  · intro p hp
    dsimp only at hp ⊢
    rcases List.mem_append.mp hp with hq | hq
    · exact Nat.lt_trans (inv.fresh p hq) (Nat.lt_succ_self _)
    · simp only [List.mem_singleton] at hq
      subst hq
      exact Nat.lt_succ_self _
  · dsimp only
    rw [List.map_append]
    apply List.Nodup.append inv.nodup (by simp)
    intro a ha hb
    rcases List.mem_map.mp ha with ⟨q, hq, hqe⟩
    simp only [List.map_cons, List.map_nil, List.mem_singleton] at hb
    have := inv.fresh q hq
    omega
  · exact Nat.le_trans inv.lower (Nat.le_succ _)
  · intro i hi
    dsimp only at hi ⊢
    rw [hvals] at hi
    rcases List.mem_append.mp hi with hi | hi
    · rcases inv.live i hi with ⟨q, hq, hqi, hqa, hqw, g0, hqg⟩
      exact ⟨q, List.mem_append.mpr (Or.inl hq), hqi, hqa, hqw, g0, hqg⟩
    · simp only [List.mem_singleton] at hi
      subst hi
      exact ⟨{ id := acc.nextId,
               archived := false,
               title := d.title,
               weekStart := d.weekStart,
               weekEnd := d.weekEnd,
               agents := [d.agentPageId],
               playerCount := d.playerCount,
               agentReward := d.agentReward,
               settlementAmount := d.settlementAmount,
               detailIds := [] },
        List.mem_append.mpr (Or.inr (by simp)), rfl, rfl, hdw, d.agentPageId, rfl⟩
  · intro q' hq' r' hr' hqa hra hqw hrw g hgq hgr
    dsimp only at hq' hr'
    rcases List.mem_append.mp hq' with hq | hq <;>
      rcases List.mem_append.mp hr' with hr | hr
    · exact inv.uniq q' hq r' hr hqa hra hqw hrw g hgq hgr
    · simp only [List.mem_singleton] at hr
      subst hr
      have hgapid : g = apid := by simpa [hda] using hgr
      exact absurd ⟨hqa, hqw, hgapid ▸ hgq⟩ (hnone q' hq)
    · simp only [List.mem_singleton] at hq
      subst hq
      have hgapid : g = apid := by simpa [hda] using hgq
      exact absurd ⟨hra, hrw, hgapid ▸ hgr⟩ (hnone r' hr)
    · simp only [List.mem_singleton] at hq hr
      rw [hq, hr]

theorem sumInv_step (tp start endd : String) (sa : List SheetsAgentData)
    (api : List (String × Nat)) (sums0 : List SummaryPage) (n0 : Nat)
    (h0 : ∀ p ∈ sums0, p.id < n0)
    (acc : SummaryPhaseOut) (g : AgentSyncSummary)
    (hk : lookupA acc.pageIds g.agentId = none)
    (inv : SumInv start sums0 n0 acc) :
    SumInv start sums0 n0 (summaryStep tp start endd sa api acc g) := by
  unfold summaryStep
  by_cases ha : g.agentId = ""
  · simpa [ha] using inv
  · rw [if_neg ha]
    split
    · exact inv
    next apid heq =>
      split
      next pid hfind =>
        exact sumInv_update start sums0 n0 acc g.agentId apid pid _ _ _ rfl rfl hk hfind inv
      next hfind =>
        exact sumInv_create start sums0 n0 acc g.agentId apid _ _ _ rfl rfl hk hfind h0 inv

theorem sumInv_fold (tp start endd : String) (sa : List SheetsAgentData)
    (api : List (String × Nat)) (sums0 : List SummaryPage) (n0 : Nat)
    (h0 : ∀ p ∈ sums0, p.id < n0) :
    ∀ (G : List AgentSyncSummary) (acc : SummaryPhaseOut),
      (G.map AgentSyncSummary.agentId).Nodup →
      (∀ g ∈ G, lookupA acc.pageIds g.agentId = none) →
      SumInv start sums0 n0 acc →
      SumInv start sums0 n0 (G.foldl (summaryStep tp start endd sa api) acc) := by
  intro G
  induction G with
  | nil => intro acc _ _ inv; exact inv
  | cons g rest ih =>
    intro acc hnd hkeys inv
    rw [List.map_cons, List.nodup_cons] at hnd
    rw [List.foldl_cons]
    apply ih _ hnd.2
    · intro g' hg'
      have hne : g'.agentId ≠ g.agentId := by
        intro hc
        exact hnd.1 (hc ▸ List.mem_map_of_mem AgentSyncSummary.agentId hg')
      rcases summaryStep_pageIds tp start endd sa api acc g with he | ⟨v, he⟩
      · rw [he]
        exact hkeys g' (List.mem_cons_of_mem g hg')
      · rw [he, lookupA_setA_ne _ _ _ _ hne]
        exact hkeys g' (List.mem_cons_of_mem g hg')
    · exact sumInv_step tp start endd sa api sums0 n0 h0 acc g
        (hkeys g (List.mem_cons_self g rest)) inv

theorem sumInv_init (start : String) (sums0 : List SummaryPage) (n0 : Nat)
    (hnd : (sums0.map SummaryPage.id).Nodup)
    (huniq : ∀ p ∈ sums0, ∀ q ∈ sums0, p.archived = false → q.archived = false →
      p.weekStart = start → q.weekStart = start → ∀ g ∈ p.agents, g ∈ q.agents → p = q)
    (h0 : ∀ p ∈ sums0, p.id < n0) :
    SumInv start sums0 n0
      { summaries := sums0, nextId := n0, pageIds := [], created := 0, changed := 0 } := by
  refine { keep := ?_, char := ?_, fresh := ?_, nodup := hnd, lower := le_refl n0,
           live := ?_, uniq := huniq }
  · intro p hp _
    exact hp
  · intro q hq
    exact Or.inl ⟨q, hq, rfl, rfl, rfl, Or.inl rfl⟩
  · exact h0
  · intro i hi
    simp at hi

theorem summaryPhase_inv (tp start endd : String) (sa : List SheetsAgentData)
    (api : List (String × Nat)) (G : List AgentSyncSummary)
    (sums0 : List SummaryPage) (n0 : Nat)
    (h0 : ∀ p ∈ sums0, p.id < n0)
    (hnd : (sums0.map SummaryPage.id).Nodup)
    (huniq : ∀ p ∈ sums0, ∀ q ∈ sums0, p.archived = false → q.archived = false →
      p.weekStart = start → q.weekStart = start → ∀ g ∈ p.agents, g ∈ q.agents → p = q)
    (hgnd : (G.map AgentSyncSummary.agentId).Nodup) :
    SumInv start sums0 n0 (summaryPhase tp start endd sa api G sums0 n0) := by
  unfold summaryPhase
  exact sumInv_fold tp start endd sa api sums0 n0 h0 G _ hgnd
    (fun g _ => rfl) (sumInv_init start sums0 n0 hnd huniq h0)

/-! ## Week-period query map, archive fold and wiring fold -/

theorem summMapFold_mem (start : String) :
    ∀ (sums : List SummaryPage) (m : List (Nat × Nat)),
      ∀ e ∈ sums.foldl
        (fun m p =>
          if p.archived then m
          else if p.weekStart = start then
            match p.agents.head? with
            | some g => setA m g p.id
            | none => m
          else m) m,
      e ∈ m ∨ ∃ p ∈ sums, p.archived = false ∧ p.weekStart = start ∧
        p.agents.head? = some e.1 ∧ p.id = e.2 := by
  intro sums
  induction sums with
  | nil => intro m e he; exact Or.inl he
  | cons p rest ih =>
    intro m e he
    rw [List.foldl_cons] at he
    rcases ih _ e he with hm | ⟨q, hq, hprops⟩
    · cases hp : p.archived
      · rw [if_neg (by simp [hp])] at hm
        by_cases hw : p.weekStart = start
        · rw [if_pos hw] at hm
          cases hh : p.agents.head? with
          | none =>
            rw [hh] at hm
            exact Or.inl hm
          | some g0 =>
            rw [hh] at hm
            have hm2 : e ∈ setA m g0 p.id := hm
            rcases mem_setA hm2 with he2 | he2
            · refine Or.inr ⟨p, List.mem_cons_self p rest, hp, hw, ?_, ?_⟩
              · rw [he2]; exact hh
              · rw [he2]
            · exact Or.inl he2
        · rw [if_neg hw] at hm
          exact Or.inl hm
      · rw [if_pos hp] at hm
        exact Or.inl hm
    · exact Or.inr ⟨q, List.mem_cons_of_mem p hq, hprops⟩

theorem summMapFold_lookup (start : String) (g : Nat) :
    ∀ (sums : List SummaryPage) (m : List (Nat × Nat)),
      lookupA (sums.foldl
        (fun m p =>
          if p.archived then m
          else if p.weekStart = start then
            match p.agents.head? with
            | some g => setA m g p.id
            | none => m
          else m) m) g
      = (sums.filter (fun q => !q.archived && (q.weekStart = start : Bool) &&
          (q.agents.head? = some g : Bool))).foldl (fun _ q => some q.id) (lookupA m g) := by
  intro sums
  induction sums with
  | nil => intro m; rfl
  | cons p rest ih =>
    intro m
    rw [List.foldl_cons, List.filter_cons]
    cases hp : p.archived
    · by_cases hw : p.weekStart = start
      · cases hh : p.agents.head? with
        | none =>
          rw [if_neg (show ¬((!false && (p.weekStart = start : Bool) &&
            ((none : Option Nat) = some g : Bool)) = true) by simp)]
          rw [if_neg (show ¬(false = true) by simp), if_pos hw]
          exact ih m
        | some g0 =>
          by_cases hg : g0 = g
          · rw [hg]
            rw [if_pos (show (!false && (p.weekStart = start : Bool) &&
              ((some g : Option Nat) = some g : Bool)) = true by simp [hw])]
            rw [if_neg (show ¬(false = true) by simp), if_pos hw]
            have hstep := ih (setA m g p.id)
            rw [lookupA_setA_self] at hstep
            rw [List.foldl_cons]
            exact hstep
          · rw [if_neg (show ¬((!false && (p.weekStart = start : Bool) &&
              ((some g0 : Option Nat) = some g : Bool)) = true) by simp [hg])]
            rw [if_neg (show ¬(false = true) by simp), if_pos hw]
            have hstep := ih (setA m g0 p.id)
            rw [lookupA_setA_ne _ _ _ _ (fun hc => hg hc.symm)] at hstep
            exact hstep
      · rw [if_neg (show ¬((!false && (p.weekStart = start : Bool) &&
          (p.agents.head? = some g : Bool)) = true) by simp [hw])]
        rw [if_neg (show ¬(false = true) by simp), if_neg hw]
        exact ih m
    · rw [if_neg (show ¬((!true && (p.weekStart = start : Bool) &&
        (p.agents.head? = some g : Bool)) = true) by simp)]
      rw [if_pos (show (true : Bool) = true from rfl)]
      exact ih m

theorem foldl_lastId (p : SummaryPage) :
    ∀ (l : List SummaryPage), l ≠ [] → (∀ q ∈ l, q = p) →
      ∀ x : Option Nat, l.foldl (fun _ q => some q.id) x = some p.id := by
  intro l
  induction l with
  | nil => intro h; exact absurd rfl h
  | cons a rest ih =>
    intro _ hall x
    rw [List.foldl_cons]
    by_cases hr : rest = []
    · subst hr
      rw [List.foldl_nil, hall a (List.mem_cons_self a [])]
    · exact ih hr (fun q hq => hall q (List.mem_cons_of_mem a hq)) _

theorem summMap_lookup_unique (start : String) (g : Nat) (sums : List SummaryPage)
    (p : SummaryPage) (hp : p ∈ sums) (hl : p.archived = false) (hw : p.weekStart = start)
    (hh : p.agents.head? = some g)
    (hu : ∀ q ∈ sums, q.archived = false → q.weekStart = start →
      q.agents.head? = some g → q = p) :
    lookupA (getAllSummariesByPeriodMap sums start) g = some p.id := by
  have hfil : p ∈ sums.filter (fun q => !q.archived && (q.weekStart = start : Bool) &&
      (q.agents.head? = some g : Bool)) :=
    List.mem_filter.mpr ⟨hp, by simp [hl, hw, hh]⟩
  have hall : ∀ q ∈ sums.filter (fun q => !q.archived && (q.weekStart = start : Bool) &&
      (q.agents.head? = some g : Bool)), q = p := by
    intro q hq
    rcases List.mem_filter.mp hq with ⟨hq1, hq2⟩
    simp only [Bool.and_eq_true, Bool.not_eq_true', decide_eq_true_eq] at hq2
    exact hu q hq1 hq2.1.1 hq2.1.2 hq2.2
  unfold getAllSummariesByPeriodMap
  rw [summMapFold_lookup start g sums []]
  exact foldl_lastId p _ (List.ne_nil_of_mem hfil) hall _

theorem archiveFold_fst (synced : List Nat) :
    ∀ (es : List (Nat × Nat)) (sums : List SummaryPage) (n : Nat),
      (es.foldl (archiveSummaryStep synced) (sums, n)).1
      = sums.map (fun p =>
          if es.any (fun e => !synced.contains e.2 && (p.id = e.2 : Bool))
          then { p with archived := true } else p) := by
  intro es
  induction es with
  | nil =>
    intro sums n
    simp
  | cons e rest ih =>
    intro sums n
    rw [List.foldl_cons]
    cases hc : synced.contains e.2
    · have hstep : archiveSummaryStep synced (sums, n) e
          = (sums.map (fun p => if p.id = e.2 then { p with archived := true } else p),
             n + 1) := by
        unfold archiveSummaryStep
        rw [if_neg (by rw [hc]; simp)]
      rw [hstep, ih, List.map_map]
      apply List.map_congr_left
      intro p _
      rw [List.any_cons]
      by_cases hpe : p.id = e.2
      · have hhd : (!synced.contains e.2 && (p.id = e.2 : Bool)
            || rest.any fun e => !synced.contains e.2 && (p.id = e.2 : Bool)) = true := by
          rw [hc, hpe]; simp
        rw [hhd, if_pos rfl]
        show (fun q => if (rest.any fun e => !synced.contains e.2 && (q.id = e.2 : Bool)) = true
            then { q with archived := true } else q)
          (if p.id = e.2 then { p with archived := true } else p)
          = { p with archived := true }
        rw [if_pos hpe]
        exact ite_self _
      · have hhd : (!synced.contains e.2 && (p.id = e.2 : Bool)
            || rest.any fun e => !synced.contains e.2 && (p.id = e.2 : Bool))
            = rest.any fun e => !synced.contains e.2 && (p.id = e.2 : Bool) := by
          rw [hc]
          simp [hpe]
        rw [hhd]
        show (fun q => if (rest.any fun e => !synced.contains e.2 && (q.id = e.2 : Bool)) = true
            then { q with archived := true } else q)
          (if p.id = e.2 then { p with archived := true } else p)
          = if (rest.any fun e => !synced.contains e.2 && (p.id = e.2 : Bool)) = true
            then { p with archived := true } else p
        rw [if_neg hpe]
    · have hstep : archiveSummaryStep synced (sums, n) e = (sums, n) := by
        unfold archiveSummaryStep
        rw [if_pos hc]
      rw [hstep, ih]
      apply List.map_congr_left
      intro p _
      rw [List.any_cons]
      have hhd : (!synced.contains e.2 && (p.id = e.2 : Bool)
          || rest.any fun e => !synced.contains e.2 && (p.id = e.2 : Bool))
          = rest.any fun e => !synced.contains e.2 && (p.id = e.2 : Bool) := by
        rw [hc]
        simp
      rw [hhd]

theorem archiveSummaries_fst (start : String) (synced : List Nat)
    (sums : List SummaryPage) :
    (archiveSummaries start synced sums).1
    = sums.map (fun p =>
        if (getAllSummariesByPeriodMap sums start).any
            (fun e => !synced.contains e.2 && (p.id = e.2 : Bool))
        then { p with archived := true } else p) := by
  unfold archiveSummaries
  exact archiveFold_fst synced _ sums 0

theorem wiringStep_shape (spi : List (String × Nat)) (acc : List SummaryPage × Nat)
    (e : String × List Nat) :
    (wiringStep spi acc e).1 = acc.1 ∨
      ∃ i ids, (wiringStep spi acc e).1
        = acc.1.map (fun p => if p.id = i then { p with detailIds := ids } else p) := by
  unfold wiringStep
  split
  · left; rfl
  next spid heq =>
    cases hemp : e.2.isEmpty
    · refine Or.inr ⟨spid, e.2, ?_⟩
      rw [if_neg (by simp [hemp])]
    · rw [if_pos (by simp [hemp])]
      left; rfl

theorem wiringFold_map (spi : List (String × Nat)) :
    ∀ (sdi : List (String × List Nat)) (acc : List SummaryPage × Nat),
      ∃ F : SummaryPage → SummaryPage,
        (sdi.foldl (wiringStep spi) acc).1 = acc.1.map F ∧
        ∀ p, (F p).id = p.id ∧ (F p).archived = p.archived ∧
          (F p).weekStart = p.weekStart ∧ (F p).agents = p.agents := by
  intro sdi
  induction sdi with
  | nil =>
    intro acc
    exact ⟨fun p => p, by simp, fun p => ⟨rfl, rfl, rfl, rfl⟩⟩
  | cons e rest ih =>
    intro acc
    rw [List.foldl_cons]
    obtain ⟨F, hF, hprops⟩ := ih (wiringStep spi acc e)
    rcases wiringStep_shape spi acc e with hs | ⟨i, ids, hs⟩
    · exact ⟨F, by rw [hF, hs], hprops⟩
    · refine ⟨fun p => F (if p.id = i then { p with detailIds := ids } else p), ?_, ?_⟩
      · rw [hF, hs, List.map_map]
        rfl
      · intro p
        obtain ⟨h1, h2, h3, h4⟩ := hprops (if p.id = i then { p with detailIds := ids } else p)
        by_cases hc : p.id = i
        · simp only [hc, if_true] at h1 h2 h3 h4
          simp only [hc, if_true]
          exact ⟨by simpa using h1, by simpa using h2, by simpa using h3, by simpa using h4⟩
        · simp only [hc, if_false] at h1 h2 h3 h4
          simp only [hc, if_false]
          exact ⟨h1, h2, h3, h4⟩

theorem map_ids_of_preserve {sums : List SummaryPage} {F : SummaryPage → SummaryPage}
    (h : ∀ p, (F p).id = p.id) :
    (sums.map F).map SummaryPage.id = sums.map SummaryPage.id := by
  rw [List.map_map]
  apply List.map_congr_left
  intro p _
  exact h p

theorem archive_mem_archived (start : String) (synced : List Nat)
    (sums : List SummaryPage) (p : SummaryPage) (hp : p ∈ sums)
    (hcond : ((getAllSummariesByPeriodMap sums start).any
      (fun e => !synced.contains e.2 && (p.id = e.2 : Bool))) = true) :
    { p with archived := true } ∈ (archiveSummaries start synced sums).1 := by
  rw [archiveSummaries_fst]
  have hm := List.mem_map_of_mem
    (fun p => if (getAllSummariesByPeriodMap sums start).any
      (fun e => !synced.contains e.2 && (p.id = e.2 : Bool))
      then { p with archived := true } else p) hp
  simp only [hcond, if_true] at hm
  exact hm

theorem archive_mem_keep (start : String) (synced : List Nat)
    (sums : List SummaryPage) (p : SummaryPage) (hp : p ∈ sums)
    (hcond : ((getAllSummariesByPeriodMap sums start).any
      (fun e => !synced.contains e.2 && (p.id = e.2 : Bool))) = false) :
    p ∈ (archiveSummaries start synced sums).1 := by
  rw [archiveSummaries_fst]
  have hm := List.mem_map_of_mem
    (fun p => if (getAllSummariesByPeriodMap sums start).any
      (fun e => !synced.contains e.2 && (p.id = e.2 : Bool))
      then { p with archived := true } else p) hp
  simp only [hcond, Bool.false_eq_true, if_false] at hm
  exact hm

theorem archive_mem_trace (start : String) (synced : List Nat)
    (sums : List SummaryPage) (p : SummaryPage) (hp : p ∈ sums) :
    ∃ q ∈ (archiveSummaries start synced sums).1, q.id = p.id ∧
      q.weekStart = p.weekStart ∧ q.agents = p.agents := by
  cases hc : ((getAllSummariesByPeriodMap sums start).any
      (fun e => !synced.contains e.2 && (p.id = e.2 : Bool)))
  · exact ⟨p, archive_mem_keep start synced sums p hp hc, rfl, rfl, rfl⟩
  · exact ⟨{ p with archived := true },
      archive_mem_archived start synced sums p hp hc, rfl, rfl, rfl⟩

theorem arch_cond_false_of_synced {synced : List Nat} {p : SummaryPage}
    (h : p.id ∈ synced) (es : List (Nat × Nat)) :
    (es.any (fun e => !synced.contains e.2 && (p.id = e.2 : Bool))) = false := by
  apply List.any_eq_false.mpr
  intro e he
  simp only [Bool.and_eq_true, Bool.not_eq_true', decide_eq_true_eq, not_and,
    List.contains, List.elem_eq_mem, decide_eq_false_iff_not]
  intro hns hpe
  exact hns (hpe ▸ h)

theorem archived_not_in_summMap (start : String) (sums : List SummaryPage)
    (hnd : (sums.map SummaryPage.id).Nodup) (q : SummaryPage) (hq : q ∈ sums)
    (ha : q.archived = true) :
    q.id ∉ (getAllSummariesByPeriodMap sums start).map Prod.snd := by
  intro hc
  rcases List.mem_map.mp hc with ⟨e, he, hee⟩
  have he2 : e ∈ sums.foldl
      (fun m p =>
        if p.archived then m
        else if p.weekStart = start then
          match p.agents.head? with
          | some g => setA m g p.id
          | none => m
        else m) [] := he
  rcases summMapFold_mem start sums [] e he2 with h0 | ⟨p', hp', hl', _, _, hid'⟩
  · simp at h0
  · have hpq : p' = q := List.inj_on_of_nodup_map hnd hp' hq (by rw [hid', hee])
    rw [hpq] at hl'
    simp [hl'] at ha

theorem archive_ids (start : String) (synced : List Nat) (sums : List SummaryPage) :
    ((archiveSummaries start synced sums).1.map SummaryPage.id) = sums.map SummaryPage.id := by
  rw [archiveSummaries_fst, List.map_map]
  apply List.map_congr_left
  intro p _
  by_cases hc : ((getAllSummariesByPeriodMap sums start).any
      (fun e => !synced.contains e.2 && (p.id = e.2 : Bool))) = true
  · simp only [Function.comp_apply, hc, if_true]
  · rw [Bool.not_eq_true] at hc
    simp only [Function.comp_apply, hc, Bool.false_eq_true, if_false]

/-- C5: after the WeeklySummary phase of a successful sync run for week
period W, every pre-existing live WeeklySummary of W (keyed by its agent
relation) whose page id is not among the ids just upserted is archived via
the non-destructive archived flag; no summary record is hard-deleted
(every original page id is still present afterwards); an archived summary
no longer appears in the week's listAll query map; and the just-upserted
summaries stay live. The store is assumed well-formed: distinct page ids,
ids below the id counter, and at most one live summary of the week per
related agent — the invariant the phase itself maintains. -/
theorem spec_C5 (inp : SyncInput) (s : Store) (S' : Store) (st : SyncStats)
    (start endd : String)
    (hparse : parseWeekPeriod inp.targetPeriod = some (start, endd))
    (hrun : runSync inp s = some (S', st))
    (hnd : (s.summaries.map SummaryPage.id).Nodup)
    (hfresh : ∀ p ∈ s.summaries, p.id < s.nextId)
    (huniq : ∀ p ∈ s.summaries, ∀ q ∈ s.summaries, p.archived = false →
      q.archived = false → p.weekStart = start → q.weekStart = start →
      ∀ g ∈ p.agents, g ∈ q.agents → p = q) :
    (∀ p ∈ s.summaries, ∀ g : Nat, p.archived = false → p.weekStart = start →
      p.agents = [g] → p.id ∉ st.syncedSummaryIds →
      ∃ q ∈ S'.summaries, q.id = p.id ∧ q.archived = true) ∧
    (∀ p ∈ s.summaries, ∃ q ∈ S'.summaries, q.id = p.id) ∧
    (∀ q ∈ S'.summaries, q.archived = true →
      q.id ∉ (getAllSummariesByPeriodMap S'.summaries start).map Prod.snd) ∧
    (∀ i ∈ st.syncedSummaryIds, ∃ q ∈ S'.summaries, q.id = i ∧ q.archived = false) := by
  unfold runSync at hrun
  split at hrun
  · exact absurd hrun (by simp)
  · split at hrun
    · exact absurd hrun (by simp)
    next se heq =>
      rw [hparse] at heq
      injection heq with hse
      subst hse
      injection hrun with hpair
      injection hpair with hS hst
      subst hS
      subst hst
      dsimp only
      set EA := getAllAgentsMap s.agents with hEA
      set FR := agentFeeRatesMap EA (sheetsFeeRatesMap inp.sheetsAgentData) with hFR
      set G := groupCollectionByAgent inp.collectionData FR with hG
      set ap := agentPhase inp.sheetsAgentData EA G s.agents s.nextId with hap
      set pp := playerPhase inp.sheetsPlayerData ap.pageIds (getAllPlayersMap s.players)
        s.players ap.nextId with hpp
      set sp := summaryPhase inp.targetPeriod start endd inp.sheetsAgentData ap.pageIds G
        s.summaries pp.nextId with hsp
      set dp := detailPhase ap.pageIds sp.pageIds pp.pageIdMap (getAllPlayersMap s.players)
        G s.details sp.nextId with hdp
      set synced := sp.pageIds.map Prod.snd with hsy
      set arS := archiveSummaries start synced sp.summaries with har
      have hfr2 : ∀ p ∈ s.summaries, p.id < pp.nextId := by
        intro p hp
        have h1 := hfresh p hp
        have h2 := agentPhase_nextId_le inp.sheetsAgentData EA G s.agents s.nextId
        have h3 := playerPhase_nextId_le inp.sheetsPlayerData ap.pageIds
          (getAllPlayersMap s.players) s.players ap.nextId
        rw [← hap] at h2
        rw [← hpp] at h3
        omega
      have hGnd : (G.map AgentSyncSummary.agentId).Nodup := by
        rw [hG]
        exact group_agentIds_nodup inp.collectionData FR
      have inv := summaryPhase_inv inp.targetPeriod start endd inp.sheetsAgentData
        ap.pageIds G s.summaries pp.nextId hfr2 hnd huniq hGnd
      rw [← hsp] at inv
      obtain ⟨F, hFeq, hFprops⟩ := wiringFold_map sp.pageIds dp.summaryDetailIds (arS.1, 0)
      have hwr : (wiringPhase sp.pageIds dp.summaryDetailIds arS.1).1 = arS.1.map F := by
        unfold wiringPhase
        exact hFeq
      rw [hwr]
      have hnd1 : (arS.1.map SummaryPage.id).Nodup := by
        rw [har, archive_ids]
        exact inv.nodup
      have hndF : ((arS.1.map F).map SummaryPage.id).Nodup := by
        rw [map_ids_of_preserve (fun p => (hFprops p).1)]
        exact hnd1
      refine ⟨?_, ?_, ?_, ?_⟩
      · intro p hp g hpl hpw hpag hpnot
        have hpin : p ∈ sp.summaries := inv.keep p hp hpnot
        have hgp : g ∈ p.agents := by rw [hpag]; exact List.mem_cons_self g []
        have hhead : p.agents.head? = some g := by rw [hpag]; rfl
        have hu2 : ∀ q ∈ sp.summaries, q.archived = false → q.weekStart = start →
            q.agents.head? = some g → q = p := by
          intro q hq h1 h2 h3
          exact inv.uniq q hq p hpin h1 hpl h2 hpw g (head_mem_of_eq h3) hgp
        have hlk := summMap_lookup_unique start g sp.summaries p hpin hpl hpw hhead hu2
        have hment := mem_of_lookupA_some hlk
        have hpsyn : synced.contains p.id = false := by
          simp only [List.contains, List.elem_eq_mem, decide_eq_false_iff_not]
          exact hpnot
        have hcondp : ((getAllSummariesByPeriodMap sp.summaries start).any
            (fun e => !synced.contains e.2 && (p.id = e.2 : Bool))) = true := by
          apply List.any_eq_true.mpr
          refine ⟨(g, p.id), hment, ?_⟩
          simp [List.contains, List.elem_eq_mem, hpnot]
        have harch := archive_mem_archived start synced sp.summaries p hpin hcondp
        rw [← har] at harch
        refine ⟨F { p with archived := true }, List.mem_map_of_mem F harch, ?_, ?_⟩
        · rw [(hFprops _).1]
        · rw [(hFprops _).2.1]
      · intro p hp
        have hq0 : ∃ q ∈ sp.summaries, q.id = p.id := by
          by_cases hin : p.id ∈ synced
          · rcases inv.live p.id hin with ⟨q, hq, hqi, _, _, _⟩
            exact ⟨q, hq, hqi⟩
          · exact ⟨p, inv.keep p hp hin, rfl⟩
        rcases hq0 with ⟨q, hq, hqi⟩
        rcases archive_mem_trace start synced sp.summaries q hq with ⟨q2, hq2, hq2i, _, _⟩
        rw [← har] at hq2
        exact ⟨F q2, List.mem_map_of_mem F hq2, by rw [(hFprops _).1, hq2i, hqi]⟩
      · intro q hq ha
        exact archived_not_in_summMap start (arS.1.map F) hndF q hq ha
      · intro i hi
        rcases inv.live i hi with ⟨q, hq, hqi, hqa, _, _⟩
        have hcond0 : ((getAllSummariesByPeriodMap sp.summaries start).any
            (fun e => !synced.contains e.2 && (q.id = e.2 : Bool))) = false := by
          apply arch_cond_false_of_synced
          rw [hqi]
          exact hi
        have hkeep := archive_mem_keep start synced sp.summaries q hq hcond0
        rw [← har] at hkeep
        refine ⟨F q, List.mem_map_of_mem F hkeep, ?_, ?_⟩
        · rw [(hFprops _).1]
          exact hqi
        · rw [(hFprops _).2.1]
          exact hqa

/-- Witness for C5 at the archive-on-absence run: the store holds a live
summary (page 10) of the week for agent B, the week's collection only
names agent A, and the run archives page 10. -/
theorem spec_C5_witness :
    ∃ q ∈ c5Run.1.summaries, q.id = c5Summary.id ∧ q.archived = true := by
  have h := spec_C5 c5Input c5Store c5Run.1 c5Run.2 "2025-01-13" "2025-01-19"
    (by decide) (by decide) (by decide) (by decide) (by decide)
  exact h.1 c5Summary (by decide) 2 (by decide) (by decide) (by decide) (by decide)

/-! ## Generic setA-fold characterizations (towards idempotence) -/

theorem foldl_congr_fn {α σ : Type} {f g : σ → α → σ} (l : List α)
    (h : ∀ acc x, x ∈ l → f acc x = g acc x) :
    ∀ acc, l.foldl f acc = l.foldl g acc := by
  induction l with
  | nil => intro acc; rfl
  | cons x rest ih =>
    intro acc
    rw [List.foldl_cons, List.foldl_cons, h acc x (List.mem_cons_self x rest)]
    exact ih (fun acc y hy => h acc y (List.mem_cons_of_mem x hy)) _

theorem foldSetA_lookup {α β γ : Type} [DecidableEq α] (c : γ → Bool) (key : γ → α)
    (val : γ → β) (k : α) :
    ∀ (l : List γ) (m : List (α × β)),
      lookupA (l.foldl (fun m x => if c x then setA m (key x) (val x) else m) m) k
      = (l.filter (fun x => c x && (key x = k : Bool))).foldl
          (fun _ x => some (val x)) (lookupA m k) := by
  intro l
  induction l with
  | nil => intro m; rfl
  | cons x rest ih =>
    intro m
    rw [List.foldl_cons, List.filter_cons]
    cases hc : c x
    · rw [if_neg (by simp), if_neg (by simp)]
      exact ih m
    · rw [if_pos rfl]
      by_cases hk : key x = k
      · rw [hk]
        rw [if_pos (by simp), List.foldl_cons]
        have hstep := ih (setA m k (val x))
        rw [lookupA_setA_self] at hstep
        exact hstep
      · rw [if_neg (by simp [hk])]
        have hstep := ih (setA m (key x) (val x))
        rw [lookupA_setA_ne _ _ _ _ (fun hc2 => hk hc2.symm)] at hstep
        exact hstep

theorem foldSetA_mem {α β γ : Type} [DecidableEq α] (c : γ → Bool) (key : γ → α)
    (val : γ → β) :
    ∀ (l : List γ) (m : List (α × β)),
      ∀ e ∈ l.foldl (fun m x => if c x then setA m (key x) (val x) else m) m,
        e ∈ m ∨ ∃ x ∈ l, c x = true ∧ key x = e.1 ∧ val x = e.2 := by
  intro l
  induction l with
  | nil => intro m e he; exact Or.inl he
  | cons x rest ih =>
    intro m e he
    rw [List.foldl_cons] at he
    rcases ih _ e he with hm | ⟨y, hy, hprops⟩
    · cases hc : c x
      · rw [if_neg (by simp [hc])] at hm
        exact Or.inl hm
      · rw [if_pos (by simp [hc])] at hm
        rcases mem_setA hm with he2 | he2
        · exact Or.inr ⟨x, List.mem_cons_self x rest, hc, by rw [he2], by rw [he2]⟩
        · exact Or.inl he2
    · exact Or.inr ⟨y, List.mem_cons_of_mem x hy, hprops⟩

theorem foldl_lastVal {γ β : Type} (val : γ → β) (p : γ) :
    ∀ (l : List γ), l ≠ [] → (∀ q ∈ l, q = p) →
      ∀ x : Option β, l.foldl (fun _ q => some (val q)) x = some (val p) := by
  intro l
  induction l with
  | nil => intro h; exact absurd rfl h
  | cons a rest ih =>
    intro _ hall x
    rw [List.foldl_cons]
    by_cases hr : rest = []
    · subst hr
      rw [List.foldl_nil, hall a (List.mem_cons_self a [])]
    · exact ih hr (fun q hq => hall q (List.mem_cons_of_mem a hq)) _

theorem lookupA_none_of_not_mem_keys {α β : Type} [DecidableEq α]
    {m : List (α × β)} {k : α} (h : k ∉ m.map Prod.fst) : lookupA m k = none := by
  induction m with
  | nil => rfl
  | cons e rest ih =>
    rw [lookupA_cons, if_neg, ih]
    · intro hc
      exact h (by simp [hc])
    · intro hc
      exact h (by simp [hc])

/-! ## Query-map characterizations -/

theorem getAllAgentsMap_eq (pages : List AgentPage) :
    getAllAgentsMap pages
    = pages.foldl (fun m p => if !p.archived && !(p.agentId = "" : Bool)
        then setA m p.agentId (p.id, p.feeRate) else m) [] := by
  unfold getAllAgentsMap
  refine foldl_congr_fn pages ?_ []
  intro m p _
  cases hp : p.archived
  · by_cases ha : p.agentId = "" <;> simp [hp, ha]
  · simp [hp]

theorem agentsMap_lookup (pages : List AgentPage) (k : String) :
    lookupA (getAllAgentsMap pages) k
    = (pages.filter (fun p => (!p.archived && !(p.agentId = "" : Bool)) &&
        (p.agentId = k : Bool))).foldl (fun _ p => some (p.id, p.feeRate)) none := by
  rw [getAllAgentsMap_eq, foldSetA_lookup]
  rfl

theorem agentsMap_mem (pages : List AgentPage) :
    ∀ e ∈ getAllAgentsMap pages, ∃ p ∈ pages, p.archived = false ∧ p.agentId ≠ "" ∧
      p.agentId = e.1 ∧ (p.id, p.feeRate) = e.2 := by
  intro e he
  rw [getAllAgentsMap_eq] at he
  rcases foldSetA_mem _ _ _ pages [] e he with h0 | ⟨p, hp, hc, hk, hv⟩
  · simp at h0
  · simp only [Bool.and_eq_true, Bool.not_eq_true', decide_eq_false_iff_not] at hc
    exact ⟨p, hp, hc.1, hc.2, hk, hv⟩

theorem agentsMap_lookup_empty (pages : List AgentPage) :
    lookupA (getAllAgentsMap pages) "" = none := by
  rw [agentsMap_lookup]
  have h : pages.filter (fun p => (!p.archived && !(p.agentId = "" : Bool)) &&
      (p.agentId = "" : Bool)) = [] := by
    apply List.filter_eq_nil_iff.mpr
    intro p _
    simp only [Bool.and_eq_true, Bool.not_eq_true', decide_eq_false_iff_not,
      decide_eq_true_eq, not_and]
    intro h1 h2
    exact absurd h2 h1.2
  rw [h, List.foldl_nil]

theorem agentsMap_append_none (xs ys : List AgentPage) (k : String)
    (h : ∀ p ∈ ys, p.archived = false → p.agentId ≠ "" → p.agentId ≠ k) :
    lookupA (getAllAgentsMap (xs ++ ys)) k = lookupA (getAllAgentsMap xs) k := by
  rw [agentsMap_lookup, agentsMap_lookup, List.filter_append, List.foldl_append]
  have hnil : ys.filter (fun p => (!p.archived && !(p.agentId = "" : Bool)) &&
      (p.agentId = k : Bool)) = [] := by
    apply List.filter_eq_nil_iff.mpr
    intro p hp
    simp only [Bool.and_eq_true, Bool.not_eq_true', decide_eq_false_iff_not,
      decide_eq_true_eq, not_and]
    intro h1 h2
    exact absurd h2 (h p hp h1.1 h1.2)
  rw [hnil, List.foldl_nil]

theorem agentsMap_append_one (xs ys : List AgentPage) (k : String) (np : AgentPage)
    (hmem : np ∈ ys) (hlive : np.archived = false) (hne : np.agentId ≠ "")
    (hk : np.agentId = k)
    (hu : ∀ p ∈ ys, p.archived = false → p.agentId = k → p = np) :
    lookupA (getAllAgentsMap (xs ++ ys)) k = some (np.id, np.feeRate) := by
  rw [agentsMap_lookup, List.filter_append, List.foldl_append]
  have hkne : k ≠ "" := hk ▸ hne
  have hfil : np ∈ ys.filter (fun p => (!p.archived && !(p.agentId = "" : Bool)) &&
      (p.agentId = k : Bool)) :=
    List.mem_filter.mpr ⟨hmem, by simp [hlive, hne, hk, hkne]⟩
  have hall : ∀ q ∈ ys.filter (fun p => (!p.archived && !(p.agentId = "" : Bool)) &&
      (p.agentId = k : Bool)), q = np := by
    intro q hq
    rcases List.mem_filter.mp hq with ⟨hq1, hq2⟩
    simp only [Bool.and_eq_true, Bool.not_eq_true', decide_eq_false_iff_not,
      decide_eq_true_eq] at hq2
    exact hu q hq1 hq2.1.1 hq2.2
  exact foldl_lastVal (fun p => (p.id, p.feeRate)) np _
    (List.ne_nil_of_mem hfil) hall _

theorem getAllPlayersMap_eq (pages : List PlayerPage) :
    getAllPlayersMap pages
    = pages.foldl (fun m p => if !p.archived && !(p.playerId = "" : Bool)
        then setA m (p.playerId, p.agents.head?) p.id else m) [] := by
  unfold getAllPlayersMap
  refine foldl_congr_fn pages ?_ []
  intro m p _
  cases hp : p.archived
  · by_cases ha : p.playerId = "" <;> simp [hp, ha]
  · simp [hp]

theorem playersMap_lookup (pages : List PlayerPage) (k : String × Option Nat) :
    lookupA (getAllPlayersMap pages) k
    = (pages.filter (fun p => (!p.archived && !(p.playerId = "" : Bool)) &&
        ((p.playerId, p.agents.head?) = k : Bool))).foldl
        (fun _ p => some p.id) none := by
  rw [getAllPlayersMap_eq, foldSetA_lookup]
  rfl

theorem playersMap_mem (pages : List PlayerPage) :
    ∀ e ∈ getAllPlayersMap pages, ∃ p ∈ pages, p.archived = false ∧ p.playerId ≠ "" ∧
      (p.playerId, p.agents.head?) = e.1 ∧ p.id = e.2 := by
  intro e he
  rw [getAllPlayersMap_eq] at he
  rcases foldSetA_mem _ _ _ pages [] e he with h0 | ⟨p, hp, hc, hk, hv⟩
  · simp at h0
  · simp only [Bool.and_eq_true, Bool.not_eq_true', decide_eq_false_iff_not] at hc
    exact ⟨p, hp, hc.1, hc.2, hk, hv⟩

theorem playersMap_lookup_unique (pages : List PlayerPage) (k : String × Option Nat)
    (w : PlayerPage) (hw : w ∈ pages) (hlive : w.archived = false)
    (hne : w.playerId ≠ "") (hkey : (w.playerId, w.agents.head?) = k)
    (hu : ∀ q ∈ pages, q.archived = false → q.playerId ≠ "" →
      (q.playerId, q.agents.head?) = k → q = w) :
    lookupA (getAllPlayersMap pages) k = some w.id := by
  rw [playersMap_lookup]
  have hfil : w ∈ pages.filter (fun p => (!p.archived && !(p.playerId = "" : Bool)) &&
      ((p.playerId, p.agents.head?) = k : Bool)) :=
    List.mem_filter.mpr ⟨hw, by simp [hlive, hne, hkey]⟩
  have hall : ∀ q ∈ pages.filter (fun p => (!p.archived && !(p.playerId = "" : Bool)) &&
      ((p.playerId, p.agents.head?) = k : Bool)), q = w := by
    intro q hq
    rcases List.mem_filter.mp hq with ⟨hq1, hq2⟩
    simp only [Bool.and_eq_true, Bool.not_eq_true', decide_eq_false_iff_not,
      decide_eq_true_eq] at hq2
    exact hu q hq1 hq2.1.1 hq2.1.2 hq2.2
  exact foldl_lastVal PlayerPage.id w _ (List.ne_nil_of_mem hfil) hall _

theorem playersMap_lookup_none (pages : List PlayerPage) (k : String × Option Nat)
    (h : ∀ q ∈ pages, q.archived = false → q.playerId ≠ "" →
      (q.playerId, q.agents.head?) ≠ k) :
    lookupA (getAllPlayersMap pages) k = none := by
  rw [playersMap_lookup]
  have hnil : pages.filter (fun p => (!p.archived && !(p.playerId = "" : Bool)) &&
      ((p.playerId, p.agents.head?) = k : Bool)) = [] := by
    apply List.filter_eq_nil_iff.mpr
    intro p hp
    simp only [Bool.and_eq_true, Bool.not_eq_true', decide_eq_false_iff_not,
      decide_eq_true_eq, not_and]
    intro h1 h2
    exact absurd h2 (h p hp h1.1 h1.2)
  rw [hnil, List.foldl_nil]

theorem getAllDetailsBySummaryMap_eq (pages : List DetailPage) (spid : Nat) :
    getAllDetailsBySummaryMap pages spid
    = pages.foldl (fun m d => if (!d.archived && d.summaryIds.contains spid) &&
        !(d.playerId = "" : Bool) then setA m d.playerId d.id else m) [] := by
  unfold getAllDetailsBySummaryMap
  refine foldl_congr_fn pages ?_ []
  intro m d _
  cases hp : d.archived
  · cases hc : d.summaryIds.contains spid
    · simp [hp, hc]
    · by_cases hpl : d.playerId = "" <;> simp [hp, hc, hpl]
  · simp [hp]

theorem detailsMap_lookup (pages : List DetailPage) (spid : Nat) (k : String) :
    lookupA (getAllDetailsBySummaryMap pages spid) k
    = (pages.filter (fun d => ((!d.archived && d.summaryIds.contains spid) &&
        !(d.playerId = "" : Bool)) && (d.playerId = k : Bool))).foldl
        (fun _ d => some d.id) none := by
  rw [getAllDetailsBySummaryMap_eq, foldSetA_lookup]
  rfl

theorem detailsMap_mem (pages : List DetailPage) (spid : Nat) :
    ∀ e ∈ getAllDetailsBySummaryMap pages spid, ∃ d ∈ pages, d.archived = false ∧
      spid ∈ d.summaryIds ∧ d.playerId ≠ "" ∧ d.playerId = e.1 ∧ d.id = e.2 := by
  intro e he
  rw [getAllDetailsBySummaryMap_eq] at he
  rcases foldSetA_mem _ _ _ pages [] e he with h0 | ⟨d, hd, hc, hk, hv⟩
  · simp at h0
  · simp only [Bool.and_eq_true, Bool.not_eq_true', decide_eq_false_iff_not,
      List.contains, List.elem_eq_mem, decide_eq_true_eq] at hc
    exact ⟨d, hd, hc.1.1, hc.1.2, hc.2, hk, hv⟩

/-! ## Aggregation congruence in the fee map -/

theorem initSummary_congr (f1 f2 : List (String × ℚ)) (row : CollectionDataRow)
    (h : (lookupA f1 row.agentId).getD (7/10) = (lookupA f2 row.agentId).getD (7/10)) :
    initSummary f1 row = initSummary f2 row := by
  unfold initSummary
  rw [h]

theorem groupStep_congr (f1 f2 : List (String × ℚ)) (m : List (String × AgentSyncSummary))
    (row : CollectionDataRow)
    (h : (lookupA f1 row.agentId).getD (7/10) = (lookupA f2 row.agentId).getD (7/10)) :
    groupStep f1 m row = groupStep f2 m row := by
  unfold groupStep
  rw [initSummary_congr f1 f2 row h]

theorem groupCollectionByAgent_congr (rows : List CollectionDataRow)
    (f1 f2 : List (String × ℚ))
    (h : ∀ row ∈ rows, (lookupA f1 row.agentId).getD (7/10)
      = (lookupA f2 row.agentId).getD (7/10)) :
    groupCollectionByAgent rows f1 = groupCollectionByAgent rows f2 := by
  unfold groupCollectionByAgent
  rw [foldl_congr_fn rows (fun m row hrow => groupStep_congr f1 f2 m row (h row hrow)) []]

/-! ## Agent phase: run-one characterization and run-two reuse -/

theorem agentStep_pageIds (sa : List SheetsAgentData) (ea : List (String × (Nat × ℚ)))
    (acc : AgentPhaseOut) (g : AgentSyncSummary) :
    (agentStep sa ea acc g).pageIds = acc.pageIds ∨
      ∃ v, (agentStep sa ea acc g).pageIds = setA acc.pageIds g.agentId v := by
  unfold agentStep
  by_cases h : g.agentId = ""
  · left; simp [h]
  · rw [if_neg h]
    split
    · right; exact ⟨_, rfl⟩
    · right; exact ⟨acc.nextId, rfl⟩

theorem agInv_step (sa : List SheetsAgentData) (ea : List (String × (Nat × ℚ)))
    (G : List AgentSyncSummary) (a0 : List AgentPage) (n0 : Nat)
    (acc : AgentPhaseOut) (g : AgentSyncSummary) (hg : g ∈ G)
    (hk : lookupA acc.pageIds g.agentId = none)
    {news : List AgentPage} (inv : AgInvN ea G a0 n0 acc news) :
    ∃ news2, AgInvN ea G a0 n0 (agentStep sa ea acc g) news2 := by
  unfold agentStep
  by_cases ha : g.agentId = ""
  · rw [if_pos ha]
    exact ⟨news, inv⟩
  · rw [if_neg ha]
    have hfreshaid : ∀ p ∈ news, p.agentId ≠ g.agentId := by
      intro p hp hc
      have h6 := (inv.hprops p hp).2.2.2.2.2.1
      rw [hc, hk] at h6
      exact Option.noConfusion h6
    split
    next e heq =>
      refine ⟨news, ?_⟩
      refine { hagents := inv.hagents, hprops := ?_, haids := inv.haids,
               hids := inv.hids, lower := inv.lower, pmap := ?_ }
      · intro p hp
        obtain ⟨h1, h2, h3, h4, h5, h6, h7⟩ := inv.hprops p hp
        refine ⟨h1, h2, h3, h4, h5, ?_, h7⟩
        dsimp only
        rw [lookupA_setA_ne _ _ _ _ (hfreshaid p hp)]
        exact h6
      · intro aid v hv
        dsimp only at hv
        by_cases haid : aid = g.agentId
        · subst haid
          rw [lookupA_setA_self] at hv
          injection hv with hv2
          exact ⟨ha, Or.inl ⟨e, heq, hv2.symm⟩⟩
        · rw [lookupA_setA_ne _ _ _ _ haid] at hv
          exact inv.pmap aid v hv
    next heq =>
      refine ⟨news ++ [{ id := acc.nextId,
                         archived := false,
                         agentId := g.agentId,
                         agentName := g.agentName,
                         remark := ((sa.find? (fun a => (a.agentId = g.agentId : Bool))).map
                           (fun a => a.remark)).getD "",
                         superAgentName := ((sa.find? (fun a => (a.agentId = g.agentId : Bool))).map
                           (fun a => a.superAgentName)).getD "",
                         feeRate := g.feeRate }], ?_⟩
      refine { hagents := ?_, hprops := ?_, haids := ?_, hids := ?_,
               lower := ?_, pmap := ?_ }
      · dsimp only
        rw [inv.hagents]
        exact List.append_assoc a0 news _
      · intro p hp
        rcases List.mem_append.mp hp with hp | hp
        · obtain ⟨h1, h2, h3, h4, h5, h6, h7⟩ := inv.hprops p hp
          refine ⟨h1, h2, h3, Nat.lt_trans h4 (Nat.lt_succ_self _), h5, ?_, h7⟩
          dsimp only
          rw [lookupA_setA_ne _ _ _ _ (hfreshaid p hp)]
          exact h6
        · simp only [List.mem_singleton] at hp
          subst hp
          refine ⟨rfl, ha, inv.lower, Nat.lt_succ_self _, heq, ?_, g, hg, rfl, rfl⟩
          dsimp only
          exact lookupA_setA_self _ _ _
      · rw [List.map_append]
        apply List.Nodup.append inv.haids (by simp)
        intro a hha hb
        simp only [List.map_cons, List.map_nil, List.mem_singleton] at hb
        rcases List.mem_map.mp hha with ⟨p, hp, hpe⟩
        exact hfreshaid p hp (by rw [hpe, hb])
      · rw [List.map_append]
        apply List.Nodup.append inv.hids (by simp)
        intro a hha hb
        simp only [List.map_cons, List.map_nil, List.mem_singleton] at hb
        rcases List.mem_map.mp hha with ⟨p, hp, hpe⟩
        have h4 := (inv.hprops p hp).2.2.2.1
        rw [hpe, hb] at h4
        exact absurd rfl (Nat.ne_of_lt h4)
      · exact Nat.le_trans inv.lower (Nat.le_succ _)
      · intro aid v hv
        dsimp only at hv
        by_cases haid : aid = g.agentId
        · subst haid
          rw [lookupA_setA_self] at hv
          injection hv with hv2
          refine ⟨ha, Or.inr ⟨{ id := acc.nextId,
                                archived := false,
                                agentId := g.agentId,
                                agentName := g.agentName,
                                remark := ((sa.find? (fun a => (a.agentId = g.agentId : Bool))).map
                                  (fun a => a.remark)).getD "",
                                superAgentName := ((sa.find? (fun a => (a.agentId = g.agentId : Bool))).map
                                  (fun a => a.superAgentName)).getD "",
                                feeRate := g.feeRate },
            List.mem_append.mpr (Or.inr (by simp)), rfl, ?_⟩⟩
          rw [← hv2]
          rfl
        · rw [lookupA_setA_ne _ _ _ _ haid] at hv
          obtain ⟨hne, hcase⟩ := inv.pmap aid v hv
          refine ⟨hne, ?_⟩
          rcases hcase with h | ⟨p, hp, he⟩
          · exact Or.inl h
          · exact Or.inr ⟨p, List.mem_append.mpr (Or.inl hp), he⟩

theorem agInv_fold (sa : List SheetsAgentData) (ea : List (String × (Nat × ℚ)))
    (G : List AgentSyncSummary) (a0 : List AgentPage) (n0 : Nat) :
    ∀ (l : List AgentSyncSummary), (∀ g ∈ l, g ∈ G) →
      (l.map AgentSyncSummary.agentId).Nodup →
      ∀ acc news, (∀ g ∈ l, lookupA acc.pageIds g.agentId = none) →
        AgInvN ea G a0 n0 acc news →
        ∃ news2, AgInvN ea G a0 n0 (l.foldl (agentStep sa ea) acc) news2 := by
  intro l
  induction l with
  | nil => intro _ _ acc news _ inv; exact ⟨news, inv⟩
  | cons g rest ih =>
    intro hsub hnd acc news hkeys inv
    rw [List.map_cons, List.nodup_cons] at hnd
    rw [List.foldl_cons]
    obtain ⟨news2, inv2⟩ := agInv_step sa ea G a0 n0 acc g
      (hsub g (List.mem_cons_self g rest)) (hkeys g (List.mem_cons_self g rest)) inv
    refine ih (fun g' hg' => hsub g' (List.mem_cons_of_mem g hg')) hnd.2 _ news2 ?_ inv2
    intro g' hg'
    have hne : g'.agentId ≠ g.agentId := fun hc =>
      hnd.1 (hc ▸ List.mem_map_of_mem AgentSyncSummary.agentId hg')
    rcases agentStep_pageIds sa ea acc g with he | ⟨v, he⟩
    · rw [he]
      exact hkeys g' (List.mem_cons_of_mem g hg')
    · rw [he, lookupA_setA_ne _ _ _ _ hne]
      exact hkeys g' (List.mem_cons_of_mem g hg')

theorem agentPhase_inv (sa : List SheetsAgentData) (ea : List (String × (Nat × ℚ)))
    (G : List AgentSyncSummary) (a0 : List AgentPage) (n0 : Nat)
    (hGnd : (G.map AgentSyncSummary.agentId).Nodup) :
    ∃ news, AgInvN ea G a0 n0 (agentPhase sa ea G a0 n0) news := by
  unfold agentPhase
  refine agInv_fold sa ea G a0 n0 G (fun g hg => hg) hGnd _ [] (fun g _ => rfl) ?_
  refine { hagents := (List.append_nil a0).symm, hprops := ?_, haids := by simp,
           hids := by simp, lower := le_refl n0, pmap := ?_ }
  · intro p hp
    simp at hp
  · intro aid v hv
    simp [lookupA] at hv

theorem agentPhase_pageIds_none (sa : List SheetsAgentData)
    (ea : List (String × (Nat × ℚ))) :
    ∀ (l : List AgentSyncSummary) (acc : AgentPhaseOut) (aid : String),
      (∀ g ∈ l, ¬(g.agentId = aid ∧ g.agentId ≠ "")) →
      lookupA (l.foldl (agentStep sa ea) acc).pageIds aid = lookupA acc.pageIds aid := by
  intro l
  induction l with
  | nil => intro acc aid _; rfl
  | cons g rest ih =>
    intro acc aid h
    rw [List.foldl_cons, ih _ _ (fun g' hg' => h g' (List.mem_cons_of_mem _ hg'))]
    by_cases hga : g.agentId = ""
    · unfold agentStep
      rw [if_pos hga]
    · have hne : g.agentId ≠ aid := fun hc => h g (List.mem_cons_self g rest) ⟨hc, hga⟩
      rcases agentStep_pageIds sa ea acc g with he | ⟨v, he⟩
      · rw [he]
      · rw [he, lookupA_setA_ne _ _ _ _ (fun hc => hne hc.symm)]

theorem lookupA_setA_isSome {α β : Type} [DecidableEq α] (m : List (α × β)) (k k' : α)
    (v : β) (h : (lookupA m k').isSome) : (lookupA (setA m k v) k').isSome := by
  by_cases he : k' = k
  · subst he
    rw [lookupA_setA_self]
    rfl
  · rw [lookupA_setA_ne _ _ _ _ he]
    exact h

theorem agentStep_self_some (sa : List SheetsAgentData) (ea : List (String × (Nat × ℚ)))
    (acc : AgentPhaseOut) (g : AgentSyncSummary) (hne : g.agentId ≠ "") :
    (lookupA (agentStep sa ea acc g).pageIds g.agentId).isSome := by
  unfold agentStep
  rw [if_neg hne]
  split
  · dsimp only
    rw [lookupA_setA_self]
    rfl
  · dsimp only
    rw [lookupA_setA_self]
    rfl

theorem agentFold_isSome_stable (sa : List SheetsAgentData)
    (ea : List (String × (Nat × ℚ))) :
    ∀ (l : List AgentSyncSummary) (acc : AgentPhaseOut) (aid : String),
      (lookupA acc.pageIds aid).isSome →
      (lookupA (l.foldl (agentStep sa ea) acc).pageIds aid).isSome := by
  intro l
  induction l with
  | nil => intro acc aid h; exact h
  | cons g rest ih =>
    intro acc aid h
    rw [List.foldl_cons]
    refine ih _ _ ?_
    rcases agentStep_pageIds sa ea acc g with he | ⟨v, he⟩
    · rw [he]; exact h
    · rw [he]; exact lookupA_setA_isSome _ _ _ _ h

theorem agentPhase_pageIds_some (sa : List SheetsAgentData)
    (ea : List (String × (Nat × ℚ))) :
    ∀ (l : List AgentSyncSummary) (acc : AgentPhaseOut),
      ∀ g ∈ l, g.agentId ≠ "" →
        (lookupA (l.foldl (agentStep sa ea) acc).pageIds g.agentId).isSome := by
  intro l
  induction l with
  | nil => intro acc g hg; exact absurd hg (List.not_mem_nil g)
  | cons g0 rest ih =>
    intro acc g hg hne
    rw [List.foldl_cons]
    rcases List.mem_cons.mp hg with rfl | hg2
    · exact agentFold_isSome_stable sa ea rest _ _ (agentStep_self_some sa ea acc g hne)
    · exact ih _ g hg2 hne

theorem agentsMap_inj (pages : List AgentPage) (hnd : (pages.map AgentPage.id).Nodup)
    {k1 k2 : String} {v1 v2 : Nat × ℚ}
    (h1 : lookupA (getAllAgentsMap pages) k1 = some v1)
    (h2 : lookupA (getAllAgentsMap pages) k2 = some v2) (hv : v1.1 = v2.1) : k1 = k2 := by
  obtain ⟨p1, hp1, _, _, hk1, hv1⟩ := agentsMap_mem pages _ (mem_of_lookupA_some h1)
  obtain ⟨p2, hp2, _, _, hk2, hv2⟩ := agentsMap_mem pages _ (mem_of_lookupA_some h2)
  have hid : p1.id = p2.id := by
    have e1 : p1.id = v1.1 := by simpa using congrArg Prod.fst hv1
    have e2 : p2.id = v2.1 := by simpa using congrArg Prod.fst hv2
    rw [e1, e2, hv]
  have hpp : p1 = p2 := List.inj_on_of_nodup_map hnd hp1 hp2 hid
  have hk1b : p1.agentId = k1 := by simpa using hk1
  have hk2b : p2.agentId = k2 := by simpa using hk2
  rw [← hk1b, ← hk2b, hpp]

theorem agentPhase_noop (sa : List SheetsAgentData) (ea2 : List (String × (Nat × ℚ)))
    (P1 : List (String × Nat)) :
    ∀ (l : List AgentSyncSummary) (acc : AgentPhaseOut),
      (∀ g ∈ l, g.agentId ≠ "" → ∃ v fee, lookupA ea2 g.agentId = some (v, fee) ∧
        lookupA P1 g.agentId = some v) →
      (l.foldl (agentStep sa ea2) acc).agents = acc.agents ∧
      (l.foldl (agentStep sa ea2) acc).nextId = acc.nextId ∧
      (l.foldl (agentStep sa ea2) acc).created = acc.created ∧
      (∀ g ∈ l, g.agentId ≠ "" →
        lookupA (l.foldl (agentStep sa ea2) acc).pageIds g.agentId
          = lookupA P1 g.agentId) ∧
      (∀ aid, (∀ g ∈ l, ¬(g.agentId = aid ∧ g.agentId ≠ "")) →
        lookupA (l.foldl (agentStep sa ea2) acc).pageIds aid = lookupA acc.pageIds aid) := by
  intro l
  induction l with
  | nil =>
    intro acc _
    exact ⟨rfl, rfl, rfl, fun g hg => absurd hg (List.not_mem_nil g), fun aid _ => rfl⟩
  | cons g rest ih =>
    intro acc hh
    rw [List.foldl_cons]
    by_cases hga : g.agentId = ""
    · have hstep : agentStep sa ea2 acc g = acc := by
        unfold agentStep
        rw [if_pos hga]
      rw [hstep]
      obtain ⟨c1, c2, c3, c4, c5⟩ := ih acc (fun g' hg' => hh g' (List.mem_cons_of_mem g hg'))
      refine ⟨c1, c2, c3, ?_, ?_⟩
      · intro g' hg' hne'
        rcases List.mem_cons.mp hg' with rfl | hg2
        · exact absurd hga hne'
        · exact c4 g' hg2 hne'
      · intro aid hnone
        exact c5 aid (fun g' hg' => hnone g' (List.mem_cons_of_mem g hg'))
    · obtain ⟨v, fee, hlk, hP1⟩ := hh g (List.mem_cons_self g rest) hga
      have hstep : agentStep sa ea2 acc g
          = { acc with pageIds := setA acc.pageIds g.agentId v } := by
        unfold agentStep
        rw [if_neg hga, hlk]
      rw [hstep]
      obtain ⟨c1, c2, c3, c4, c5⟩ := ih _ (fun g' hg' => hh g' (List.mem_cons_of_mem g hg'))
      refine ⟨c1, c2, c3, ?_, ?_⟩
      · intro g' hg' hne'
        rcases List.mem_cons.mp hg' with rfl | hg2
        · by_cases hex : ∃ g2 ∈ rest, g2.agentId = g'.agentId ∧ g2.agentId ≠ ""
          · obtain ⟨g2, hg2, he2, hne2⟩ := hex
            have := c4 g2 hg2 hne2
            rw [he2] at this
            exact this
          · have hnone : ∀ g2 ∈ rest, ¬(g2.agentId = g'.agentId ∧ g2.agentId ≠ "") := by
              intro g2 hg2 hc
              exact hex ⟨g2, hg2, hc.1, hc.2⟩
            rw [c5 g'.agentId hnone]
            dsimp only
            rw [lookupA_setA_self, hP1]
        · exact c4 g' hg2 hne'
      · intro aid hnone
        rw [c5 aid (fun g' hg' => hnone g' (List.mem_cons_of_mem g hg'))]
        dsimp only
        have hne : g.agentId ≠ aid := fun hc =>
          hnone g (List.mem_cons_self g rest) ⟨hc, hga⟩
        rw [lookupA_setA_ne _ _ _ _ (fun hc => hne hc.symm)]

theorem group_fee_out (fees : List (String × ℚ)) (rows : List CollectionDataRow) :
    ∀ g ∈ groupCollectionByAgent rows fees,
      g.feeRate = (lookupA fees g.agentId).getD (7/10) := by
  intro g hg
  obtain ⟨g0, ⟨k, hk⟩, rfl⟩ := mem_group_out hg
  have h := group_fee_inv fees rows [] (by simp) (k, g0) hk
  simpa [finalizeSummary] using h

theorem agentPhase_run2_ready (sa : List SheetsAgentData) (G : List AgentSyncSummary)
    (a0 : List AgentPage) (n0 : Nat)
    {news : List AgentPage}
    (inv : AgInvN (getAllAgentsMap a0) G a0 n0
      (agentPhase sa (getAllAgentsMap a0) G a0 n0) news) :
    ∀ g ∈ G, g.agentId ≠ "" →
      ∃ v fee, lookupA (getAllAgentsMap (a0 ++ news)) g.agentId = some (v, fee) ∧
        lookupA (agentPhase sa (getAllAgentsMap a0) G a0 n0).pageIds g.agentId = some v := by
  intro g hg hne
  have hsome : (lookupA (agentPhase sa (getAllAgentsMap a0) G a0 n0).pageIds
      g.agentId).isSome := by
    unfold agentPhase
    exact agentPhase_pageIds_some sa (getAllAgentsMap a0) G _ g hg hne
  obtain ⟨v, hv⟩ := Option.isSome_iff_exists.mp hsome
  obtain ⟨hne2, hcase⟩ := inv.pmap g.agentId v hv
  rcases hcase with ⟨e, helk, hve⟩ | ⟨p, hp, hpa, hpi⟩
  · refine ⟨v, e.2, ?_, hv⟩
    rw [agentsMap_append_none a0 news g.agentId ?_]
    · rw [helk, hve]
    · intro p hp _ _ hc
      have h5 := (inv.hprops p hp).2.2.2.2.1
      rw [hc, helk] at h5
      exact Option.noConfusion h5
  · refine ⟨v, p.feeRate, ?_, hv⟩
    have h2 := agentsMap_append_one a0 news g.agentId p hp (inv.hprops p hp).1
      (inv.hprops p hp).2.1 hpa ?_
    · rw [h2, hpi]
    · intro q hq _ hqa
      exact List.inj_on_of_nodup_map inv.haids hq hp (by rw [hqa, hpa])

theorem fees_getD_congr (SF : List (String × ℚ))
    (G : List AgentSyncSummary) (a0 : List AgentPage) (n0 : Nat)
    {news : List AgentPage} {acc : AgentPhaseOut}
    (inv : AgInvN (getAllAgentsMap a0) G a0 n0 acc news)
    (hfee : ∀ g ∈ G, g.feeRate
      = (lookupA (agentFeeRatesMap (getAllAgentsMap a0) SF) g.agentId).getD (7/10)) :
    ∀ aid, (lookupA (agentFeeRatesMap (getAllAgentsMap (a0 ++ news)) SF) aid).getD (7/10)
      = (lookupA (agentFeeRatesMap (getAllAgentsMap a0) SF) aid).getD (7/10) := by
  intro aid
  by_cases hex : ∃ p ∈ news, p.agentId = aid
  · obtain ⟨np, hnp, hnpa⟩ := hex
    obtain ⟨hlive, hne, _, _, heanone, _, g, hgG, hga, hgf⟩ := inv.hprops np hnp
    have h2 : lookupA (getAllAgentsMap (a0 ++ news)) aid = some (np.id, np.feeRate) := by
      apply agentsMap_append_one a0 news aid np hnp hlive hne hnpa
      intro q hq _ hqa
      exact List.inj_on_of_nodup_map inv.haids hq hnp (by rw [hqa, hnpa])
    rw [hnpa] at heanone
    rw [lookupA_agentFeeRatesMap _ _ _ (nodupKeys_getAllAgentsMap _),
        lookupA_agentFeeRatesMap _ _ _ (nodupKeys_getAllAgentsMap _), h2, heanone]
    simp only [Option.isSome_some, if_true, Option.isSome_none, Bool.false_eq_true,
      if_false, Option.map_some', Option.getD_some]
    have hg2 := hfee g hgG
    rw [lookupA_agentFeeRatesMap _ _ _ (nodupKeys_getAllAgentsMap _), hga, hnpa,
        heanone] at hg2
    simp only [Option.isSome_none, Bool.false_eq_true, if_false] at hg2
    rw [hgf, hg2]
  · have h2 : lookupA (getAllAgentsMap (a0 ++ news)) aid
        = lookupA (getAllAgentsMap a0) aid := by
      apply agentsMap_append_none
      intro p hp _ _ hc
      exact hex ⟨p, hp, hc⟩
    rw [lookupA_agentFeeRatesMap _ _ _ (nodupKeys_getAllAgentsMap _),
        lookupA_agentFeeRatesMap _ _ _ (nodupKeys_getAllAgentsMap _), h2]

/-! ## Player phase: payload algebra and small lemmas -/

theorem applyPlayer_idem (d : NotionPlayerData) (p : PlayerPage) :
    applyPlayerPayload d (applyPlayerPayload d p) = applyPlayerPayload d p := by
  unfold applyPlayerPayload
  cases h : d.agentPageId <;> simp [h]

theorem applyPlayer_create_noop (d : NotionPlayerData) (i : Nat) :
    applyPlayerPayload d
      { id := i, archived := false, playerId := d.playerId,
        nickname := d.nickname, country := d.country, remark := d.remark,
        rakebackRate := d.rakebackRate,
        agents := match d.agentPageId with | some g => [g] | none => [] }
    = { id := i, archived := false, playerId := d.playerId,
        nickname := d.nickname, country := d.country, remark := d.remark,
        rakebackRate := d.rakebackRate,
        agents := match d.agentPageId with | some g => [g] | none => [] } := by
  unfold applyPlayerPayload
  cases h : d.agentPageId <;> simp [h]

theorem updatePlayer_map_id (l : List PlayerPage) (pid : Nat) (d : NotionPlayerData) :
    (updatePlayerById l pid d).1.map PlayerPage.id = l.map PlayerPage.id := by
  unfold updatePlayerById
  rw [List.map_map]
  apply List.map_congr_left
  intro p _
  by_cases h : p.id = pid <;> simp [h, applyPlayerPayload]

theorem map_self {α : Type} (l : List α) (f : α → α) (h : ∀ x ∈ l, f x = x) :
    l.map f = l := by
  induction l with
  | nil => rfl
  | cons a rest ih =>
    rw [List.map_cons, h a (List.mem_cons_self a rest),
        ih (fun x hx => h x (List.mem_cons_of_mem a hx))]

theorem updatePlayer_noop (l : List PlayerPage) (pid : Nat) (d : NotionPlayerData)
    (h : ∀ p ∈ l, p.id = pid → applyPlayerPayload d p = p) :
    updatePlayerById l pid d = (l, false) := by
  unfold updatePlayerById
  simp only [Prod.mk.injEq]
  constructor
  · apply map_self
    intro p hp
    by_cases hc : p.id = pid
    · rw [if_pos hc]
      exact h p hp hc
    · rw [if_neg hc]
  · apply List.any_eq_false.mpr
    intro p hp
    by_cases hc : p.id = pid
    · simp [hc, h p hp hc]
    · simp [hc]

theorem updatePlayerById_fst (l : List PlayerPage) (pid : Nat) (d : NotionPlayerData) :
    (updatePlayerById l pid d).1
      = l.map (fun p => if p.id = pid then applyPlayerPayload d p else p) := rfl

theorem foldl_someVal_isSome {γ β : Type} (val : γ → β) :
    ∀ (l : List γ) (x : Option β), l ≠ [] →
      (l.foldl (fun _ q => some (val q)) x).isSome := by
  intro l
  induction l with
  | nil => intro x h; exact absurd rfl h
  | cons a rest ih =>
    intro x _
    rw [List.foldl_cons]
    by_cases hr : rest = []
    · subst hr
      rfl
    · exact ih _ hr

theorem playersMap_some_of_live (pages : List PlayerPage) (w : PlayerPage)
    (hw : w ∈ pages) (hlive : w.archived = false) (hne : w.playerId ≠ "") :
    (lookupA (getAllPlayersMap pages) (w.playerId, w.agents.head?)).isSome := by
  rw [playersMap_lookup]
  have hfil : w ∈ pages.filter (fun p => (!p.archived && !(p.playerId = "" : Bool)) &&
      ((p.playerId, p.agents.head?) = (w.playerId, w.agents.head?) : Bool)) :=
    List.mem_filter.mpr ⟨hw, by simp [hlive, hne]⟩
  exact foldl_someVal_isSome PlayerPage.id _ _ (List.ne_nil_of_mem hfil)

theorem plInv_step (api : List (String × Nat)) (M : List SheetsPlayerData)
    (p0 : List PlayerPage) (n0 : Nat)
    (hMne : ∀ pl2 ∈ M, pl2.playerId ≠ "")
    (hMnd1 : ∀ pl1 ∈ M, ∀ pl2 ∈ M, pl1.playerId = pl2.playerId → pl1 = pl2)
    (acc : PlayerPhaseOut) (pl : SheetsPlayerData) (hpl : pl ∈ M)
    (hk : lookupA acc.pageIdMap (pl.playerId, pl.agentId) = none)
    (inv : PlInvN api M p0 n0 acc) :
    PlInvN api M p0 n0 (playerStep api (getAllPlayersMap p0) acc pl) := by
  cases hfound : lookupA (getAllPlayersMap p0)
      (pl.playerId, if pl.agentId = "" then none else lookupA api pl.agentId) with
  | some pid =>
    simp only [playerStep, hfound]
    obtain ⟨w, hw, hwlive, hwne, hwkey, hwid⟩ :=
      playersMap_mem p0 _ (mem_of_lookupA_some hfound)
    have hwP : w.playerId = pl.playerId := by simpa using congrArg Prod.fst hwkey
    have hwH : w.agents.head?
        = (if pl.agentId = "" then none else lookupA api pl.agentId) := by
      simpa using congrArg Prod.snd hwkey
    have hwid2 : w.id = pid := by simpa using hwid
    obtain ⟨q0, hq0, hq0id, hq0arch, hq0P, hq0H⟩ := inv.htrace w hw
    have hq0pid : q0.id = pid := hq0id.trans hwid2
    have hq0live : q0.archived = false := hq0arch.trans hwlive
    have hdap : (playerPayloadOf api pl).agentPageId
        = (if pl.agentId = "" then none else lookupA api pl.agentId) := rfl
    have happly_head : ∀ q : PlayerPage,
        q.agents.head? = (if pl.agentId = "" then none else lookupA api pl.agentId) →
        (applyPlayerPayload (playerPayloadOf api pl) q).agents.head?
          = (if pl.agentId = "" then none else lookupA api pl.agentId) := by
      intro q hq
      rw [← hdap] at hq ⊢
      cases hao : (playerPayloadOf api pl).agentPageId with
      | none =>
        rw [hao] at hq
        unfold applyPlayerPayload
        rw [hao]
        simpa using hq
      | some x =>
        unfold applyPlayerPayload
        rw [hao]
        rfl
    have htouched : ∀ q ∈ acc.players, q.id = pid → q = q0 := by
      intro q hq hqid
      exact List.inj_on_of_nodup_map inv.hnodup hq hq0 (by rw [hqid, hq0pid])
    have hvals : (setA acc.pageIdMap (pl.playerId, pl.agentId) pid).map Prod.snd
        = acc.pageIdMap.map Prod.snd ++ [pid] := by
      rw [setA_eq_append pid hk, List.map_append]
      rfl
    have himg : ∀ q ∈ acc.players,
        (if q.id = pid then applyPlayerPayload (playerPayloadOf api pl) q else q)
          ∈ (updatePlayerById acc.players pid (playerPayloadOf api pl)).1 := by
      intro q hq
      rw [updatePlayerById_fst]
      exact List.mem_map_of_mem _ hq
    refine { htrace := ?_, hchar := ?_, hfix := ?_, hmnd := ?_, hnodup := ?_,
             huniq := ?_, hfresh := ?_, hlower := inv.hlower }
    · intro p hp
      obtain ⟨q, hq, h1, h2, h3, h4⟩ := inv.htrace p hp
      dsimp only
      by_cases hc : q.id = pid
      · have hqq0 : q = q0 := htouched q hq hc
        refine ⟨applyPlayerPayload (playerPayloadOf api pl) q, ?_, ?_, ?_, ?_, ?_⟩
        · have := himg q hq
          rwa [if_pos hc] at this
        · simpa [applyPlayerPayload] using h1
        · simpa [applyPlayerPayload] using h2
        · rw [show (applyPlayerPayload (playerPayloadOf api pl) q).playerId
              = pl.playerId from rfl]
          rw [← h3, hqq0, hq0P, hwP]
        · rw [happly_head q (by rw [hqq0, hq0H, hwH]), ← h4, hqq0, hq0H, hwH]
      · refine ⟨q, ?_, h1, h2, h3, h4⟩
        have := himg q hq
        rwa [if_neg hc] at this
    · intro q' hq'
      dsimp only at hq' ⊢
      rw [updatePlayerById_fst] at hq'
      rcases List.mem_map.mp hq' with ⟨q, hq, him⟩
      rw [hvals]
      by_cases hc : q.id = pid
      · rw [if_pos hc] at him
        have hqq0 : q = q0 := htouched q hq hc
        rcases inv.hchar q hq with ⟨p, hp, h1, h2, h3, h4⟩ | ⟨h1, h2, h3⟩
        · refine Or.inl ⟨p, hp, ?_, ?_, ?_, ?_⟩
          · rw [← him]
            simpa [applyPlayerPayload] using h1
          · rw [← him]
            simpa [applyPlayerPayload] using h2
          · rw [← him, show (applyPlayerPayload (playerPayloadOf api pl) q).playerId
              = pl.playerId from rfl, ← h3, hqq0, hq0P, hwP]
          · rw [← him, happly_head q (by rw [hqq0, hq0H, hwH]), ← h4, hqq0, hq0H, hwH]
        · refine Or.inr ⟨?_, ?_, ?_⟩
          · rw [← him]
            simpa [applyPlayerPayload] using h1
          · rw [← him]
            simpa [applyPlayerPayload] using h2
          · rw [← him, show (applyPlayerPayload (playerPayloadOf api pl) q).id
              = q.id from rfl]
            exact List.mem_append.mpr (Or.inl h3)
      · rw [if_neg hc] at him
        subst him
        rcases inv.hchar q hq with ⟨p, hp, h1, h2, h3, h4⟩ | ⟨h1, h2, h3⟩
        · exact Or.inl ⟨p, hp, h1, h2, h3, h4⟩
        · exact Or.inr ⟨h1, h2, List.mem_append.mpr (Or.inl h3)⟩
    · intro k v hv
      dsimp only at hv ⊢
      by_cases hkey : k = (pl.playerId, pl.agentId)
      · subst hkey
        rw [lookupA_setA_self] at hv
        injection hv with hv2
        refine ⟨pl, hpl, rfl, rfl, applyPlayerPayload (playerPayloadOf api pl) q0, ?_,
          ?_, ?_, ?_, ?_, applyPlayer_idem _ _⟩
        · have := himg q0 hq0
          rwa [if_pos hq0pid] at this
        · rw [show (applyPlayerPayload (playerPayloadOf api pl) q0).id = q0.id from rfl,
             hq0pid, hv2]
        · simpa [applyPlayerPayload] using hq0live
        · rfl
        · rw [hdap]
          exact happly_head q0 (by rw [hq0H, hwH])
      · rw [lookupA_setA_ne _ _ _ _ hkey] at hv
        obtain ⟨pl2, hpl2, hk1, hk2, q_e, hqe, hqeid, hqelive, hqeP, hqeH, hqefix⟩ :=
          inv.hfix k v hv
        have hvne : v ≠ pid := by
          intro hc
          have hqeq0 : q_e = q0 := htouched q_e hqe (by rw [hqeid]; exact hc)
          have hP2 : pl2.playerId = pl.playerId := by
            rw [← hqeP, hqeq0, hq0P, hwP]
          have hpl2pl : pl2 = pl := hMnd1 pl2 hpl2 pl hpl hP2
          have hkeq : k = (pl.playerId, pl.agentId) := by
            rw [← hpl2pl, hk1, hk2]
          rw [hkeq, hk] at hv
          exact Option.noConfusion hv
        refine ⟨pl2, hpl2, hk1, hk2, q_e, ?_, hqeid, hqelive, hqeP, hqeH, hqefix⟩
        have := himg q_e hqe
        rwa [if_neg (fun hc => hvne (hqeid ▸ hc))] at this
    · dsimp only
      exact nodupKeys_setA _ _ inv.hmnd
    · dsimp only
      rw [updatePlayer_map_id]
      exact inv.hnodup
    · intro q' hq' r' hr' hqa hra hqne hqr hqh
      dsimp only at hq' hr'
      rw [updatePlayerById_fst] at hq' hr'
      rcases List.mem_map.mp hq' with ⟨q, hq, himq⟩
      rcases List.mem_map.mp hr' with ⟨r, hr, himr⟩
      by_cases hq1 : q.id = pid <;> by_cases hr1 : r.id = pid
      · rw [← himq, ← himr, if_pos hq1, if_pos hr1, htouched q hq hq1, htouched r hr hr1]
      · rw [if_pos hq1] at himq
        rw [if_neg hr1] at himr
        subst himr
        have hqq0 : q = q0 := htouched q hq hq1
        have hrP : r.playerId = pl.playerId := by
          rw [← hqr, ← himq]
          rfl
        have hrH : r.agents.head?
            = (if pl.agentId = "" then none else lookupA api pl.agentId) := by
          rw [← hqh, ← himq, happly_head q (by rw [hqq0, hq0H, hwH])]
        have hre : r = q0 := inv.huniq r hr q0 hq0 hra hq0live
          (by rw [hrP]; rw [← hwP]; exact hwne)
          (by rw [hrP, ← hwP, ← hq0P])
          (by rw [hrH, ← hwH, ← hq0H])
        exact absurd (by rw [hre]; exact hq0pid) hr1
      · rw [if_neg hq1] at himq
        rw [if_pos hr1] at himr
        subst himq
        have hrr0 : r = q0 := htouched r hr hr1
        have hqP : q.playerId = pl.playerId := by
          rw [hqr, ← himr]
          rfl
        have hqH : q.agents.head?
            = (if pl.agentId = "" then none else lookupA api pl.agentId) := by
          rw [hqh, ← himr, happly_head r (by rw [hrr0, hq0H, hwH])]
        have hqe : q = q0 := inv.huniq q hq q0 hq0 hqa hq0live
          (by rw [hqP]; rw [← hwP]; exact hwne)
          (by rw [hqP, ← hwP, ← hq0P])
          (by rw [hqH, ← hwH, ← hq0H])
        exact absurd (by rw [hqe]; exact hq0pid) hq1
      · rw [if_neg hq1] at himq
        rw [if_neg hr1] at himr
        subst himq
        subst himr
        exact inv.huniq q hq r hr hqa hra hqne hqr hqh
    · intro q' hq'
      dsimp only at hq' ⊢
      rw [updatePlayerById_fst] at hq'
      rcases List.mem_map.mp hq' with ⟨q, hq, him⟩
      have hle := inv.hfresh q hq
      by_cases hc : q.id = pid
      · rw [if_pos hc] at him
        rw [← him, show (applyPlayerPayload (playerPayloadOf api pl) q).id = q.id from rfl]
        exact hle
      · rw [if_neg hc] at him
        rw [← him]
        exact hle
  | none =>
    simp only [playerStep, createPlayerPage, hfound]
    have hdap0 : (playerPayloadOf api pl).agentPageId
        = (if pl.agentId = "" then none else lookupA api pl.agentId) := rfl
    have hvals : (setA acc.pageIdMap (pl.playerId, pl.agentId) acc.nextId).map Prod.snd
        = acc.pageIdMap.map Prod.snd ++ [acc.nextId] := by
      rw [setA_eq_append acc.nextId hk, List.map_append]
      rfl
    have hnp_absurd : ∀ x ∈ acc.players, x.archived = false →
        x.playerId = pl.playerId →
        x.agents.head? = (if pl.agentId = "" then none else lookupA api pl.agentId) →
        False := by
      intro x hx hxl hxP hxH
      rcases inv.hchar x hx with ⟨p, hp, h1, h2, h3, h4⟩ | ⟨h1, h2, h3⟩
      · have hplive : p.archived = false := by rw [← h2]; exact hxl
        have hpP : p.playerId = pl.playerId := by rw [← h3]; exact hxP
        have hpne : p.playerId ≠ "" := by rw [hpP]; exact hMne pl hpl
        have hpH : p.agents.head?
            = (if pl.agentId = "" then none else lookupA api pl.agentId) := by
          rw [← h4]
          exact hxH
        have hsome := playersMap_some_of_live p0 p hp hplive hpne
        rw [hpP, hpH, hfound] at hsome
        simp at hsome
      · rcases List.mem_map.mp h3 with ⟨e, he, hev⟩
        have hlk : lookupA acc.pageIdMap e.1 = some e.2 :=
          lookupA_eq_of_nodupKeys inv.hmnd he
        obtain ⟨pl2, hpl2, hk1, hk2, q_e, hqe, hqeid, _, hqeP, _, _⟩ :=
          inv.hfix e.1 e.2 hlk
        have hqex : q_e = x :=
          List.inj_on_of_nodup_map inv.hnodup hqe hx (by rw [hqeid, hev])
        have hP2 : pl2.playerId = pl.playerId := by
          rw [← hqeP, hqex, hxP]
        have hpl2pl : pl2 = pl := hMnd1 pl2 hpl2 pl hpl hP2
        have hkeq : e.1 = (pl.playerId, pl.agentId) := by
          rw [← hpl2pl, hk1, hk2]
        rw [hkeq, hk] at hlk
        exact Option.noConfusion hlk
    refine { htrace := ?_, hchar := ?_, hfix := ?_, hmnd := ?_, hnodup := ?_,
             huniq := ?_, hfresh := ?_, hlower := ?_ }
    · intro p hp
      obtain ⟨q, hq, h1, h2, h3, h4⟩ := inv.htrace p hp
      exact ⟨q, List.mem_append.mpr (Or.inl hq), h1, h2, h3, h4⟩
    · intro q' hq'
      dsimp only at hq' ⊢
      rw [hvals]
      rcases List.mem_append.mp hq' with hq | hq
      · rcases inv.hchar q' hq with ⟨p, hp, h1, h2, h3, h4⟩ | ⟨h1, h2, h3⟩
        · exact Or.inl ⟨p, hp, h1, h2, h3, h4⟩
        · exact Or.inr ⟨h1, h2, List.mem_append.mpr (Or.inl h3)⟩
      · simp only [List.mem_singleton] at hq
        subst hq
        exact Or.inr ⟨rfl, inv.hlower, List.mem_append.mpr (Or.inr (by simp))⟩
    · intro k v hv
      dsimp only at hv ⊢
      by_cases hkey : k = (pl.playerId, pl.agentId)
      · subst hkey
        rw [lookupA_setA_self] at hv
        injection hv with hv2
        refine ⟨pl, hpl, rfl, rfl,
          { id := acc.nextId, archived := false,
            playerId := (playerPayloadOf api pl).playerId,
            nickname := (playerPayloadOf api pl).nickname,
            country := (playerPayloadOf api pl).country,
            remark := (playerPayloadOf api pl).remark,
            rakebackRate := (playerPayloadOf api pl).rakebackRate,
            agents := match (playerPayloadOf api pl).agentPageId with
                      | some g => [g] | none => [] },
          List.mem_append.mpr (Or.inr (by simp)), by rw [hv2], rfl, rfl, ?_,
          applyPlayer_create_noop _ _⟩
        cases hao : (playerPayloadOf api pl).agentPageId <;> simp [hao]
      · rw [lookupA_setA_ne _ _ _ _ hkey] at hv
        obtain ⟨pl2, hpl2, hk1, hk2, q_e, hqe, hrest⟩ := inv.hfix k v hv
        exact ⟨pl2, hpl2, hk1, hk2, q_e, List.mem_append.mpr (Or.inl hqe), hrest⟩
    · dsimp only
      exact nodupKeys_setA _ _ inv.hmnd
    · dsimp only
      rw [List.map_append]
      apply List.Nodup.append inv.hnodup (by simp)
      intro a hha hb
      simp only [List.map_cons, List.map_nil, List.mem_singleton] at hb
      rcases List.mem_map.mp hha with ⟨q, hq, hqe⟩
      have := inv.hfresh q hq
      omega
    · intro q' hq' r' hr' hqa hra hqne hqr hqh
      dsimp only at hq' hr'
      rcases List.mem_append.mp hq' with hq | hq <;>
        rcases List.mem_append.mp hr' with hr | hr
      · exact inv.huniq q' hq r' hr hqa hra hqne hqr hqh
      · exfalso
        simp only [List.mem_singleton] at hr
        have hrP : r'.playerId = pl.playerId := by rw [hr]; rfl
        have hrH : r'.agents.head?
            = (if pl.agentId = "" then none else lookupA api pl.agentId) := by
          rw [hr, ← hdap0]
          cases hao : (playerPayloadOf api pl).agentPageId <;> rfl
        exact hnp_absurd q' hq hqa (by rw [hqr, hrP]) (by rw [hqh, hrH])
      · exfalso
        simp only [List.mem_singleton] at hq
        have hqP : q'.playerId = pl.playerId := by rw [hq]; rfl
        have hqH : q'.agents.head?
            = (if pl.agentId = "" then none else lookupA api pl.agentId) := by
          rw [hq, ← hdap0]
          cases hao : (playerPayloadOf api pl).agentPageId <;> rfl
        exact hnp_absurd r' hr hra (by rw [← hqr, hqP]) (by rw [← hqh, hqH])
      · simp only [List.mem_singleton] at hq hr
        rw [hq, hr]
    · intro q' hq'
      dsimp only at hq' ⊢
      rcases List.mem_append.mp hq' with hq | hq
      · exact Nat.lt_trans (inv.hfresh q' hq) (Nat.lt_succ_self _)
      · simp only [List.mem_singleton] at hq
        rw [hq]
        exact Nat.lt_succ_self _
    · exact Nat.le_trans inv.hlower (Nat.le_succ _)

theorem playerStep_pageIdMap (api : List (String × Nat))
    (EP : List ((String × Option Nat) × Nat)) (acc : PlayerPhaseOut)
    (pl : SheetsPlayerData) :
    ∃ v, (playerStep api EP acc pl).pageIdMap
      = setA acc.pageIdMap (pl.playerId, pl.agentId) v := by
  cases hfound : lookupA EP
      (pl.playerId, if pl.agentId = "" then none else lookupA api pl.agentId) with
  | some pid =>
    refine ⟨pid, ?_⟩
    simp only [playerStep, hfound]
  | none =>
    refine ⟨acc.nextId, ?_⟩
    simp only [playerStep, createPlayerPage, hfound]

theorem plInv_fold (api : List (String × Nat)) (M : List SheetsPlayerData)
    (p0 : List PlayerPage) (n0 : Nat)
    (hMne : ∀ pl2 ∈ M, pl2.playerId ≠ "")
    (hMnd1 : ∀ pl1 ∈ M, ∀ pl2 ∈ M, pl1.playerId = pl2.playerId → pl1 = pl2) :
    ∀ (L : List SheetsPlayerData) (acc : PlayerPhaseOut),
      (∀ pl ∈ L, pl ∈ M) →
      (L.map SheetsPlayerData.playerId).Nodup →
      (∀ pl ∈ L, lookupA acc.pageIdMap (pl.playerId, pl.agentId) = none) →
      PlInvN api M p0 n0 acc →
      PlInvN api M p0 n0 (L.foldl (playerStep api (getAllPlayersMap p0)) acc) := by
  intro L
  induction L with
  | nil =>
    intro acc _ _ _ inv
    exact inv
  | cons pl rest ih =>
    intro acc hsub hnd hdisj inv
    simp only [List.map_cons, List.nodup_cons] at hnd
    rw [List.foldl_cons]
    have hk := hdisj pl (List.mem_cons_self pl rest)
    have hstep := plInv_step api M p0 n0 hMne hMnd1 acc pl
      (hsub pl (List.mem_cons_self pl rest)) hk inv
    obtain ⟨v, hmap⟩ := playerStep_pageIdMap api (getAllPlayersMap p0) acc pl
    apply ih
    · intro pl2 h2
      exact hsub pl2 (List.mem_cons_of_mem pl h2)
    · exact hnd.2
    · intro pl2 h2
      rw [hmap]
      have hne : (pl2.playerId, pl2.agentId) ≠ (pl.playerId, pl.agentId) := by
        intro hc
        have hpe : pl2.playerId = pl.playerId := by
          simpa using congrArg Prod.fst hc
        exact hnd.1 (hpe ▸ List.mem_map_of_mem _ h2)
      rw [lookupA_setA_ne _ _ _ _ hne]
      exact hdisj pl2 (List.mem_cons_of_mem pl h2)
    · exact hstep

theorem plInv_init (api : List (String × Nat)) (M : List SheetsPlayerData)
    (p0 : List PlayerPage) (n0 : Nat)
    (hnd0 : (p0.map PlayerPage.id).Nodup)
    (h0uniq : ∀ p ∈ p0, ∀ q ∈ p0, p.archived = false → q.archived = false →
      p.playerId ≠ "" → p.playerId = q.playerId → p.agents.head? = q.agents.head? → p = q)
    (hfr : ∀ q ∈ p0, q.id < n0) :
    PlInvN api M p0 n0
      { players := p0, nextId := n0, pageIdMap := [], created := 0, changed := 0 } := by
  refine { htrace := ?_, hchar := ?_, hfix := ?_, hmnd := ?_, hnodup := hnd0,
           huniq := h0uniq, hfresh := hfr, hlower := Nat.le_refl n0 }
  · intro p hp
    exact ⟨p, hp, rfl, rfl, rfl, rfl⟩
  · intro q hq
    exact Or.inl ⟨q, hq, rfl, rfl, rfl, rfl⟩
  · intro k v hv
    exact absurd hv (by simp [lookupA])
  · simp [NoDupKeys]

theorem playerPhase_inv (api : List (String × Nat)) (M : List SheetsPlayerData)
    (p0 : List PlayerPage) (n0 : Nat)
    (hMne : ∀ pl2 ∈ M, pl2.playerId ≠ "")
    (hMnd : (M.map SheetsPlayerData.playerId).Nodup)
    (hnd0 : (p0.map PlayerPage.id).Nodup)
    (h0uniq : ∀ p ∈ p0, ∀ q ∈ p0, p.archived = false → q.archived = false →
      p.playerId ≠ "" → p.playerId = q.playerId → p.agents.head? = q.agents.head? → p = q)
    (hfr : ∀ q ∈ p0, q.id < n0) :
    PlInvN api M p0 n0 (playerPhase M api (getAllPlayersMap p0) p0 n0) := by
  unfold playerPhase
  apply plInv_fold api M p0 n0 hMne
    (fun pl1 h1 pl2 h2 he =>
      List.inj_on_of_nodup_map hMnd h1 h2 he) M _ (fun pl h => h) hMnd
  · intro pl _
    simp [lookupA]
  · exact plInv_init api M p0 n0 hnd0 h0uniq hfr
theorem playerFold_key_mono (api : List (String × Nat))
    (EP : List ((String × Option Nat) × Nat)) :
    ∀ (L : List SheetsPlayerData) (acc : PlayerPhaseOut) (k : String × String),
      (lookupA acc.pageIdMap k).isSome →
      (lookupA ((L.foldl (playerStep api EP) acc)).pageIdMap k).isSome := by
  intro L
  induction L with
  | nil =>
    intro acc k h
    exact h
  | cons pl rest ih =>
    intro acc k h
    rw [List.foldl_cons]
    apply ih
    obtain ⟨v, hmap⟩ := playerStep_pageIdMap api EP acc pl
    rw [hmap]
    exact lookupA_setA_isSome _ _ _ _ h

theorem playerFold_processed (api : List (String × Nat))
    (EP : List ((String × Option Nat) × Nat)) :
    ∀ (L : List SheetsPlayerData) (acc : PlayerPhaseOut), ∀ pl ∈ L,
      (lookupA ((L.foldl (playerStep api EP) acc)).pageIdMap
        (pl.playerId, pl.agentId)).isSome := by
  intro L
  induction L with
  | nil =>
    intro acc pl h
    exact absurd h (List.not_mem_nil pl)
  | cons hd rest ih =>
    intro acc pl h
    rw [List.foldl_cons]
    rcases List.mem_cons.mp h with he | hm
    · subst he
      apply playerFold_key_mono
      obtain ⟨v, hmap⟩ := playerStep_pageIdMap api EP acc pl
      rw [hmap, lookupA_setA_self]
      rfl
    · exact ih _ pl hm

theorem playerPayloadOf_congr (api1 api2 : List (String × Nat))
    (h : ∀ a, lookupA api2 a = lookupA api1 a) (pl : SheetsPlayerData) :
    playerPayloadOf api2 pl = playerPayloadOf api1 pl := by
  unfold playerPayloadOf
  rw [h pl.agentId]

theorem playerPhase_next_lookup (api : List (String × Nat))
    (M : List SheetsPlayerData) (p0 : List PlayerPage) (n0 : Nat)
    (hMne : ∀ pl2 ∈ M, pl2.playerId ≠ "")
    (hMnd : (M.map SheetsPlayerData.playerId).Nodup)
    (hnd0 : (p0.map PlayerPage.id).Nodup)
    (h0uniq : ∀ p ∈ p0, ∀ q ∈ p0, p.archived = false → q.archived = false →
      p.playerId ≠ "" → p.playerId = q.playerId → p.agents.head? = q.agents.head? → p = q)
    (hfr : ∀ q ∈ p0, q.id < n0) :
    ∀ pl ∈ M, ∃ q,
      q ∈ (playerPhase M api (getAllPlayersMap p0) p0 n0).players ∧
      lookupA (playerPhase M api (getAllPlayersMap p0) p0 n0).pageIdMap
        (pl.playerId, pl.agentId) = some q.id ∧
      lookupA (getAllPlayersMap (playerPhase M api (getAllPlayersMap p0) p0 n0).players)
        (pl.playerId, (playerPayloadOf api pl).agentPageId) = some q.id ∧
      q.archived = false ∧ q.playerId = pl.playerId ∧
      q.agents.head? = (playerPayloadOf api pl).agentPageId ∧
      applyPlayerPayload (playerPayloadOf api pl) q = q := by
  intro pl hpl
  have inv := playerPhase_inv api M p0 n0 hMne hMnd hnd0 h0uniq hfr
  have hsome : (lookupA (playerPhase M api (getAllPlayersMap p0) p0 n0).pageIdMap
      (pl.playerId, pl.agentId)).isSome := by
    unfold playerPhase
    exact playerFold_processed api (getAllPlayersMap p0) M _ pl hpl
  obtain ⟨v, hv⟩ := Option.isSome_iff_exists.mp hsome
  obtain ⟨pl2, hpl2, hk1, hk2, q, hq, hqid, hqlive, hqP, hqH, hqfix⟩ := inv.hfix _ _ hv
  have hpe : pl2 = pl := List.inj_on_of_nodup_map hMnd hpl2 hpl (by simpa using hk1)
  subst hpe
  refine ⟨q, hq, by rw [hv, hqid], ?_, hqlive, by rw [hqP], by rw [hqH], by rw [hqfix]⟩
  apply playersMap_lookup_unique _ _ q hq hqlive
  · rw [hqP]
    exact hMne pl2 hpl
  · rw [hqP, hqH]
  · intro r hr hrlive hrne hrk
    apply inv.huniq r hr q hq hrlive hqlive hrne
    · have h1 : r.playerId = pl2.playerId := by
        simpa using congrArg Prod.fst hrk
      rw [h1, hqP]
    · have h2 : r.agents.head? = (playerPayloadOf api pl2).agentPageId := by
        simpa using congrArg Prod.snd hrk
      rw [h2, hqH]

theorem playerFold_run2_noop (api : List (String × Nat))
    (EP : List ((String × Option Nat) × Nat)) (P : List PlayerPage)
    (hnd : (P.map PlayerPage.id).Nodup) :
    ∀ (L : List SheetsPlayerData) (acc : PlayerPhaseOut),
      (∀ pl ∈ L, ∃ q ∈ P,
        lookupA EP (pl.playerId, (playerPayloadOf api pl).agentPageId) = some q.id ∧
        applyPlayerPayload (playerPayloadOf api pl) q = q) →
      acc.players = P →
      (L.foldl (playerStep api EP) acc).players = P ∧
      (L.foldl (playerStep api EP) acc).nextId = acc.nextId ∧
      (L.foldl (playerStep api EP) acc).created = acc.created ∧
      (L.foldl (playerStep api EP) acc).changed = acc.changed := by
  intro L
  induction L with
  | nil =>
    intro acc _ hp
    exact ⟨hp, rfl, rfl, rfl⟩
  | cons pl rest ih =>
    intro acc hlk hp
    obtain ⟨q, hq, hfound, hfix⟩ := hlk pl (List.mem_cons_self pl rest)
    have hnoop : updatePlayerById acc.players q.id (playerPayloadOf api pl)
        = (acc.players, false) := by
      apply updatePlayer_noop
      intro p hp2 hpid
      have hpq : p = q := by
        rw [hp] at hp2
        exact List.inj_on_of_nodup_map hnd hp2 hq hpid
      rw [hpq]
      exact hfix
    have hfound2 : lookupA EP
        (pl.playerId, if pl.agentId = "" then none else lookupA api pl.agentId)
        = some q.id := hfound
    have hstep : playerStep api EP acc pl
        = { players := acc.players, nextId := acc.nextId,
            pageIdMap := setA acc.pageIdMap (pl.playerId, pl.agentId) q.id,
            created := acc.created, changed := acc.changed } := by
      simp only [playerStep, hfound2, hnoop, Bool.false_eq_true, if_false, Nat.add_zero]
    rw [List.foldl_cons, hstep]
    exact ih _ (fun pl2 h2 => hlk pl2 (List.mem_cons_of_mem pl h2)) hp
theorem applySummary_idem (d : SummaryPayload) (p : SummaryPage) :
    applySummaryPayload d (applySummaryPayload d p) = applySummaryPayload d p := rfl

theorem applySummary_detailIds_congr (d : SummaryPayload) (q : SummaryPage)
    (ids : List Nat) (h : applySummaryPayload d q = q) :
    applySummaryPayload d { q with detailIds := ids } = { q with detailIds := ids } := by
  cases q
  unfold applySummaryPayload at h ⊢
  simp only [SummaryPage.mk.injEq] at h ⊢
  exact ⟨h.1, h.2.1, h.2.2.1, h.2.2.2.1, h.2.2.2.2.1, h.2.2.2.2.2.1,
    h.2.2.2.2.2.2.1, h.2.2.2.2.2.2.2.1, h.2.2.2.2.2.2.2.2.1, trivial⟩

theorem updateSummary_noop (l : List SummaryPage) (pid : Nat) (d : SummaryPayload)
    (h : ∀ p ∈ l, p.id = pid → applySummaryPayload d p = p) :
    updateSummaryById l pid d = (l, false) := by
  unfold updateSummaryById
  simp only [Prod.mk.injEq]
  constructor
  · apply map_self
    intro p hp
    by_cases hc : p.id = pid
    · rw [if_pos hc]
      exact h p hp hc
    · rw [if_neg hc]
  · apply List.any_eq_false.mpr
    intro p hp
    by_cases hc : p.id = pid
    · simp [hc, h p hp hc]
    · simp [hc]

theorem findSummaryId_unique (pages : List SummaryPage) (start : String) (g : Nat)
    (i : Nat) (q : SummaryPage) (hq : q ∈ pages) (hl : q.archived = false)
    (hw : q.weekStart = start) (hg : g ∈ q.agents)
    (hall : ∀ r ∈ pages, r.archived = false → r.weekStart = start →
      g ∈ r.agents → r.id = i) :
    findSummaryId pages start g = some i := by
  unfold findSummaryId
  have hfil : q ∈ pages.filter (fun p => !p.archived && (p.weekStart = start : Bool)
      && p.agents.contains g) :=
    List.mem_filter.mpr ⟨hq, by simp [hl, hw, hg, List.contains, List.elem_eq_mem]⟩
  cases hh : (pages.filter (fun p => !p.archived && (p.weekStart = start : Bool)
      && p.agents.contains g)).head? with
  | none =>
    rw [List.head?_eq_none_iff] at hh
    rw [hh] at hfil
    exact absurd hfil (List.not_mem_nil q)
  | some p0 =>
    have hp0 := head_mem_of_eq hh
    rcases List.mem_filter.mp hp0 with ⟨hin, hprop⟩
    simp only [Bool.and_eq_true, Bool.not_eq_true', decide_eq_true_eq,
      List.contains, List.elem_eq_mem] at hprop
    rw [Option.map_some']
    rw [hall p0 hin hprop.1.1 hprop.1.2 hprop.2]

theorem sumFix_establish (tp start endd : String) (sa : List SheetsAgentData)
    (api : List (String × Nat)) (sums0 : List SummaryPage) (n0 : Nat)
    (acc : SummaryPhaseOut) (g : AgentSyncSummary) (apid : Nat)
    (ha : g.agentId ≠ "") (hga : lookupA api g.agentId = some apid)
    (inv : SumInv start sums0 n0 acc) :
    SumFix tp start endd sa (summaryStep tp start endd sa api acc g) g apid := by
  cases hf : findSummaryId acc.summaries start apid with
  | some pid =>
    have hstep : summaryStep tp start endd sa api acc g
        = { acc with
            summaries := (updateSummaryById acc.summaries pid
              (summaryPayloadOf tp start endd sa g apid)).1,
            pageIds := setA acc.pageIds g.agentId pid,
            changed := acc.changed + (if (updateSummaryById acc.summaries pid
              (summaryPayloadOf tp start endd sa g apid)).2 then 1 else 0) } := by
      simp only [summaryStep, if_neg ha, hga, hf]
    rw [hstep]
    obtain ⟨w, hw, hwl, hww, hwg, hwid⟩ := findSummaryId_some hf
    unfold SumFix
    dsimp only
    refine ⟨applySummaryPayload (summaryPayloadOf tp start endd sa g apid) w,
      ?_, ?_, hwl, rfl, rfl, applySummary_idem _ _⟩
    · have h2 : (if w.id = pid
          then applySummaryPayload (summaryPayloadOf tp start endd sa g apid) w else w)
          ∈ (updateSummaryById acc.summaries pid
            (summaryPayloadOf tp start endd sa g apid)).1 :=
        List.mem_map_of_mem _ hw
      rw [if_pos hwid] at h2
      exact h2
    · rw [lookupA_setA_self,
        show (applySummaryPayload (summaryPayloadOf tp start endd sa g apid) w).id
          = w.id from rfl, hwid]
  | none =>
    have hstep : summaryStep tp start endd sa api acc g
        = { acc with
            summaries := (createSummaryPage acc.summaries acc.nextId
              (summaryPayloadOf tp start endd sa g apid)).1,
            nextId := (createSummaryPage acc.summaries acc.nextId
              (summaryPayloadOf tp start endd sa g apid)).2.1,
            pageIds := setA acc.pageIds g.agentId (createSummaryPage acc.summaries
              acc.nextId (summaryPayloadOf tp start endd sa g apid)).2.2,
            created := acc.created + 1 } := by
      simp only [summaryStep, if_neg ha, hga, hf]
    rw [hstep]
    unfold SumFix
    dsimp only
    refine ⟨{ id := acc.nextId, archived := false,
              title := (summaryPayloadOf tp start endd sa g apid).title,
              weekStart := (summaryPayloadOf tp start endd sa g apid).weekStart,
              weekEnd := (summaryPayloadOf tp start endd sa g apid).weekEnd,
              agents := [(summaryPayloadOf tp start endd sa g apid).agentPageId],
              playerCount := (summaryPayloadOf tp start endd sa g apid).playerCount,
              agentReward := (summaryPayloadOf tp start endd sa g apid).agentReward,
              settlementAmount := (summaryPayloadOf tp start endd sa g apid).settlementAmount,
              detailIds := [] },
      List.mem_append.mpr (Or.inr (by simp)), ?_, rfl, rfl, rfl, rfl⟩
    rw [lookupA_setA_self]
    rfl

theorem sumFix_preserve (tp start endd : String) (sa : List SheetsAgentData)
    (api : List (String × Nat)) (sums0 : List SummaryPage) (n0 : Nat)
    (hinj : ∀ a1 a2 v, lookupA api a1 = some v → lookupA api a2 = some v → a1 = a2)
    (acc : SummaryPhaseOut) (g g2 : AgentSyncSummary) (apid : Nat)
    (hne : g2.agentId ≠ g.agentId)
    (hga : lookupA api g.agentId = some apid)
    (inv : SumInv start sums0 n0 acc)
    (hfix : SumFix tp start endd sa acc g apid) :
    SumFix tp start endd sa (summaryStep tp start endd sa api acc g2) g apid := by
  obtain ⟨q, hq, hlk, hql, hqw, hqa, hqf⟩ := hfix
  by_cases ha2 : g2.agentId = ""
  · have hstep : summaryStep tp start endd sa api acc g2 = acc := by
      simp [summaryStep, ha2]
    rw [hstep]
    exact ⟨q, hq, hlk, hql, hqw, hqa, hqf⟩
  · cases hga2 : lookupA api g2.agentId with
    | none =>
      have hstep : summaryStep tp start endd sa api acc g2 = acc := by
        simp only [summaryStep, if_neg ha2, hga2]
      rw [hstep]
      exact ⟨q, hq, hlk, hql, hqw, hqa, hqf⟩
    | some apid2 =>
      have hap2 : apid2 ≠ apid := fun hc =>
        hne (hinj g2.agentId g.agentId apid (hc ▸ hga2) hga)
      cases hf : findSummaryId acc.summaries start apid2 with
      | some pid2 =>
        have hstep : summaryStep tp start endd sa api acc g2
            = { acc with
                summaries := (updateSummaryById acc.summaries pid2
                  (summaryPayloadOf tp start endd sa g2 apid2)).1,
                pageIds := setA acc.pageIds g2.agentId pid2,
                changed := acc.changed + (if (updateSummaryById acc.summaries pid2
                  (summaryPayloadOf tp start endd sa g2 apid2)).2 then 1 else 0) } := by
          simp only [summaryStep, if_neg ha2, hga2, hf]
        rw [hstep]
        obtain ⟨w2, hw2, hw2l, hw2w, hw2g, hw2id⟩ := findSummaryId_some hf
        have hqpid : q.id ≠ pid2 := by
          intro hc
          have hqw2 : q = w2 :=
            List.inj_on_of_nodup_map inv.nodup hq hw2 (by rw [hc, hw2id])
          have hmem : apid2 ∈ q.agents := by
            rw [hqw2]
            exact hw2g
          rw [hqa] at hmem
          simp only [List.mem_singleton] at hmem
          exact hap2 hmem
        refine ⟨q, mem_update_of_ne hq hqpid, ?_, hql, hqw, hqa, hqf⟩
        dsimp only
        rw [lookupA_setA_ne _ _ _ _ (Ne.symm hne)]
        exact hlk
      | none =>
        have hstep : summaryStep tp start endd sa api acc g2
            = { acc with
                summaries := (createSummaryPage acc.summaries acc.nextId
                  (summaryPayloadOf tp start endd sa g2 apid2)).1,
                nextId := (createSummaryPage acc.summaries acc.nextId
                  (summaryPayloadOf tp start endd sa g2 apid2)).2.1,
                pageIds := setA acc.pageIds g2.agentId (createSummaryPage acc.summaries
                  acc.nextId (summaryPayloadOf tp start endd sa g2 apid2)).2.2,
                created := acc.created + 1 } := by
          simp only [summaryStep, if_neg ha2, hga2, hf]
        rw [hstep]
        refine ⟨q, List.mem_append.mpr (Or.inl hq), ?_, hql, hqw, hqa, hqf⟩
        dsimp only
        rw [lookupA_setA_ne _ _ _ _ (Ne.symm hne)]
        exact hlk

theorem sumFix_fold (tp start endd : String) (sa : List SheetsAgentData)
    (api : List (String × Nat)) (sums0 : List SummaryPage) (n0 : Nat)
    (h0 : ∀ p ∈ sums0, p.id < n0)
    (hinj : ∀ a1 a2 v, lookupA api a1 = some v → lookupA api a2 = some v → a1 = a2) :
    ∀ (L : List AgentSyncSummary) (acc : SummaryPhaseOut),
      (L.map AgentSyncSummary.agentId).Nodup →
      (∀ g ∈ L, lookupA acc.pageIds g.agentId = none) →
      SumInv start sums0 n0 acc →
      (∀ g ∈ L, ∀ apid, g.agentId ≠ "" → lookupA api g.agentId = some apid →
        SumFix tp start endd sa (L.foldl (summaryStep tp start endd sa api) acc) g apid) ∧
      (∀ g apid, g.agentId ∉ L.map AgentSyncSummary.agentId →
        lookupA api g.agentId = some apid →
        SumFix tp start endd sa acc g apid →
        SumFix tp start endd sa (L.foldl (summaryStep tp start endd sa api) acc) g apid) := by
  intro L
  induction L with
  | nil =>
    intro acc _ _ _
    exact ⟨fun g hg => absurd hg (List.not_mem_nil g), fun g apid _ _ hf => hf⟩
  | cons g2 rest ih =>
    intro acc hnd hkeys inv
    simp only [List.map_cons, List.nodup_cons] at hnd
    have hinv2 : SumInv start sums0 n0 (summaryStep tp start endd sa api acc g2) :=
      sumInv_step tp start endd sa api sums0 n0 h0 acc g2
        (hkeys g2 (List.mem_cons_self g2 rest)) inv
    have hkeys2 : ∀ g ∈ rest,
        lookupA (summaryStep tp start endd sa api acc g2).pageIds g.agentId = none := by
      intro g hg
      have hne : g.agentId ≠ g2.agentId := by
        intro hc
        exact hnd.1 (hc ▸ List.mem_map_of_mem AgentSyncSummary.agentId hg)
      rcases summaryStep_pageIds tp start endd sa api acc g2 with he | ⟨v, he⟩
      · rw [he]
        exact hkeys g (List.mem_cons_of_mem g2 hg)
      · rw [he, lookupA_setA_ne _ _ _ _ hne]
        exact hkeys g (List.mem_cons_of_mem g2 hg)
    obtain ⟨ih1, ih2⟩ := ih (summaryStep tp start endd sa api acc g2) hnd.2 hkeys2 hinv2
    constructor
    · intro g hg apid ha hga
      rw [List.foldl_cons]
      rcases List.mem_cons.mp hg with he | hm
      · subst he
        apply ih2 g apid
        · intro hc
          exact hnd.1 hc
        · exact hga
        · exact sumFix_establish tp start endd sa api sums0 n0 acc g apid ha hga inv
      · exact ih1 g hm apid ha hga
    · intro g apid hnm hga hf
      rw [List.foldl_cons]
      have hne : g.agentId ≠ g2.agentId := by
        intro hc
        exact hnm (by rw [List.map_cons]; exact List.mem_cons.mpr (Or.inl hc))
      apply ih2 g apid
      · intro hc
        exact hnm (by rw [List.map_cons]; exact List.mem_cons.mpr (Or.inr hc))
      · exact hga
      · exact sumFix_preserve tp start endd sa api sums0 n0 hinj acc g g2 apid
          (Ne.symm hne) hga inv hf

theorem summaryPhase_fix (tp start endd : String) (sa : List SheetsAgentData)
    (api : List (String × Nat)) (G : List AgentSyncSummary)
    (sums0 : List SummaryPage) (n0 : Nat)
    (h0 : ∀ p ∈ sums0, p.id < n0)
    (hnd : (sums0.map SummaryPage.id).Nodup)
    (huniq : ∀ p ∈ sums0, ∀ q ∈ sums0, p.archived = false → q.archived = false →
      p.weekStart = start → q.weekStart = start → ∀ g ∈ p.agents, g ∈ q.agents → p = q)
    (hgnd : (G.map AgentSyncSummary.agentId).Nodup)
    (hinj : ∀ a1 a2 v, lookupA api a1 = some v → lookupA api a2 = some v → a1 = a2) :
    ∀ g ∈ G, ∀ apid, g.agentId ≠ "" → lookupA api g.agentId = some apid →
      SumFix tp start endd sa (summaryPhase tp start endd sa api G sums0 n0) g apid := by
  unfold summaryPhase
  exact (sumFix_fold tp start endd sa api sums0 n0 h0 hinj G
    { summaries := sums0, nextId := n0, pageIds := [], created := 0, changed := 0 }
    hgnd (fun g _ => rfl) (sumInv_init start sums0 n0 hnd huniq h0)).1
theorem summaryStep_pageIds2 (tp start endd : String) (sa : List SheetsAgentData)
    (api : List (String × Nat)) (acc : SummaryPhaseOut) (g : AgentSyncSummary) :
    (summaryStep tp start endd sa api acc g).pageIds = acc.pageIds ∨
    (g.agentId ≠ "" ∧ (lookupA api g.agentId).isSome ∧
      ∃ v, (summaryStep tp start endd sa api acc g).pageIds
        = setA acc.pageIds g.agentId v) := by
  by_cases h : g.agentId = ""
  · left
    simp [summaryStep, h]
  · cases hga : lookupA api g.agentId with
    | none =>
      left
      simp only [summaryStep, if_neg h, hga]
    | some apid =>
      right
      refine ⟨h, rfl, ?_⟩
      cases hf : findSummaryId acc.summaries start apid with
      | some pid =>
        refine ⟨pid, ?_⟩
        simp only [summaryStep, if_neg h, hga, hf]
      | none =>
        refine ⟨acc.nextId, ?_⟩
        simp only [summaryStep, if_neg h, hga, hf]
        rfl

theorem summaryFold_pageIds_char (tp start endd : String) (sa : List SheetsAgentData)
    (api : List (String × Nat)) (G0 : List AgentSyncSummary) :
    ∀ (L : List AgentSyncSummary), (∀ g ∈ L, g ∈ G0) →
      ∀ (acc : SummaryPhaseOut),
      NoDupKeys acc.pageIds →
      (∀ aid v, lookupA acc.pageIds aid = some v →
        aid ≠ "" ∧ (∃ g ∈ G0, g.agentId = aid) ∧ (lookupA api aid).isSome) →
      NoDupKeys (L.foldl (summaryStep tp start endd sa api) acc).pageIds ∧
      (∀ aid v, lookupA (L.foldl (summaryStep tp start endd sa api) acc).pageIds aid
          = some v →
        aid ≠ "" ∧ (∃ g ∈ G0, g.agentId = aid) ∧ (lookupA api aid).isSome) := by
  intro L
  induction L with
  | nil =>
    intro _ acc h1 h2
    exact ⟨h1, h2⟩
  | cons g rest ih =>
    intro hsub acc h1 h2
    rw [List.foldl_cons]
    apply ih (fun g2 hg2 => hsub g2 (List.mem_cons_of_mem g hg2))
    · rcases summaryStep_pageIds2 tp start endd sa api acc g with he | ⟨_, _, v, he⟩
      · rw [he]
        exact h1
      · rw [he]
        exact nodupKeys_setA _ _ h1
    · rcases summaryStep_pageIds2 tp start endd sa api acc g with he | ⟨hne, hsome, v, he⟩
      · rw [he]
        exact h2
      · rw [he]
        intro aid v2 hv2
        by_cases hk : aid = g.agentId
        · subst hk
          exact ⟨hne, ⟨g, hsub g (List.mem_cons_self g rest), rfl⟩, hsome⟩
        · rw [lookupA_setA_ne _ _ _ _ hk] at hv2
          exact h2 aid v2 hv2

theorem summaryPhase_pageIds_facts (tp start endd : String) (sa : List SheetsAgentData)
    (api : List (String × Nat)) (G : List AgentSyncSummary)
    (sums0 : List SummaryPage) (n0 : Nat) :
    NoDupKeys (summaryPhase tp start endd sa api G sums0 n0).pageIds ∧
    (∀ aid v, lookupA (summaryPhase tp start endd sa api G sums0 n0).pageIds aid
        = some v →
      aid ≠ "" ∧ (∃ g ∈ G, g.agentId = aid) ∧ (lookupA api aid).isSome) := by
  unfold summaryPhase
  apply summaryFold_pageIds_char tp start endd sa api G G (fun g h => h)
  · simp [NoDupKeys]
  · intro aid v hv
    exact absurd hv (by simp [lookupA])

theorem archiveFold_noop (synced : List Nat) :
    ∀ (es : List (Nat × Nat)) (acc : List SummaryPage × Nat),
      (∀ e ∈ es, e.2 ∈ synced) →
      es.foldl (archiveSummaryStep synced) acc = acc := by
  intro es
  induction es with
  | nil =>
    intro acc _
    rfl
  | cons e rest ih =>
    intro acc h
    rw [List.foldl_cons]
    have hc : synced.contains e.2 = true := by
      simp only [List.contains, List.elem_eq_mem, decide_eq_true_eq]
      exact h e (List.mem_cons_self e rest)
    have hstep : archiveSummaryStep synced acc e = acc := by
      unfold archiveSummaryStep
      rw [if_pos hc]
    rw [hstep]
    exact ih acc (fun e2 h2 => h e2 (List.mem_cons_of_mem e h2))

theorem archiveSummaries_noop (start : String) (synced : List Nat)
    (sums : List SummaryPage)
    (h : ∀ e ∈ getAllSummariesByPeriodMap sums start, e.2 ∈ synced) :
    archiveSummaries start synced sums = (sums, 0) := by
  unfold archiveSummaries
  exact archiveFold_noop synced _ _ h

theorem summaryFold_run2_noop (tp start endd : String) (sa : List SheetsAgentData)
    (api : List (String × Nat)) (S : List SummaryPage)
    (hnd : (S.map SummaryPage.id).Nodup) :
    ∀ (L : List AgentSyncSummary) (acc : SummaryPhaseOut),
      (∀ g ∈ L, g.agentId ≠ "" → ∀ apid, lookupA api g.agentId = some apid →
        ∃ q ∈ S, findSummaryId S start apid = some q.id ∧
          applySummaryPayload (summaryPayloadOf tp start endd sa g apid) q = q) →
      acc.summaries = S →
      (L.foldl (summaryStep tp start endd sa api) acc).summaries = S ∧
      (L.foldl (summaryStep tp start endd sa api) acc).nextId = acc.nextId ∧
      (L.foldl (summaryStep tp start endd sa api) acc).created = acc.created ∧
      (L.foldl (summaryStep tp start endd sa api) acc).changed = acc.changed := by
  intro L
  induction L with
  | nil =>
    intro acc _ hs
    exact ⟨hs, rfl, rfl, rfl⟩
  | cons g rest ih =>
    intro acc hlk hs
    rw [List.foldl_cons]
    by_cases ha : g.agentId = ""
    · have hstep : summaryStep tp start endd sa api acc g = acc := by
        simp [summaryStep, ha]
      rw [hstep]
      exact ih acc (fun g2 h2 => hlk g2 (List.mem_cons_of_mem g h2)) hs
    · cases hga : lookupA api g.agentId with
      | none =>
        have hstep : summaryStep tp start endd sa api acc g = acc := by
          simp only [summaryStep, if_neg ha, hga]
        rw [hstep]
        exact ih acc (fun g2 h2 => hlk g2 (List.mem_cons_of_mem g h2)) hs
      | some apid =>
        obtain ⟨q, hq, hfind, hfix⟩ := hlk g (List.mem_cons_self g rest) ha apid hga
        have hfind2 : findSummaryId acc.summaries start apid = some q.id := by
          rw [hs]
          exact hfind
        have hnoop : updateSummaryById acc.summaries q.id
            (summaryPayloadOf tp start endd sa g apid) = (acc.summaries, false) := by
          apply updateSummary_noop
          intro p hp hpid
          have hpq : p = q := by
            rw [hs] at hp
            exact List.inj_on_of_nodup_map hnd hp hq hpid
          rw [hpq]
          exact hfix
        have hstep : summaryStep tp start endd sa api acc g
            = { acc with pageIds := setA acc.pageIds g.agentId q.id } := by
          simp only [summaryStep, if_neg ha, hga, hfind2, hnoop, Bool.false_eq_true,
            if_false, Nat.add_zero]
        rw [hstep]
        exact ih _ (fun g2 h2 => hlk g2 (List.mem_cons_of_mem g h2)) hs
theorem wiringFold_map2 (spi : List (String × Nat)) :
    ∀ (sdi : List (String × List Nat)) (acc : List SummaryPage × Nat),
      ∃ F : SummaryPage → SummaryPage,
        (sdi.foldl (wiringStep spi) acc).1 = acc.1.map F ∧
        ∀ p, F p = { p with detailIds := (F p).detailIds } := by
  intro sdi
  induction sdi with
  | nil =>
    intro acc
    exact ⟨fun p => p, by simp, fun p => rfl⟩
  | cons e rest ih =>
    intro acc
    rw [List.foldl_cons]
    obtain ⟨F, hF, hprops⟩ := ih (wiringStep spi acc e)
    rcases wiringStep_shape spi acc e with hs | ⟨i, ids, hs⟩
    · exact ⟨F, by rw [hF, hs], hprops⟩
    · refine ⟨fun p => F (if p.id = i then { p with detailIds := ids } else p), ?_, ?_⟩
      · rw [hF, hs, List.map_map]
        rfl
      · intro p
        have h2 := hprops (if p.id = i then { p with detailIds := ids } else p)
        by_cases hc : p.id = i
        · simp only [hc, if_true] at h2 ⊢
          exact h2
        · simp only [hc, if_false] at h2 ⊢
          exact h2

theorem storeSummaries_char (start : String) (synced : List Nat)
    (spi : List (String × Nat)) (sdi : List (String × List Nat))
    (sums : List SummaryPage) :
    ∃ F : SummaryPage → SummaryPage,
      (wiringPhase spi sdi (archiveSummaries start synced sums).1).1 = sums.map F ∧
      (∀ p, (F p).id = p.id ∧ (F p).weekStart = p.weekStart ∧ (F p).agents = p.agents) ∧
      (∀ p, (F p).archived = false → p.archived = false) ∧
      (∀ p, p.archived = false → p.id ∈ synced →
        F p = { p with detailIds := (F p).detailIds }) ∧
      (∀ p, ((getAllSummariesByPeriodMap sums start).any
          (fun e => !synced.contains e.2 && (p.id = e.2 : Bool))) = true →
        (F p).archived = true) := by
  obtain ⟨Fw, hFw, hFwprop⟩ :=
    wiringFold_map2 spi sdi ((archiveSummaries start synced sums).1, 0)
  have hFwid : ∀ x, (Fw x).id = x.id := fun x => by rw [hFwprop x]
  have hFwarch : ∀ x, (Fw x).archived = x.archived := fun x => by rw [hFwprop x]
  have hFwweek : ∀ x, (Fw x).weekStart = x.weekStart := fun x => by rw [hFwprop x]
  have hFwag : ∀ x, (Fw x).agents = x.agents := fun x => by rw [hFwprop x]
  refine ⟨fun p => Fw (if (getAllSummariesByPeriodMap sums start).any
      (fun e => !synced.contains e.2 && (p.id = e.2 : Bool))
    then { p with archived := true } else p), ?_, ?_, ?_, ?_, ?_⟩
  · have h1 : (wiringPhase spi sdi (archiveSummaries start synced sums).1).1
        = (archiveSummaries start synced sums).1.map Fw := hFw
    rw [h1, archiveSummaries_fst, List.map_map]
    rfl
  · intro p
    by_cases hc : ((getAllSummariesByPeriodMap sums start).any
        (fun e => !synced.contains e.2 && (p.id = e.2 : Bool))) = true
    · simp only [hc, if_true]
      exact ⟨by rw [hFwid], by rw [hFwweek], by rw [hFwag]⟩
    · rw [Bool.not_eq_true] at hc
      simp only [hc, Bool.false_eq_true, if_false]
      exact ⟨hFwid p, hFwweek p, hFwag p⟩
  · intro p hl
    by_cases hc : ((getAllSummariesByPeriodMap sums start).any
        (fun e => !synced.contains e.2 && (p.id = e.2 : Bool))) = true
    · simp only [hc, if_true] at hl
      rw [hFwarch] at hl
      exact absurd hl (by simp)
    · rw [Bool.not_eq_true] at hc
      simp only [hc, Bool.false_eq_true, if_false] at hl
      rw [hFwarch] at hl
      exact hl
  · intro p hlive hsync
    have hc := arch_cond_false_of_synced hsync (getAllSummariesByPeriodMap sums start)
    simp only [hc, Bool.false_eq_true, if_false]
    exact hFwprop p
  · intro p hc
    simp only [hc, if_true]
    rw [hFwarch]
theorem summary_run2_bundle (tp start endd : String) (sa : List SheetsAgentData)
    (api : List (String × Nat)) (G : List AgentSyncSummary)
    (sums0 : List SummaryPage) (n0 : Nat)
    (sdi : List (String × List Nat)) (W : List SummaryPage)
    (hW : W = (wiringPhase (summaryPhase tp start endd sa api G sums0 n0).pageIds sdi
      (archiveSummaries start
        ((summaryPhase tp start endd sa api G sums0 n0).pageIds.map Prod.snd)
        (summaryPhase tp start endd sa api G sums0 n0).summaries).1).1)
    (h0 : ∀ p ∈ sums0, p.id < n0)
    (hnd : (sums0.map SummaryPage.id).Nodup)
    (huniq : ∀ p ∈ sums0, ∀ q ∈ sums0, p.archived = false → q.archived = false →
      p.weekStart = start → q.weekStart = start → ∀ g ∈ p.agents, g ∈ q.agents → p = q)
    (hgnd : (G.map AgentSyncSummary.agentId).Nodup)
    (hinj : ∀ a1 a2 v, lookupA api a1 = some v → lookupA api a2 = some v → a1 = a2) :
    (W.map SummaryPage.id).Nodup ∧
    (∀ r1 ∈ W, ∀ r2 ∈ W, r1.archived = false → r2.archived = false →
      r1.weekStart = start → r2.weekStart = start →
      ∀ g ∈ r1.agents, g ∈ r2.agents → r1 = r2) ∧
    (∀ g ∈ G, g.agentId ≠ "" → ∀ apid, lookupA api g.agentId = some apid →
      ∃ q2 ∈ W, lookupA (summaryPhase tp start endd sa api G sums0 n0).pageIds g.agentId
          = some q2.id ∧
        findSummaryId W start apid = some q2.id ∧
        q2.archived = false ∧ q2.weekStart = start ∧ q2.agents = [apid] ∧
        applySummaryPayload (summaryPayloadOf tp start endd sa g apid) q2 = q2) ∧
    (∀ r ∈ W, r.archived = false → r.weekStart = start →
      ∀ h, r.agents.head? = some h →
      ∃ aid apid, (∃ g ∈ G, g.agentId = aid) ∧ aid ≠ "" ∧
        lookupA api aid = some apid ∧ r.agents = [apid] ∧
        lookupA (summaryPhase tp start endd sa api G sums0 n0).pageIds aid
          = some r.id) ∧
    (∀ r ∈ W, r.id < (summaryPhase tp start endd sa api G sums0 n0).nextId) := by
  have inv := summaryPhase_inv tp start endd sa api G sums0 n0 h0 hnd huniq hgnd
  have hfixs := summaryPhase_fix tp start endd sa api G sums0 n0 h0 hnd huniq hgnd hinj
  have hpif := summaryPhase_pageIds_facts tp start endd sa api G sums0 n0
  set sp := summaryPhase tp start endd sa api G sums0 n0 with hsp
  obtain ⟨F, hFeq, hFpres, hFlive, hFfix, hFarch⟩ := storeSummaries_char start
    (sp.pageIds.map Prod.snd) sp.pageIds sdi sp.summaries
  rw [← hW] at hFeq
  have hWF : ∀ r ∈ W, ∃ p ∈ sp.summaries, r = F p := by
    intro r hr
    rw [hFeq] at hr
    rcases List.mem_map.mp hr with ⟨p, hp, he⟩
    exact ⟨p, hp, he.symm⟩
  have htr : ∀ p ∈ sp.summaries, F p ∈ W := by
    intro p hp
    rw [hFeq]
    exact List.mem_map_of_mem F hp
  refine ⟨?_, ?_, ?_, ?_, ?_⟩
  · rw [hFeq, map_ids_of_preserve (fun p => (hFpres p).1)]
    exact inv.nodup
  · intro r1 hr1 r2 hr2 hl1 hl2 hw1 hw2 g hg1 hg2
    obtain ⟨p1, hp1, he1⟩ := hWF r1 hr1
    obtain ⟨p2, hp2, he2⟩ := hWF r2 hr2
    have hpl1 : p1.archived = false := hFlive p1 (by rw [← he1]; exact hl1)
    have hpl2 : p2.archived = false := hFlive p2 (by rw [← he2]; exact hl2)
    have hpw1 : p1.weekStart = start := by rw [← (hFpres p1).2.1, ← he1]; exact hw1
    have hpw2 : p2.weekStart = start := by rw [← (hFpres p2).2.1, ← he2]; exact hw2
    have hga1 : g ∈ p1.agents := by rw [← (hFpres p1).2.2, ← he1]; exact hg1
    have hga2 : g ∈ p2.agents := by rw [← (hFpres p2).2.2, ← he2]; exact hg2
    have hp12 : p1 = p2 := inv.uniq p1 hp1 p2 hp2 hpl1 hpl2 hpw1 hpw2 g hga1 hga2
    rw [he1, he2, hp12]
  · intro g hg ha apid hga
    have hsf := hfixs g hg apid ha hga
    unfold SumFix at hsf
    obtain ⟨q, hq, hlk, hql, hqw, hqa, hqf⟩ := hsf
    have hsync : q.id ∈ sp.pageIds.map Prod.snd :=
      List.mem_map_of_mem Prod.snd (mem_of_lookupA_some hlk)
    have hqfix2 := hFfix q hql hsync
    have hfa : (F q).archived = false := by
      rw [hqfix2]
      exact hql
    have hfw : (F q).weekStart = start := by
      rw [(hFpres q).2.1]
      exact hqw
    have hfg : (F q).agents = [apid] := by
      rw [(hFpres q).2.2]
      exact hqa
    refine ⟨F q, htr q hq, ?_, ?_, hfa, hfw, hfg, ?_⟩
    · rw [(hFpres q).1]
      exact hlk
    · apply findSummaryId_unique W start apid (F q).id (F q) (htr q hq) hfa hfw
        (by rw [hfg]; simp)
      intro r hr hrl hrw hrg
      obtain ⟨p, hp, he⟩ := hWF r hr
      have hpl : p.archived = false := hFlive p (by rw [← he]; exact hrl)
      have hpw : p.weekStart = start := by rw [← (hFpres p).2.1, ← he]; exact hrw
      have hpg : apid ∈ p.agents := by rw [← (hFpres p).2.2, ← he]; exact hrg
      have hpq : p = q := inv.uniq p hp q hq hpl hql hpw hqw apid hpg (by rw [hqa]; simp)
      rw [he, (hFpres p).1, hpq, ← (hFpres q).1]
    · rw [hqfix2]
      exact applySummary_detailIds_congr _ q (F q).detailIds hqf
  · intro r hr hrl hrw h hrh
    obtain ⟨p, hp, he⟩ := hWF r hr
    have hpl : p.archived = false := hFlive p (by rw [← he]; exact hrl)
    have hpw : p.weekStart = start := by rw [← (hFpres p).2.1, ← he]; exact hrw
    have hph : p.agents.head? = some h := by rw [← (hFpres p).2.2, ← he]; exact hrh
    have hu2 : ∀ q2 ∈ sp.summaries, q2.archived = false → q2.weekStart = start →
        q2.agents.head? = some h → q2 = p := by
      intro q2 hq2 h1 h2 h3
      exact inv.uniq q2 hq2 p hp h1 hpl h2 hpw h (head_mem_of_eq h3) (head_mem_of_eq hph)
    have hlkp : lookupA (getAllSummariesByPeriodMap sp.summaries start) h = some p.id :=
      summMap_lookup_unique start h sp.summaries p hp hpl hpw hph hu2
    have hmem := mem_of_lookupA_some hlkp
    have hsync : p.id ∈ sp.pageIds.map Prod.snd := by
      by_contra hns
      have hcond : ((getAllSummariesByPeriodMap sp.summaries start).any
          (fun e => !(sp.pageIds.map Prod.snd).contains e.2
            && (p.id = e.2 : Bool))) = true := by
        apply List.any_eq_true.mpr
        refine ⟨(h, p.id), hmem, ?_⟩
        simp [List.contains, List.elem_eq_mem, hns]
      have harc := hFarch p hcond
      rw [← he] at harc
      rw [hrl] at harc
      exact Bool.noConfusion harc
    rcases List.mem_map.mp hsync with ⟨e2, he2, hev⟩
    have hlk2 : lookupA sp.pageIds e2.1 = some e2.2 :=
      lookupA_eq_of_nodupKeys hpif.1 he2
    obtain ⟨hane, ⟨g2, hg2, hgid⟩, hsome⟩ := hpif.2 e2.1 e2.2 hlk2
    obtain ⟨apid2, hapid⟩ := Option.isSome_iff_exists.mp hsome
    have hane2 : g2.agentId ≠ "" := by rw [hgid]; exact hane
    have hsf := hfixs g2 hg2 apid2 hane2 (by rw [hgid]; exact hapid)
    unfold SumFix at hsf
    obtain ⟨q2, hq2, hlk2b, hql2, hqw2, hqa2, hqf2⟩ := hsf
    have hqid : q2.id = p.id := by
      have h1 : lookupA sp.pageIds g2.agentId = some e2.2 := by
        rw [hgid]
        exact hlk2
      have h2 := h1.symm.trans hlk2b
      injection h2 with h3
      rw [← h3]
      exact hev
    have hqp : q2 = p := List.inj_on_of_nodup_map inv.nodup hq2 hp hqid
    refine ⟨g2.agentId, apid2, ⟨g2, hg2, rfl⟩, hane2, ?_, ?_, ?_⟩
    · rw [hgid]
      exact hapid
    · have hpag : p.agents = [apid2] := by
        rw [← hqp]
        exact hqa2
      rw [← hpag, ← (hFpres p).2.2, ← he]
    · have hrid : r.id = p.id := by rw [he, (hFpres p).1]
      rw [hrid, ← hqid]
      exact hlk2b
  · intro r hr
    obtain ⟨p, hp, he⟩ := hWF r hr
    rw [he, (hFpres p).1]
    exact inv.fresh p hp
theorem wiringStep_cases (spi : List (String × Nat)) (acc : List SummaryPage × Nat)
    (e : String × List Nat) :
    ((lookupA spi e.1 = none ∨ e.2.isEmpty = true) ∧ wiringStep spi acc e = acc) ∨
      ∃ spid, lookupA spi e.1 = some spid ∧ e.2.isEmpty = false ∧
        (wiringStep spi acc e).1
          = acc.1.map (fun p => if p.id = spid then { p with detailIds := e.2 } else p) := by
  cases hlk : lookupA spi e.1 with
  | none =>
    left
    refine ⟨Or.inl rfl, ?_⟩
    simp only [wiringStep, hlk]
  | some spid =>
    by_cases hemp : e.2.isEmpty = true
    · left
      refine ⟨Or.inr hemp, ?_⟩
      simp only [wiringStep, hlk, hemp, if_true]
    · right
      refine ⟨spid, rfl, by rw [← Bool.not_eq_true]; exact hemp, ?_⟩
      simp only [wiringStep, hlk]
      rw [if_neg hemp]

theorem wiringStep_noop (spi : List (String × Nat)) (acc : List SummaryPage × Nat)
    (e : String × List Nat)
    (hdet : ∀ spid, lookupA spi e.1 = some spid → e.2.isEmpty = false →
      ∀ p ∈ acc.1, p.id = spid → p.detailIds = e.2) :
    wiringStep spi acc e = acc := by
  cases hlk : lookupA spi e.1 with
  | none => simp only [wiringStep, hlk]
  | some spid =>
    by_cases hemp : e.2.isEmpty = true
    · simp only [wiringStep, hlk, hemp, if_true]
    · have hempf : e.2.isEmpty = false := by rw [← Bool.not_eq_true]; exact hemp
      have h1 : acc.1.map (fun p => if p.id = spid then { p with detailIds := e.2 } else p)
          = acc.1 := by
        apply map_self
        intro p hp
        by_cases hc : p.id = spid
        · rw [if_pos hc, ← hdet spid hlk hempf p hp hc]
        · rw [if_neg hc]
      have h2 : (acc.1.any (fun p => (p.id = spid : Bool)
          && (p.detailIds ≠ e.2 : Bool))) = false := by
        apply List.any_eq_false.mpr
        intro p hp
        by_cases hc : p.id = spid
        · simp [hc, hdet spid hlk hempf p hp hc]
        · simp [hc]
      simp only [wiringStep, hlk]
      rw [if_neg hemp, h1, h2]
      simp

theorem wiringFold_noop (spi : List (String × Nat)) :
    ∀ (sdi : List (String × List Nat)) (acc : List SummaryPage × Nat),
      (∀ e ∈ sdi, ∀ spid, lookupA spi e.1 = some spid → e.2.isEmpty = false →
        ∀ p ∈ acc.1, p.id = spid → p.detailIds = e.2) →
      sdi.foldl (wiringStep spi) acc = acc := by
  intro sdi
  induction sdi with
  | nil =>
    intro acc _
    rfl
  | cons e rest ih =>
    intro acc h
    rw [List.foldl_cons]
    have hstep : wiringStep spi acc e = acc :=
      wiringStep_noop spi acc e (h e (List.mem_cons_self e rest))
    rw [hstep]
    exact ih acc (fun e2 h2 => h e2 (List.mem_cons_of_mem e h2))

theorem wiringPhase_noop2 (spi : List (String × Nat)) (sdi : List (String × List Nat))
    (sums : List SummaryPage)
    (h : ∀ e ∈ sdi, ∀ spid, lookupA spi e.1 = some spid → e.2.isEmpty = false →
      ∀ p ∈ sums, p.id = spid → p.detailIds = e.2) :
    wiringPhase spi sdi sums = (sums, 0) := by
  unfold wiringPhase
  exact wiringFold_noop spi sdi (sums, 0) h

theorem wiringFold_preserve (spi : List (String × Nat))
    (hspinj : ∀ a1 a2 v, lookupA spi a1 = some v → lookupA spi a2 = some v → a1 = a2) :
    ∀ (sdi : List (String × List Nat)) (acc : List SummaryPage × Nat)
      (a : String) (spid : Nat), lookupA spi a = some spid →
      (∀ e ∈ sdi, e.1 ≠ a) →
      ∀ p ∈ acc.1, p.id = spid → p ∈ (sdi.foldl (wiringStep spi) acc).1 := by
  intro sdi
  induction sdi with
  | nil =>
    intro acc a spid _ _ p hp _
    exact hp
  | cons e rest ih =>
    intro acc a spid hlk hkeys p hp hpid
    rw [List.foldl_cons]
    apply ih (wiringStep spi acc e) a spid hlk
      (fun e2 h2 => hkeys e2 (List.mem_cons_of_mem e h2)) p _ hpid
    rcases wiringStep_cases spi acc e with ⟨_, hs⟩ | ⟨spid2, hlk2, _, hs⟩
    · rw [hs]
      exact hp
    · rw [hs]
      have hne2 : spid2 ≠ spid := by
        intro hc
        exact hkeys e (List.mem_cons_self e rest) (hspinj e.1 a spid (hc ▸ hlk2) hlk)
      have h2 : (if p.id = spid2 then { p with detailIds := e.2 } else p)
          ∈ acc.1.map (fun q => if q.id = spid2 then { q with detailIds := e.2 } else q) :=
        List.mem_map_of_mem _ hp
      rw [if_neg (by rw [hpid]; exact fun hc => hne2 hc.symm)] at h2
      exact h2

theorem wiringFold_char (spi : List (String × Nat))
    (hspinj : ∀ a1 a2 v, lookupA spi a1 = some v → lookupA spi a2 = some v → a1 = a2) :
    ∀ (sdi : List (String × List Nat)) (acc : List SummaryPage × Nat),
      NoDupKeys sdi →
      ∀ e ∈ sdi, ∀ spid, lookupA spi e.1 = some spid → e.2.isEmpty = false →
      ∀ p ∈ acc.1, p.id = spid →
        ∃ p2 ∈ (sdi.foldl (wiringStep spi) acc).1, p2.id = spid ∧ p2.detailIds = e.2 := by
  intro sdi
  induction sdi with
  | nil =>
    intro acc _ e he
    exact absurd he (List.not_mem_nil e)
  | cons e0 rest ih =>
    intro acc hnd e he spid hlk hne p hp hpid
    have hnd2 : NoDupKeys rest ∧ e0.1 ∉ rest.map Prod.fst := by
      simp only [NoDupKeys, List.map_cons, List.nodup_cons] at hnd
      exact ⟨hnd.2, hnd.1⟩
    rw [List.foldl_cons]
    rcases List.mem_cons.mp he with he0 | hrest
    · rcases wiringStep_cases spi acc e0 with ⟨hbad, _⟩ | ⟨spid2, hlk2, _, hs⟩
      · exfalso
        rw [← he0] at hbad
        rcases hbad with hb | hb
        · rw [hb] at hlk
          exact Option.noConfusion hlk
        · rw [hb] at hne
          exact Bool.noConfusion hne
      · have hsp2 : spid2 = spid := by
          rw [← he0] at hlk2
          exact Option.some.inj (hlk2.symm.trans hlk)
        have hmem : { p with detailIds := e0.2 } ∈ (wiringStep spi acc e0).1 := by
          have h2 : (if p.id = spid2 then { p with detailIds := e0.2 } else p)
              ∈ acc.1.map
                (fun q => if q.id = spid2 then { q with detailIds := e0.2 } else q) :=
            List.mem_map_of_mem _ hp
          rw [if_pos (by rw [hpid, hsp2])] at h2
          rw [hs]
          exact h2
        have hpres := wiringFold_preserve spi hspinj rest (wiringStep spi acc e0)
          e0.1 spid2 hlk2
          (fun e2 h2 hc => hnd2.2 (hc ▸ List.mem_map_of_mem Prod.fst h2))
          { p with detailIds := e0.2 } hmem (by rw [hsp2]; exact hpid)
        refine ⟨{ p with detailIds := e0.2 }, hpres, hpid, ?_⟩
        rw [← he0]
    · rcases wiringStep_cases spi acc e0 with ⟨_, hs⟩ | ⟨spid2, hlk2, _, hs⟩
      · refine ih (wiringStep spi acc e0) hnd2.1 e hrest spid hlk hne p ?_ hpid
        rw [hs]
        exact hp
      · refine ih (wiringStep spi acc e0) hnd2.1 e hrest spid hlk hne
          (if p.id = spid2 then { p with detailIds := e0.2 } else p) ?_ ?_
        · rw [hs]
          exact List.mem_map_of_mem _ hp
        · by_cases hc : p.id = spid2
          · rw [if_pos hc]
            exact hpid
          · rw [if_neg hc]
            exact hpid

theorem wiringPhase_char (spi : List (String × Nat))
    (hspinj : ∀ a1 a2 v, lookupA spi a1 = some v → lookupA spi a2 = some v → a1 = a2)
    (sdi : List (String × List Nat)) (sums : List SummaryPage)
    (hnd : NoDupKeys sdi) :
    ∀ e ∈ sdi, ∀ spid, lookupA spi e.1 = some spid → e.2.isEmpty = false →
      ∀ p ∈ sums, p.id = spid →
        ∃ p2 ∈ (wiringPhase spi sdi sums).1, p2.id = spid ∧ p2.detailIds = e.2 := by
  unfold wiringPhase
  exact wiringFold_char spi hspinj sdi (sums, 0) hnd
theorem applyDetail_idem (d : DetailPayload) (p : DetailPage) :
    applyDetailPayload d (applyDetailPayload d p) = applyDetailPayload d p := by
  unfold applyDetailPayload
  cases h : d.playerPageId <;> simp [h]

theorem updateDetailById_fst (l : List DetailPage) (pid : Nat) (d : DetailPayload) :
    (updateDetailById l pid d).1
      = l.map (fun p => if p.id = pid then applyDetailPayload d p else p) := rfl

theorem updateDetail_noop (l : List DetailPage) (pid : Nat) (d : DetailPayload)
    (h : ∀ p ∈ l, p.id = pid → applyDetailPayload d p = p) :
    updateDetailById l pid d = (l, false) := by
  unfold updateDetailById
  simp only [Prod.mk.injEq]
  constructor
  · apply map_self
    intro p hp
    by_cases hc : p.id = pid
    · rw [if_pos hc]
      exact h p hp hc
    · rw [if_neg hc]
  · apply List.any_eq_false.mpr
    intro p hp
    by_cases hc : p.id = pid
    · simp [hc, h p hp hc]
    · simp [hc]

theorem updateDetail_map_id (l : List DetailPage) (pid : Nat) (d : DetailPayload) :
    (updateDetailById l pid d).1.map DetailPage.id = l.map DetailPage.id := by
  unfold updateDetailById
  rw [List.map_map]
  apply List.map_congr_left
  intro p _
  by_cases h : p.id = pid <;> simp [h, applyDetailPayload]

theorem findDetailId_some {pages : List DetailPage} {spid : Nat} {pid : String} {i : Nat}
    (h : findDetailId pages spid pid = some i) :
    ∃ p ∈ pages, p.archived = false ∧ spid ∈ p.summaryIds ∧ p.playerId = pid ∧
      p.id = i := by
  unfold findDetailId at h
  rcases Option.map_eq_some'.mp h with ⟨p, hp, hpi⟩
  have hmem := head_mem_of_eq hp
  rcases List.mem_filter.mp hmem with ⟨hin, hprop⟩
  simp only [Bool.and_eq_true, Bool.not_eq_true', decide_eq_true_eq,
    List.contains, List.elem_eq_mem] at hprop
  exact ⟨p, hin, hprop.1.1, hprop.1.2, hprop.2, hpi⟩

theorem findDetailId_none_iff (pages : List DetailPage) (spid : Nat) (pid : String) :
    findDetailId pages spid pid = none ↔
      ∀ p ∈ pages, ¬(p.archived = false ∧ spid ∈ p.summaryIds ∧ p.playerId = pid) := by
  unfold findDetailId
  simp [Option.map_eq_none', List.head?_eq_none_iff, List.filter_eq_nil_iff,
    List.contains, List.elem_eq_mem, Bool.not_eq_true', decide_eq_true_eq]

theorem findDetailId_unique (pages : List DetailPage) (spid : Nat) (pid : String)
    (i : Nat) (q : DetailPage) (hq : q ∈ pages) (hl : q.archived = false)
    (hs : spid ∈ q.summaryIds) (hp : q.playerId = pid)
    (hall : ∀ r ∈ pages, r.archived = false → spid ∈ r.summaryIds →
      r.playerId = pid → r.id = i) :
    findDetailId pages spid pid = some i := by
  unfold findDetailId
  have hfil : q ∈ pages.filter (fun d => !d.archived && d.summaryIds.contains spid
      && (d.playerId = pid : Bool)) :=
    List.mem_filter.mpr ⟨hq, by simp [hl, hs, hp, List.contains, List.elem_eq_mem]⟩
  cases hh : (pages.filter (fun d => !d.archived && d.summaryIds.contains spid
      && (d.playerId = pid : Bool))).head? with
  | none =>
    rw [List.head?_eq_none_iff] at hh
    rw [hh] at hfil
    exact absurd hfil (List.not_mem_nil q)
  | some p0 =>
    have hp0 := head_mem_of_eq hh
    rcases List.mem_filter.mp hp0 with ⟨hin, hprop⟩
    simp only [Bool.and_eq_true, Bool.not_eq_true', decide_eq_true_eq,
      List.contains, List.elem_eq_mem] at hprop
    rw [Option.map_some']
    rw [hall p0 hin hprop.1.1 hprop.1.2 hprop.2]

theorem detailsMap_lookup_unique (pages : List DetailPage) (spid : Nat) (k : String)
    (w : DetailPage) (hw : w ∈ pages) (hlive : w.archived = false)
    (hs : spid ∈ w.summaryIds) (hne : w.playerId ≠ "") (hk : w.playerId = k)
    (hu : ∀ q ∈ pages, q.archived = false → spid ∈ q.summaryIds →
      q.playerId = k → q = w) :
    lookupA (getAllDetailsBySummaryMap pages spid) k = some w.id := by
  rw [detailsMap_lookup]
  have hkne : k ≠ "" := hk ▸ hne
  have hfil : w ∈ pages.filter (fun d => ((!d.archived && d.summaryIds.contains spid) &&
      !(d.playerId = "" : Bool)) && (d.playerId = k : Bool)) :=
    List.mem_filter.mpr ⟨hw, by simp [hlive, hs, hne, hk, hkne, List.contains,
      List.elem_eq_mem]⟩
  have hall : ∀ q ∈ pages.filter (fun d => ((!d.archived && d.summaryIds.contains spid) &&
      !(d.playerId = "" : Bool)) && (d.playerId = k : Bool)), q = w := by
    intro q hq2
    rcases List.mem_filter.mp hq2 with ⟨hq1, hq3⟩
    simp only [Bool.and_eq_true, Bool.not_eq_true', decide_eq_false_iff_not,
      decide_eq_true_eq, List.contains, List.elem_eq_mem] at hq3
    exact hu q hq1 hq3.1.1.1 hq3.1.1.2 hq3.2
  exact foldl_lastVal DetailPage.id w _ (List.ne_nil_of_mem hfil) hall _
theorem group_players_key_inv (fees : List (String × ℚ)) :
    ∀ (rows : List CollectionDataRow) (m0 : List (String × AgentSyncSummary)),
      (∀ e ∈ m0, ∀ r ∈ e.2.players, agentKeyOf r = e.1) →
      ∀ e ∈ rows.foldl (groupStep fees) m0, ∀ r ∈ e.2.players, agentKeyOf r = e.1 := by
  intro rows
  induction rows with
  | nil =>
    intro m0 h e he
    exact h e he
  | cons row rest ih =>
    intro m0 h e he
    simp only [List.foldl_cons] at he
    refine ih _ ?_ e he
    intro f hf r hr
    unfold groupStep at hf
    rcases hlk : lookupA m0 (agentKeyOf row) with _ | g
    · rw [hlk] at hf
      rcases mem_setA hf with rfl | hf2
      · simp only [accumRow, initSummary] at hr
        simp only [List.nil_append, List.mem_singleton] at hr
        rw [hr]
      · exact h f hf2 r hr
    · rw [hlk] at hf
      rcases mem_setA hf with rfl | hf2
      · simp only [accumRow] at hr
        rcases List.mem_append.mp hr with h1 | h1
        · exact h _ (mem_of_lookupA_some hlk) r h1
        · simp only [List.mem_singleton] at h1
          rw [h1]
      · exact h f hf2 r hr

theorem group_players_sublist (fees : List (String × ℚ)) :
    ∀ (rows : List CollectionDataRow) (m0 : List (String × AgentSyncSummary))
      (pre : List CollectionDataRow),
      (∀ e ∈ m0, e.2.players.Sublist pre) →
      ∀ e ∈ rows.foldl (groupStep fees) m0, e.2.players.Sublist (pre ++ rows) := by
  intro rows
  induction rows with
  | nil =>
    intro m0 pre h e he
    rw [List.append_nil]
    exact h e he
  | cons row rest ih =>
    intro m0 pre h e he
    simp only [List.foldl_cons] at he
    have hstep : ∀ f ∈ groupStep fees m0 row, f.2.players.Sublist (pre ++ [row]) := by
      intro f hf
      unfold groupStep at hf
      rcases hlk : lookupA m0 (agentKeyOf row) with _ | g
      · rw [hlk] at hf
        rcases mem_setA hf with rfl | hf2
        · simp only [accumRow, initSummary, List.nil_append]
          exact List.sublist_append_of_sublist_right (List.Sublist.refl [row])
        · exact List.Sublist.trans (h f hf2) (List.sublist_append_left pre [row])
      · rw [hlk] at hf
        rcases mem_setA hf with rfl | hf2
        · simp only [accumRow]
          exact List.Sublist.append (h _ (mem_of_lookupA_some hlk)) (List.Sublist.refl [row])
        · exact List.Sublist.trans (h f hf2) (List.sublist_append_left pre [row])
    have := ih (groupStep fees m0 row) (pre ++ [row]) hstep e he
    rwa [List.append_assoc, List.singleton_append] at this

theorem group_agentId_not_direct (fees : List (String × ℚ)) :
    ∀ (rows : List CollectionDataRow) (m0 : List (String × AgentSyncSummary)),
      (∀ r ∈ rows, r.agentId ≠ directLabel) →
      (∀ e ∈ m0, e.2.agentId ≠ directLabel) →
      ∀ e ∈ rows.foldl (groupStep fees) m0, e.2.agentId ≠ directLabel := by
  intro rows
  induction rows with
  | nil =>
    intro m0 _ h e he
    exact h e he
  | cons row rest ih =>
    intro m0 hrows h e he
    simp only [List.foldl_cons] at he
    refine ih _ (fun r hr => hrows r (List.mem_cons_of_mem row hr)) ?_ e he
    intro f hf
    unfold groupStep at hf
    rcases hlk : lookupA m0 (agentKeyOf row) with _ | g
    · rw [hlk] at hf
      rcases mem_setA hf with rfl | hf2
      · simp only [accumRow, initSummary]
        exact hrows row (List.mem_cons_self row rest)
      · exact h f hf2
    · rw [hlk] at hf
      rcases mem_setA hf with rfl | hf2
      · simp only [accumRow]
        exact h _ (mem_of_lookupA_some hlk)
      · exact h f hf2

theorem nodup_playerIds_of_pairs (c : String) :
    ∀ (l : List CollectionDataRow), (∀ r ∈ l, r.agentId = c) →
      (l.map (fun r => (r.agentId, r.playerId))).Nodup →
      (l.map CollectionDataRow.playerId).Nodup := by
  intro l
  induction l with
  | nil =>
    intro _ _
    simp
  | cons r rest ih =>
    intro hc hnd
    simp only [List.map_cons, List.nodup_cons] at hnd ⊢
    refine ⟨?_, ih (fun r2 h2 => hc r2 (List.mem_cons_of_mem r h2)) hnd.2⟩
    intro hmem
    rcases List.mem_map.mp hmem with ⟨r2, hr2, he⟩
    apply hnd.1
    have hpair : (r2.agentId, r2.playerId) = (r.agentId, r.playerId) := by
      rw [hc r2 (List.mem_cons_of_mem r hr2), hc r (List.mem_cons_self r rest), he]
    rw [← hpair]
    exact List.mem_map_of_mem _ hr2

theorem group_players_wf (rows : List CollectionDataRow) (fees : List (String × ℚ))
    (hnd : (rows.map (fun r => (r.agentId, r.playerId))).Nodup)
    (hdl : ∀ r ∈ rows, r.agentId ≠ directLabel) :
    ∀ g ∈ groupCollectionByAgent rows fees,
      (∀ r ∈ g.players, r.agentId = g.agentId) ∧
      (g.players.map CollectionDataRow.playerId).Nodup := by
  intro g hg
  obtain ⟨g0, ⟨k, hk⟩, hfin⟩ := mem_group_out hg
  have hkey := group_key_inv fees rows [] (by simp) (k, g0) hk
  have hpkey := group_players_key_inv fees rows [] (by simp) (k, g0) hk
  have hndirect := group_agentId_not_direct fees rows [] hdl (by simp) (k, g0) hk
  have hsub := group_players_sublist fees rows [] [] (by simp) (k, g0) hk
  rw [List.nil_append] at hsub
  have hplayers : g.players = g0.players := by
    rw [hfin]
    rfl
  have hagent : g.agentId = g0.agentId := by
    rw [hfin]
    rfl
  have huni : ∀ r ∈ g0.players, r.agentId = g0.agentId := by
    intro r hr
    have h1 := hpkey r hr
    simp only [agentKeyOf] at h1 hkey
    by_cases hra : r.agentId = ""
    · rw [if_pos hra] at h1
      by_cases hga : g0.agentId = ""
      · rw [hra, hga]
      · rw [if_neg hga] at hkey
        rw [← h1] at hkey
        exact absurd hkey.symm hndirect
    · rw [if_neg hra] at h1
      by_cases hga : g0.agentId = ""
      · rw [if_pos hga] at hkey
        rw [hkey] at h1
        exact absurd h1 (hdl r (hsub.mem hr))
      · rw [if_neg hga] at hkey
        rw [h1, hkey]
  constructor
  · intro r hr
    rw [hplayers] at hr
    rw [hagent]
    exact huni r hr
  · rw [hplayers]
    exact nodup_playerIds_of_pairs g0.agentId g0.players huni
      (List.Nodup.sublist (hsub.map _) hnd)
theorem applyDetail_create_fix (d : DetailPayload) (n : Nat) :
    applyDetailPayload d
      { id := n, archived := false, nickname := d.nickname,
        summaryIds := [d.summaryPageId],
        playerIds := match d.playerPageId with | some x => [x] | none => [],
        playerId := d.playerId, revenue := d.revenue, rake := d.rake,
        rakebackRate := d.rakebackRate, rakeback := d.rakeback, amount := d.amount }
    = { id := n, archived := false, nickname := d.nickname,
        summaryIds := [d.summaryPageId],
        playerIds := match d.playerPageId with | some x => [x] | none => [],
        playerId := d.playerId, revenue := d.revenue, rake := d.rake,
        rakebackRate := d.rakebackRate, rakeback := d.rakeback, amount := d.amount } := by
  unfold applyDetailPayload
  cases h : d.playerPageId <;> rfl

theorem detRow_inv (api : List (String × Nat)) (ppm : List ((String × String) × Nat))
    (eps : List ((String × Option Nat) × Nat)) (aid : String) (spid : Nat) (n0 : Nat)
    (st : DetailInner) (row : CollectionDataRow)
    (inv : DetInv n0 st.details st.nextId) :
    DetInv n0 (detailRowStep api ppm eps aid spid st row).details
      (detailRowStep api ppm eps aid spid st row).nextId := by
  cases hf : findDetailId st.details spid row.playerId with
  | some pid =>
    simp only [detailRowStep, hf]
    obtain ⟨w, hw, hwl, hws, hwp, hwid⟩ := findDetailId_some hf
    refine { nodup := ?_, fresh := ?_, lower := inv.lower, uniq := ?_ }
    · rw [updateDetail_map_id]
      exact inv.nodup
    · intro q hq
      dsimp only at hq ⊢
      rw [updateDetailById_fst] at hq
      rcases List.mem_map.mp hq with ⟨p, hp, him⟩
      have hfr := inv.fresh p hp
      by_cases hc : p.id = pid
      · rw [if_pos hc] at him
        rw [← him]
        exact hfr
      · rw [if_neg hc] at him
        rw [← him]
        exact hfr
    · intro q hq r hr hql hrl s hsq hsr hpq
      rw [updateDetailById_fst] at hq hr
      rcases List.mem_map.mp hq with ⟨p1, hp1, him1⟩
      rcases List.mem_map.mp hr with ⟨p2, hp2, him2⟩
      by_cases h1 : p1.id = pid <;> by_cases h2 : p2.id = pid
      · rw [if_pos h1] at him1
        rw [if_pos h2] at him2
        have hp12 : p1 = p2 := List.inj_on_of_nodup_map inv.nodup hp1 hp2 (by rw [h1, h2])
        rw [← him1, ← him2, hp12]
      · rw [if_pos h1] at him1
        rw [if_neg h2] at him2
        exfalso
        have hq2 : q.summaryIds = [spid] := by
          rw [← him1]
          rfl
        have hs2 : s = spid := by
          rw [hq2] at hsq
          simpa using hsq
        have hqp : q.playerId = row.playerId := by
          rw [← him1]
          rfl
        subst him2
        have hrw : p2 = w := inv.uniq p2 hp2 w hw hrl hwl s hsr
          (by rw [hs2]; exact hws) (by rw [← hpq, hqp, hwp])
        exact h2 (by rw [hrw]; exact hwid)
      · rw [if_neg h1] at him1
        rw [if_pos h2] at him2
        exfalso
        have hr2 : r.summaryIds = [spid] := by
          rw [← him2]
          rfl
        have hs2 : s = spid := by
          rw [hr2] at hsr
          simpa using hsr
        have hrp : r.playerId = row.playerId := by
          rw [← him2]
          rfl
        subst him1
        have hqw : p1 = w := inv.uniq p1 hp1 w hw hql hwl s hsq
          (by rw [hs2]; exact hws) (by rw [hpq, hrp, hwp])
        exact h1 (by rw [hqw]; exact hwid)
      · rw [if_neg h1] at him1
        rw [if_neg h2] at him2
        subst him1
        subst him2
        exact inv.uniq p1 hp1 p2 hp2 hql hrl s hsq hsr hpq
  | none =>
    simp only [detailRowStep, createDetailPage, hf]
    refine { nodup := ?_, fresh := ?_, lower := ?_, uniq := ?_ }
    · rw [List.map_append]
      apply List.Nodup.append inv.nodup (by simp)
      intro a hha hb
      simp only [List.map_cons, List.map_nil, List.mem_singleton] at hb
      rcases List.mem_map.mp hha with ⟨q, hq, hqe⟩
      have := inv.fresh q hq
      omega
    · intro q hq
      dsimp only at hq ⊢
      rcases List.mem_append.mp hq with h | h
      · exact Nat.lt_trans (inv.fresh q h) (Nat.lt_succ_self _)
      · simp only [List.mem_singleton] at h
        rw [h]
        exact Nat.lt_succ_self _
    · exact Nat.le_trans inv.lower (Nat.le_succ _)
    · intro q hq r hr hql hrl s hsq hsr hpq
      rcases List.mem_append.mp hq with h1 | h1 <;>
        rcases List.mem_append.mp hr with h2 | h2
      · exact inv.uniq q h1 r h2 hql hrl s hsq hsr hpq
      · exfalso
        simp only [List.mem_singleton] at h2
        have hr2 : r.summaryIds = [spid] := by
          rw [h2]
          rfl
        have hrp : r.playerId = row.playerId := by
          rw [h2]
          rfl
        have hs2 : s = spid := by
          rw [hr2] at hsr
          simpa using hsr
        exact (findDetailId_none_iff st.details spid row.playerId).mp hf q h1
          ⟨hql, by rw [← hs2]; exact hsq, by rw [hpq]; exact hrp⟩
      · exfalso
        simp only [List.mem_singleton] at h1
        have hq2 : q.summaryIds = [spid] := by
          rw [h1]
          rfl
        have hqp : q.playerId = row.playerId := by
          rw [h1]
          rfl
        have hs2 : s = spid := by
          rw [hq2] at hsq
          simpa using hsq
        exact (findDetailId_none_iff st.details spid row.playerId).mp hf r h2
          ⟨hrl, by rw [← hs2]; exact hsr, by rw [← hpq]; exact hqp⟩
      · simp only [List.mem_singleton] at h1 h2
        rw [h1, h2]

theorem detRow_preserve (api : List (String × Nat)) (ppm : List ((String × String) × Nat))
    (eps : List ((String × Option Nat) × Nat)) (aid : String) (spid : Nat) (n0 : Nat)
    (st : DetailInner) (row : CollectionDataRow)
    (inv : DetInv n0 st.details st.nextId)
    (q : DetailPage) (hq : q ∈ st.details)
    (hkey : ¬(spid ∈ q.summaryIds ∧ q.playerId = row.playerId)) :
    q ∈ (detailRowStep api ppm eps aid spid st row).details := by
  cases hf : findDetailId st.details spid row.playerId with
  | some pid =>
    simp only [detailRowStep, hf]
    obtain ⟨w, hw, hwl, hws, hwp, hwid⟩ := findDetailId_some hf
    have hqid : q.id ≠ pid := by
      intro hc
      have hqw : q = w := List.inj_on_of_nodup_map inv.nodup hq hw (by rw [hc, hwid])
      apply hkey
      rw [hqw]
      exact ⟨hws, hwp⟩
    have h2 : (if q.id = pid then applyDetailPayload (detailPayloadOf row spid
        (resolvePpid api ppm eps aid row)) q else q)
        ∈ (updateDetailById st.details pid (detailPayloadOf row spid
          (resolvePpid api ppm eps aid row))).1 := List.mem_map_of_mem _ hq
    rw [if_neg hqid] at h2
    exact h2
  | none =>
    simp only [detailRowStep, createDetailPage, hf]
    exact List.mem_append.mpr (Or.inl hq)

theorem detRowFix_preserve (api : List (String × Nat))
    (ppm : List ((String × String) × Nat))
    (eps : List ((String × Option Nat) × Nat)) (aid2 : String) (spid2 : Nat) (n0 : Nat)
    (st : DetailInner) (row2 : CollectionDataRow)
    (inv : DetInv n0 st.details st.nextId)
    (api1 : List (String × Nat)) (ppm1 : List ((String × String) × Nat))
    (eps1 : List ((String × Option Nat) × Nat)) (aid1 : String) (spid1 : Nat)
    (row1 : CollectionDataRow) (i : Nat)
    (hfix : DetRowFix api1 ppm1 eps1 aid1 spid1 st.details row1 i)
    (hkey : ¬(spid2 = spid1 ∧ row2.playerId = row1.playerId)) :
    DetRowFix api1 ppm1 eps1 aid1 spid1
      (detailRowStep api ppm eps aid2 spid2 st row2).details row1 i := by
  obtain ⟨q, hq, hid, harch, hsum, hpid, hfx⟩ := hfix
  refine ⟨q, ?_, hid, harch, hsum, hpid, hfx⟩
  apply detRow_preserve api ppm eps aid2 spid2 n0 st row2 inv q hq
  rintro ⟨h1, h2⟩
  apply hkey
  rw [hsum] at h1
  simp only [List.mem_singleton] at h1
  refine ⟨h1, ?_⟩
  rw [← h2]
  exact hpid

theorem detRowFix_establish (api : List (String × Nat))
    (ppm : List ((String × String) × Nat))
    (eps : List ((String × Option Nat) × Nat)) (aid : String) (spid : Nat) (n0 : Nat)
    (st : DetailInner) (row : CollectionDataRow)
    (inv : DetInv n0 st.details st.nextId) :
    ∃ i, (detailRowStep api ppm eps aid spid st row).ids = st.ids ++ [i] ∧
      DetRowFix api ppm eps aid spid
        (detailRowStep api ppm eps aid spid st row).details row i := by
  cases hf : findDetailId st.details spid row.playerId with
  | some pid =>
    obtain ⟨w, hw, hwl, hws, hwp, hwid⟩ := findDetailId_some hf
    refine ⟨pid, by simp only [detailRowStep, hf], ?_⟩
    unfold DetRowFix
    simp only [detailRowStep, hf]
    refine ⟨applyDetailPayload (detailPayloadOf row spid
      (resolvePpid api ppm eps aid row)) w, ?_, ?_, hwl, rfl, rfl, applyDetail_idem _ _⟩
    · have h2 : (if w.id = pid then applyDetailPayload (detailPayloadOf row spid
          (resolvePpid api ppm eps aid row)) w else w)
          ∈ (updateDetailById st.details pid (detailPayloadOf row spid
            (resolvePpid api ppm eps aid row))).1 := List.mem_map_of_mem _ hw
      rw [if_pos hwid] at h2
      exact h2
    · exact hwid
  | none =>
    refine ⟨st.nextId, by simp only [detailRowStep, createDetailPage, hf], ?_⟩
    unfold DetRowFix
    simp only [detailRowStep, createDetailPage, hf]
    exact ⟨_, List.mem_append.mpr (Or.inr (List.mem_singleton.mpr rfl)),
      rfl, rfl, rfl, rfl, applyDetail_create_fix _ _⟩
theorem detInner_fold (api : List (String × Nat)) (ppm : List ((String × String) × Nat))
    (eps : List ((String × Option Nat) × Nat)) (aid : String) (spid : Nat) (n0 : Nat) :
    ∀ (rows : List CollectionDataRow) (st : DetailInner),
      (rows.map CollectionDataRow.playerId).Nodup →
      DetInv n0 st.details st.nextId →
      ∃ ids2,
        (rows.foldl (detailRowStep api ppm eps aid spid) st).ids = st.ids ++ ids2 ∧
        List.Forall₂ (DetRowFix api ppm eps aid spid
          (rows.foldl (detailRowStep api ppm eps aid spid) st).details) rows ids2 ∧
        DetInv n0 (rows.foldl (detailRowStep api ppm eps aid spid) st).details
          (rows.foldl (detailRowStep api ppm eps aid spid) st).nextId ∧
        (∀ q ∈ st.details, spid ∉ q.summaryIds →
          q ∈ (rows.foldl (detailRowStep api ppm eps aid spid) st).details) ∧
        (∀ api1 ppm1 eps1 aid1 spid1 row1 i, spid1 ≠ spid →
          DetRowFix api1 ppm1 eps1 aid1 spid1 st.details row1 i →
          DetRowFix api1 ppm1 eps1 aid1 spid1
            (rows.foldl (detailRowStep api ppm eps aid spid) st).details row1 i) ∧
        (∀ api1 ppm1 eps1 aid1 row1 i,
          row1.playerId ∉ rows.map CollectionDataRow.playerId →
          DetRowFix api1 ppm1 eps1 aid1 spid st.details row1 i →
          DetRowFix api1 ppm1 eps1 aid1 spid
            (rows.foldl (detailRowStep api ppm eps aid spid) st).details row1 i) := by
  intro rows
  induction rows with
  | nil =>
    intro st _ inv
    exact ⟨[], by simp, List.Forall₂.nil, inv, fun q hq _ => hq,
      fun _ _ _ _ _ _ _ _ hf => hf, fun _ _ _ _ _ _ _ hf => hf⟩
  | cons row rest ih =>
    intro st hnd inv
    simp only [List.map_cons, List.nodup_cons] at hnd
    obtain ⟨i, hids1, hfix1⟩ := detRowFix_establish api ppm eps aid spid n0 st row inv
    have inv1 := detRow_inv api ppm eps aid spid n0 st row inv
    obtain ⟨ids2, hids2, hforall2, inv2, hpres2, hfixo2, hfixs2⟩ :=
      ih (detailRowStep api ppm eps aid spid st row) hnd.2 inv1
    rw [List.foldl_cons]
    refine ⟨i :: ids2, ?_, ?_, inv2, ?_, ?_, ?_⟩
    · rw [hids2, hids1, List.append_assoc, List.singleton_append]
    · exact List.Forall₂.cons (hfixs2 api ppm eps aid row i hnd.1 hfix1) hforall2
    · intro q hq hnq
      apply hpres2
      · exact detRow_preserve api ppm eps aid spid n0 st row inv q hq
          (fun hc => hnq hc.1)
      · exact hnq
    · intro api1 ppm1 eps1 aid1 spid1 row1 j hne hf
      apply hfixo2 api1 ppm1 eps1 aid1 spid1 row1 j hne
      exact detRowFix_preserve api ppm eps aid spid n0 st row inv
        api1 ppm1 eps1 aid1 spid1 row1 j hf (fun hc => hne hc.1.symm)
    · intro api1 ppm1 eps1 aid1 row1 j hnm hf
      have hne1 : row1.playerId ≠ row.playerId := by
        intro hc
        exact hnm (by rw [List.map_cons]; exact List.mem_cons.mpr (Or.inl hc))
      apply hfixs2 api1 ppm1 eps1 aid1 row1 j
        (fun hc => hnm (by rw [List.map_cons]; exact List.mem_cons.mpr (Or.inr hc)))
      exact detRowFix_preserve api ppm eps aid spid n0 st row inv
        api1 ppm1 eps1 aid1 spid row1 j hf (fun hc => hne1 hc.2.symm)
theorem detailRowStep_nextId_le (api : List (String × Nat))
    (ppm : List ((String × String) × Nat)) (eps : List ((String × Option Nat) × Nat))
    (aid : String) (spid : Nat) (st : DetailInner) (row : CollectionDataRow) :
    st.nextId ≤ (detailRowStep api ppm eps aid spid st row).nextId := by
  cases hf : findDetailId st.details spid row.playerId with
  | some pid =>
    simp only [detailRowStep, hf]
    exact Nat.le_refl _
  | none =>
    simp only [detailRowStep, createDetailPage, hf]
    exact Nat.le_succ _

theorem detailAgentStep_nextId_le (api : List (String × Nat)) (spi : List (String × Nat))
    (ppm : List ((String × String) × Nat)) (eps : List ((String × Option Nat) × Nat))
    (acc : DetailPhaseOut) (g : AgentSyncSummary) :
    acc.nextId ≤ (detailAgentStep api spi ppm eps acc g).nextId := by
  by_cases ha : g.agentId = ""
  · simp [detailAgentStep, ha]
  · cases hlk : lookupA spi g.agentId with
    | none =>
      simp only [detailAgentStep, if_neg ha, hlk]
      exact Nat.le_refl _
    | some spid =>
      simp only [detailAgentStep, if_neg ha, hlk]
      exact foldl_measure_le _ DetailInner.nextId
        (fun st2 row => detailRowStep_nextId_le api ppm eps g.agentId spid st2 row)
        g.players
        { details := acc.details, nextId := acc.nextId, ids := [],
          created := acc.created, changed := acc.changed }

theorem detailPhase_nextId_le (api : List (String × Nat)) (spi : List (String × Nat))
    (ppm : List ((String × String) × Nat)) (eps : List ((String × Option Nat) × Nat))
    (G : List AgentSyncSummary) (d0 : List DetailPage) (n0 : Nat) :
    n0 ≤ (detailPhase api spi ppm eps G d0 n0).nextId := by
  unfold detailPhase
  exact foldl_measure_le _ DetailPhaseOut.nextId
    (fun acc g => detailAgentStep_nextId_le api spi ppm eps acc g) G
    { details := d0, nextId := n0, summaryDetailIds := [], created := 0, changed := 0 }

theorem detFold_bundle (api : List (String × Nat)) (spi : List (String × Nat))
    (ppm : List ((String × String) × Nat)) (eps : List ((String × Option Nat) × Nat))
    (n0 : Nat) (G0 : List AgentSyncSummary)
    (hspinj : ∀ a1 a2 v, lookupA spi a1 = some v → lookupA spi a2 = some v → a1 = a2) :
    ∀ (L : List AgentSyncSummary) (acc : DetailPhaseOut),
      (∀ g ∈ L, g ∈ G0) →
      (L.map AgentSyncSummary.agentId).Nodup →
      (∀ g ∈ L, (g.players.map CollectionDataRow.playerId).Nodup) →
      (∀ g ∈ L, lookupA acc.summaryDetailIds g.agentId = none) →
      NoDupKeys acc.summaryDetailIds →
      (∀ aid ids, lookupA acc.summaryDetailIds aid = some ids →
        aid ≠ "" ∧ (∃ g ∈ G0, g.agentId = aid) ∧ (lookupA spi aid).isSome) →
      DetInv n0 acc.details acc.nextId →
      DetInv n0 (L.foldl (detailAgentStep api spi ppm eps) acc).details
        (L.foldl (detailAgentStep api spi ppm eps) acc).nextId ∧
      NoDupKeys (L.foldl (detailAgentStep api spi ppm eps) acc).summaryDetailIds ∧
      (∀ aid ids, lookupA (L.foldl (detailAgentStep api spi ppm eps) acc).summaryDetailIds
          aid = some ids →
        aid ≠ "" ∧ (∃ g ∈ G0, g.agentId = aid) ∧ (lookupA spi aid).isSome) ∧
      (∀ g ∈ L, g.agentId ≠ "" → ∀ spid, lookupA spi g.agentId = some spid →
        ∃ ids, lookupA (L.foldl (detailAgentStep api spi ppm eps) acc).summaryDetailIds
            g.agentId = some ids ∧
          List.Forall₂ (DetRowFix api ppm eps g.agentId spid
            (L.foldl (detailAgentStep api spi ppm eps) acc).details) g.players ids) ∧
      (∀ (g : AgentSyncSummary) (spid1 : Nat) (ids : List Nat),
        g.agentId ∉ L.map AgentSyncSummary.agentId →
        lookupA spi g.agentId = some spid1 →
        lookupA acc.summaryDetailIds g.agentId = some ids →
        List.Forall₂ (DetRowFix api ppm eps g.agentId spid1 acc.details) g.players ids →
        lookupA (L.foldl (detailAgentStep api spi ppm eps) acc).summaryDetailIds
            g.agentId = some ids ∧
        List.Forall₂ (DetRowFix api ppm eps g.agentId spid1
          (L.foldl (detailAgentStep api spi ppm eps) acc).details) g.players ids) := by
  intro L
  induction L with
  | nil =>
    intro acc _ _ _ _ h5 h6 inv
    exact ⟨inv, h5, h6, fun g hg => absurd hg (List.not_mem_nil g),
      fun g spid1 ids _ _ h1 h2 => ⟨h1, h2⟩⟩
  | cons g2 rest ih =>
    intro acc hsub hnd hrows hkeys hndk hchar inv
    simp only [List.map_cons, List.nodup_cons] at hnd
    rw [List.foldl_cons]
    by_cases ha : g2.agentId = ""
    · have hstep : detailAgentStep api spi ppm eps acc g2 = acc := by
        simp [detailAgentStep, ha]
      rw [hstep]
      obtain ⟨c1, c2, c3, c4, c5⟩ := ih acc
        (fun g hg => hsub g (List.mem_cons_of_mem g2 hg)) hnd.2
        (fun g hg => hrows g (List.mem_cons_of_mem g2 hg))
        (fun g hg => hkeys g (List.mem_cons_of_mem g2 hg)) hndk hchar inv
      refine ⟨c1, c2, c3, ?_, ?_⟩
      · intro g hg hane spid hlk2
        rcases List.mem_cons.mp hg with he | hm
        · exact absurd (he ▸ hane) (fun hcon => hcon ha)
        · exact c4 g hm hane spid hlk2
      · intro g spid1 ids hnm hlk1 hlk2 hfa
        exact c5 g spid1 ids
          (fun hc => hnm (List.mem_cons_of_mem _ hc)) hlk1 hlk2 hfa
    · cases hlk : lookupA spi g2.agentId with
      | none =>
        have hstep : detailAgentStep api spi ppm eps acc g2 = acc := by
          simp only [detailAgentStep, if_neg ha, hlk]
        rw [hstep]
        obtain ⟨c1, c2, c3, c4, c5⟩ := ih acc
          (fun g hg => hsub g (List.mem_cons_of_mem g2 hg)) hnd.2
          (fun g hg => hrows g (List.mem_cons_of_mem g2 hg))
          (fun g hg => hkeys g (List.mem_cons_of_mem g2 hg)) hndk hchar inv
        refine ⟨c1, c2, c3, ?_, ?_⟩
        · intro g hg hane spid hlk2
          rcases List.mem_cons.mp hg with he | hm
          · exfalso
            rw [he] at hlk2
            rw [hlk2] at hlk
            exact Option.noConfusion hlk
          · exact c4 g hm hane spid hlk2
        · intro g spid1 ids hnm hlk1 hlk2 hfa
          exact c5 g spid1 ids
            (fun hc => hnm (List.mem_cons_of_mem _ hc)) hlk1 hlk2 hfa
      | some spid =>
        have hstep : detailAgentStep api spi ppm eps acc g2
            = { details := (g2.players.foldl (detailRowStep api ppm eps g2.agentId spid)
                  { details := acc.details, nextId := acc.nextId, ids := [],
                    created := acc.created, changed := acc.changed }).details,
                nextId := (g2.players.foldl (detailRowStep api ppm eps g2.agentId spid)
                  { details := acc.details, nextId := acc.nextId, ids := [],
                    created := acc.created, changed := acc.changed }).nextId,
                summaryDetailIds := setA acc.summaryDetailIds g2.agentId
                  ((g2.players.foldl (detailRowStep api ppm eps g2.agentId spid)
                    { details := acc.details, nextId := acc.nextId, ids := [],
                      created := acc.created, changed := acc.changed }).ids),
                created := (g2.players.foldl (detailRowStep api ppm eps g2.agentId spid)
                  { details := acc.details, nextId := acc.nextId, ids := [],
                    created := acc.created, changed := acc.changed }).created,
                changed := (g2.players.foldl (detailRowStep api ppm eps g2.agentId spid)
                  { details := acc.details, nextId := acc.nextId, ids := [],
                    created := acc.created, changed := acc.changed }).changed } := by
          simp only [detailAgentStep, if_neg ha, hlk]
        obtain ⟨ids2, hids, hforall, inv2, hpres, hfixo, hfixs⟩ :=
          detInner_fold api ppm eps g2.agentId spid n0 g2.players
            { details := acc.details, nextId := acc.nextId, ids := [],
              created := acc.created, changed := acc.changed }
            (hrows g2 (List.mem_cons_self g2 rest)) inv
        rw [List.nil_append] at hids
        rw [hstep]
        obtain ⟨c1, c2, c3, c4, c5⟩ := ih
          { details := (g2.players.foldl (detailRowStep api ppm eps g2.agentId spid)
              { details := acc.details, nextId := acc.nextId, ids := [],
                created := acc.created, changed := acc.changed }).details,
            nextId := (g2.players.foldl (detailRowStep api ppm eps g2.agentId spid)
              { details := acc.details, nextId := acc.nextId, ids := [],
                created := acc.created, changed := acc.changed }).nextId,
            summaryDetailIds := setA acc.summaryDetailIds g2.agentId
              ((g2.players.foldl (detailRowStep api ppm eps g2.agentId spid)
                { details := acc.details, nextId := acc.nextId, ids := [],
                  created := acc.created, changed := acc.changed }).ids),
            created := (g2.players.foldl (detailRowStep api ppm eps g2.agentId spid)
              { details := acc.details, nextId := acc.nextId, ids := [],
                created := acc.created, changed := acc.changed }).created,
            changed := (g2.players.foldl (detailRowStep api ppm eps g2.agentId spid)
              { details := acc.details, nextId := acc.nextId, ids := [],
                created := acc.created, changed := acc.changed }).changed }
          (fun g hg => hsub g (List.mem_cons_of_mem g2 hg)) hnd.2
          (fun g hg => hrows g (List.mem_cons_of_mem g2 hg))
          (fun g hg => by
            dsimp only
            have hne : g.agentId ≠ g2.agentId := by
              intro hc
              exact hnd.1 (hc ▸ List.mem_map_of_mem AgentSyncSummary.agentId hg)
            rw [lookupA_setA_ne _ _ _ _ hne]
            exact hkeys g (List.mem_cons_of_mem g2 hg))
          (by
            dsimp only
            exact nodupKeys_setA _ _ hndk)
          (by
            dsimp only
            intro aid ids hv
            by_cases hk : aid = g2.agentId
            · subst hk
              exact ⟨ha, ⟨g2, hsub g2 (List.mem_cons_self g2 rest), rfl⟩,
                by rw [hlk]; rfl⟩
            · rw [lookupA_setA_ne _ _ _ _ hk] at hv
              exact hchar aid ids hv)
          inv2
        refine ⟨c1, c2, c3, ?_, ?_⟩
        · intro g hg hane spid3 hlk3
          rcases List.mem_cons.mp hg with he | hm
          · have hsp3 : spid3 = spid := by
              have h2 : lookupA spi g2.agentId = some spid3 := by
                rw [← he]
                exact hlk3
              exact Option.some.inj (h2.symm.trans hlk)
            have hnm2 : g.agentId ∉ rest.map AgentSyncSummary.agentId := by
              rw [he]
              exact hnd.1
            have hfa2 : List.Forall₂ (DetRowFix api ppm eps g.agentId spid3
                ((g2.players.foldl (detailRowStep api ppm eps g2.agentId spid)
                  { details := acc.details, nextId := acc.nextId, ids := [],
                    created := acc.created, changed := acc.changed }).details))
                g.players ids2 := by
              rw [he, hsp3]
              exact hforall
            have hlk2 : lookupA (setA acc.summaryDetailIds g2.agentId
                ((g2.players.foldl (detailRowStep api ppm eps g2.agentId spid)
                  { details := acc.details, nextId := acc.nextId, ids := [],
                    created := acc.created, changed := acc.changed }).ids)) g.agentId
                = some ids2 := by
              rw [he, hids, lookupA_setA_self]
            have hself := c5 g spid3 ids2 hnm2 hlk3 hlk2 hfa2
            exact ⟨ids2, hself.1, hself.2⟩
          · exact c4 g hm hane spid3 hlk3
        · intro g spid1 ids hnm hlk1 hlk2 hfa
          have hne : g.agentId ≠ g2.agentId := by
            intro hc
            exact hnm (by rw [List.map_cons]; exact List.mem_cons.mpr (Or.inl hc))
          have hsp1 : spid1 ≠ spid := by
            intro hc
            exact hne (hspinj g.agentId g2.agentId spid (hc ▸ hlk1) hlk)
          apply c5 g spid1 ids
            (fun hc => hnm (by rw [List.map_cons]; exact List.mem_cons.mpr (Or.inr hc)))
            hlk1
          · dsimp only
            rw [lookupA_setA_ne _ _ _ _ hne]
            exact hlk2
          · dsimp only
            exact List.Forall₂.imp
              (fun row i hf => hfixo api ppm eps g.agentId spid1 row i hsp1 hf) hfa
theorem detailPhase_bundle (api : List (String × Nat)) (spi : List (String × Nat))
    (ppm : List ((String × String) × Nat)) (eps : List ((String × Option Nat) × Nat))
    (G : List AgentSyncSummary) (d0 : List DetailPage) (n0 : Nat)
    (hspinj : ∀ a1 a2 v, lookupA spi a1 = some v → lookupA spi a2 = some v → a1 = a2)
    (hgnd : (G.map AgentSyncSummary.agentId).Nodup)
    (hrows : ∀ g ∈ G, (g.players.map CollectionDataRow.playerId).Nodup)
    (h0nd : (d0.map DetailPage.id).Nodup)
    (h0fresh : ∀ p ∈ d0, p.id < n0)
    (h0uniq : ∀ q ∈ d0, ∀ r ∈ d0, q.archived = false → r.archived = false →
      ∀ s ∈ q.summaryIds, s ∈ r.summaryIds → q.playerId = r.playerId → q = r) :
    DetInv n0 (detailPhase api spi ppm eps G d0 n0).details
      (detailPhase api spi ppm eps G d0 n0).nextId ∧
    NoDupKeys (detailPhase api spi ppm eps G d0 n0).summaryDetailIds ∧
    (∀ aid ids, lookupA (detailPhase api spi ppm eps G d0 n0).summaryDetailIds aid
        = some ids →
      aid ≠ "" ∧ (∃ g ∈ G, g.agentId = aid) ∧ (lookupA spi aid).isSome) ∧
    (∀ g ∈ G, g.agentId ≠ "" → ∀ spid, lookupA spi g.agentId = some spid →
      ∃ ids, lookupA (detailPhase api spi ppm eps G d0 n0).summaryDetailIds g.agentId
          = some ids ∧
        List.Forall₂ (DetRowFix api ppm eps g.agentId spid
          (detailPhase api spi ppm eps G d0 n0).details) g.players ids) := by
  unfold detailPhase
  obtain ⟨c1, c2, c3, c4, _⟩ := detFold_bundle api spi ppm eps n0 G hspinj G
    { details := d0, nextId := n0, summaryDetailIds := [], created := 0, changed := 0 }
    (fun g h => h) hgnd hrows (fun g _ => rfl) (by simp [NoDupKeys])
    (fun aid ids hv => absurd hv (by simp [lookupA]))
    { nodup := h0nd, fresh := h0fresh, lower := Nat.le_refl n0, uniq := h0uniq }
  exact ⟨c1, c2, c3, c4⟩
theorem archDetInnerFold_fst (ids : List Nat) :
    ∀ (des : List (String × Nat)) (dets : List DetailPage) (n : Nat),
      (des.foldl (archiveDetailInner ids) (dets, n)).1
      = dets.map (fun p =>
          if des.any (fun de => !ids.contains de.2 && (p.id = de.2 : Bool))
          then { p with archived := true } else p) := by
  intro des
  induction des with
  | nil =>
    intro dets n
    simp
  | cons de rest ih =>
    intro dets n
    rw [List.foldl_cons]
    cases hc : ids.contains de.2
    · have hstep : archiveDetailInner ids (dets, n) de
          = (dets.map (fun p => if p.id = de.2 then { p with archived := true } else p),
             n + 1) := by
        unfold archiveDetailInner
        rw [if_neg (by rw [hc]; simp)]
      rw [hstep, ih, List.map_map]
      apply List.map_congr_left
      intro p _
      rw [List.any_cons]
      by_cases hpe : p.id = de.2
      · have hhd : (!ids.contains de.2 && (p.id = de.2 : Bool)
            || rest.any fun d2 => !ids.contains d2.2 && (p.id = d2.2 : Bool)) = true := by
          rw [hc, hpe]; simp
        rw [hhd, if_pos rfl]
        show (fun q => if (rest.any fun d2 => !ids.contains d2.2 && (q.id = d2.2 : Bool))
              = true
            then { q with archived := true } else q)
          (if p.id = de.2 then { p with archived := true } else p)
          = { p with archived := true }
        rw [if_pos hpe]
        exact ite_self _
      · have hhd : (!ids.contains de.2 && (p.id = de.2 : Bool)
            || rest.any fun d2 => !ids.contains d2.2 && (p.id = d2.2 : Bool))
            = rest.any fun d2 => !ids.contains d2.2 && (p.id = d2.2 : Bool) := by
          rw [hc]
          simp [hpe]
        rw [hhd]
        show (fun q => if (rest.any fun d2 => !ids.contains d2.2 && (q.id = d2.2 : Bool))
              = true
            then { q with archived := true } else q)
          (if p.id = de.2 then { p with archived := true } else p)
          = if (rest.any fun d2 => !ids.contains d2.2 && (p.id = d2.2 : Bool)) = true
            then { p with archived := true } else p
        rw [if_neg hpe]
    · have hstep : archiveDetailInner ids (dets, n) de = (dets, n) := by
        unfold archiveDetailInner
        rw [if_pos hc]
      rw [hstep, ih]
      apply List.map_congr_left
      intro p _
      rw [List.any_cons]
      have hhd : (!ids.contains de.2 && (p.id = de.2 : Bool)
          || rest.any fun d2 => !ids.contains d2.2 && (p.id = d2.2 : Bool))
          = rest.any fun d2 => !ids.contains d2.2 && (p.id = d2.2 : Bool) := by
        rw [hc]
        simp
      rw [hhd]

theorem archiveDetailStep_map (spi : List (String × Nat)) (acc : List DetailPage × Nat)
    (e : String × List Nat) :
    (archiveDetailStep spi acc e = acc ∧ lookupA spi e.1 = none) ∨
    ∃ spid, lookupA spi e.1 = some spid ∧
      (archiveDetailStep spi acc e).1
        = acc.1.map (fun p =>
            if (getAllDetailsBySummaryMap acc.1 spid).any
                (fun de => !e.2.contains de.2 && (p.id = de.2 : Bool))
            then { p with archived := true } else p) := by
  cases hlk : lookupA spi e.1 with
  | none =>
    left
    refine ⟨?_, rfl⟩
    simp only [archiveDetailStep, hlk]
  | some spid =>
    right
    refine ⟨spid, rfl, ?_⟩
    have hstep : archiveDetailStep spi acc e
        = (getAllDetailsBySummaryMap acc.1 spid).foldl (archiveDetailInner e.2) acc := by
      simp only [archiveDetailStep, hlk]
    rw [hstep]
    exact archDetInnerFold_fst e.2 (getAllDetailsBySummaryMap acc.1 spid) acc.1 acc.2

theorem archiveDetailStep_map_id (spi : List (String × Nat)) (acc : List DetailPage × Nat)
    (e : String × List Nat) :
    ((archiveDetailStep spi acc e).1.map DetailPage.id) = acc.1.map DetailPage.id := by
  rcases archiveDetailStep_map spi acc e with ⟨hs, _⟩ | ⟨spid, _, hs⟩
  · rw [hs]
  · rw [hs, List.map_map]
    apply List.map_congr_left
    intro q _
    by_cases hcq : ((getAllDetailsBySummaryMap acc.1 spid).any
        (fun de => !e.2.contains de.2 && (q.id = de.2 : Bool))) = true
    · simp only [Function.comp_apply, hcq, if_true]
    · rw [Bool.not_eq_true] at hcq
      simp only [Function.comp_apply, hcq, Bool.false_eq_true, if_false]

theorem archiveDetailStep_live_mem (spi : List (String × Nat))
    (acc : List DetailPage × Nat) (e : String × List Nat) :
    ∀ q ∈ (archiveDetailStep spi acc e).1, q.archived = false → q ∈ acc.1 := by
  intro q hq hql
  rcases archiveDetailStep_map spi acc e with ⟨hs, _⟩ | ⟨spid, _, hs⟩
  · rw [hs] at hq
    exact hq
  · rw [hs] at hq
    rcases List.mem_map.mp hq with ⟨p, hp, hpe⟩
    by_cases hcq : ((getAllDetailsBySummaryMap acc.1 spid).any
        (fun de => !e.2.contains de.2 && (p.id = de.2 : Bool))) = true
    · exfalso
      rw [if_pos hcq] at hpe
      rw [← hpe] at hql
      simp at hql
    · rw [Bool.not_eq_true] at hcq
      simp only [hcq, Bool.false_eq_true, if_false] at hpe
      rw [← hpe]
      exact hp

theorem archiveDetailsFold_live (spi : List (String × Nat)) :
    ∀ (sdi : List (String × List Nat)) (acc : List DetailPage × Nat),
      ∀ q ∈ (sdi.foldl (archiveDetailStep spi) acc).1, q.archived = false → q ∈ acc.1 := by
  intro sdi
  induction sdi with
  | nil =>
    intro acc q hq _
    exact hq
  | cons e rest ih =>
    intro acc q hq hql
    rw [List.foldl_cons] at hq
    exact archiveDetailStep_live_mem spi acc e q
      (ih (archiveDetailStep spi acc e) q hq hql) hql

theorem archiveDetailsFold_map_id (spi : List (String × Nat)) :
    ∀ (sdi : List (String × List Nat)) (acc : List DetailPage × Nat),
      ((sdi.foldl (archiveDetailStep spi) acc).1.map DetailPage.id)
        = acc.1.map DetailPage.id := by
  intro sdi
  induction sdi with
  | nil =>
    intro acc
    rfl
  | cons e rest ih =>
    intro acc
    rw [List.foldl_cons, ih, archiveDetailStep_map_id]

theorem archiveDetails_keep (spi : List (String × Nat)) :
    ∀ (sdi : List (String × List Nat)) (acc : List DetailPage × Nat)
      (p : DetailPage) (spid : Nat),
      p ∈ acc.1 → ((acc.1.map DetailPage.id).Nodup) →
      p.summaryIds = [spid] →
      (∀ e ∈ sdi, ∀ spid2, lookupA spi e.1 = some spid2 → spid2 = spid → p.id ∈ e.2) →
      p ∈ (sdi.foldl (archiveDetailStep spi) acc).1 := by
  intro sdi
  induction sdi with
  | nil =>
    intro acc p spid hp _ _ _
    exact hp
  | cons e rest ih =>
    intro acc p spid hp hnd hps hsdi
    rw [List.foldl_cons]
    have hnd2 : (((archiveDetailStep spi acc e).1).map DetailPage.id).Nodup := by
      rw [archiveDetailStep_map_id]
      exact hnd
    apply ih (archiveDetailStep spi acc e) p spid _ hnd2 hps
      (fun e2 h2 spid3 hlk3 hsp3 => hsdi e2 (List.mem_cons_of_mem e h2) spid3 hlk3 hsp3)
    rcases archiveDetailStep_map spi acc e with ⟨hs, _⟩ | ⟨spid2, hlk2, hs⟩
    · rw [hs]
      exact hp
    · have hcond : ((getAllDetailsBySummaryMap acc.1 spid2).any
          (fun de => !e.2.contains de.2 && (p.id = de.2 : Bool))) = false := by
        apply List.any_eq_false.mpr
        intro de hde
        obtain ⟨d, hd, hdl, hds, hdp, hdk, hdv⟩ := detailsMap_mem acc.1 spid2 de hde
        simp only [Bool.and_eq_true, Bool.not_eq_true', decide_eq_true_eq, not_and,
          List.contains, List.elem_eq_mem, decide_eq_false_iff_not, not_not]
        intro hnc hpe
        exact absurd (hpe ▸ hsdi e (List.mem_cons_self e rest) spid2 hlk2
          (by
            have hdp2 : d = p :=
              List.inj_on_of_nodup_map hnd hd hp (by rw [hdv, ← hpe])
            rw [hdp2, hps] at hds
            simpa using hds)) (by simpa using hnc)
      rw [hs]
      have h2 : (if (getAllDetailsBySummaryMap acc.1 spid2).any
            (fun de => !e.2.contains de.2 && (p.id = de.2 : Bool))
          then { p with archived := true } else p)
          ∈ acc.1.map (fun q =>
            if (getAllDetailsBySummaryMap acc.1 spid2).any
                (fun de => !e.2.contains de.2 && (q.id = de.2 : Bool))
            then { q with archived := true } else q) := List.mem_map_of_mem _ hp
      rw [hcond] at h2
      simp only [Bool.false_eq_true, if_false] at h2
      exact h2

theorem archiveDetails_live_synced (spi : List (String × Nat)) :
    ∀ (sdi : List (String × List Nat)) (acc : List DetailPage × Nat),
      ((acc.1.map DetailPage.id).Nodup) →
      (∀ q ∈ acc.1, ∀ r ∈ acc.1, q.archived = false → r.archived = false →
        ∀ s ∈ q.summaryIds, s ∈ r.summaryIds → q.playerId = r.playerId → q = r) →
      ∀ r ∈ (sdi.foldl (archiveDetailStep spi) acc).1, r.archived = false →
      r ∈ acc.1 ∧
      (∀ e ∈ sdi, ∀ spid, lookupA spi e.1 = some spid →
        spid ∈ r.summaryIds → r.playerId ≠ "" → r.id ∈ e.2) := by
  intro sdi
  induction sdi with
  | nil =>
    intro acc _ _ r hr _
    exact ⟨hr, fun e he => absurd he (List.not_mem_nil e)⟩
  | cons e rest ih =>
    intro acc hnd huniq r hr hrl
    rw [List.foldl_cons] at hr
    have hnd2 : (((archiveDetailStep spi acc e).1).map DetailPage.id).Nodup := by
      rw [archiveDetailStep_map_id]
      exact hnd
    have huniq2 : ∀ q ∈ (archiveDetailStep spi acc e).1,
        ∀ r2 ∈ (archiveDetailStep spi acc e).1, q.archived = false → r2.archived = false →
        ∀ s ∈ q.summaryIds, s ∈ r2.summaryIds → q.playerId = r2.playerId → q = r2 := by
      intro q hq r2 hr2 hql hrl2 s hsq hsr hpq
      exact huniq q (archiveDetailStep_live_mem spi acc e q hq hql)
        r2 (archiveDetailStep_live_mem spi acc e r2 hr2 hrl2) hql hrl2 s hsq hsr hpq
    obtain ⟨hrmem2, hrest⟩ := ih (archiveDetailStep spi acc e) hnd2 huniq2 r hr hrl
    have hrmem : r ∈ acc.1 := archiveDetailStep_live_mem spi acc e r hrmem2 hrl
    refine ⟨hrmem, ?_⟩
    intro e2 he2 spid hlk2 hsr hrpne
    rcases List.mem_cons.mp he2 with he0 | hm
    · subst he0
      by_contra hni
      have hu2 : ∀ q ∈ acc.1, q.archived = false → spid ∈ q.summaryIds →
          q.playerId = r.playerId → q = r := by
        intro q hq h1 h2 h3
        exact huniq q hq r hrmem h1 hrl spid h2 hsr h3
      have hlkm : lookupA (getAllDetailsBySummaryMap acc.1 spid) r.playerId
          = some r.id :=
        detailsMap_lookup_unique acc.1 spid r.playerId r hrmem hrl hsr hrpne rfl hu2
      have hdm := mem_of_lookupA_some hlkm
      rcases archiveDetailStep_map spi acc e2 with ⟨_, hnone⟩ | ⟨spid2, hlk3, hs⟩
      · rw [hnone] at hlk2
        exact Option.noConfusion hlk2
      · have hsp : spid2 = spid := Option.some.inj (hlk3.symm.trans hlk2)
        subst hsp
        rw [hs] at hrmem2
        rcases List.mem_map.mp hrmem2 with ⟨p, hp, hpe⟩
        have hpr : p = r ∧ ((getAllDetailsBySummaryMap acc.1 spid2).any
            (fun de => !e2.2.contains de.2 && (p.id = de.2 : Bool))) = false := by
          by_cases hcq : ((getAllDetailsBySummaryMap acc.1 spid2).any
              (fun de => !e2.2.contains de.2 && (p.id = de.2 : Bool))) = true
          · exfalso
            rw [if_pos hcq] at hpe
            rw [← hpe] at hrl
            simp at hrl
          · rw [Bool.not_eq_true] at hcq
            simp only [hcq, Bool.false_eq_true, if_false] at hpe
            exact ⟨hpe, hcq⟩
        have hcond := hpr.2
        rw [hpr.1] at hcond
        have hany : ((getAllDetailsBySummaryMap acc.1 spid2).any
            (fun de => !e2.2.contains de.2 && (r.id = de.2 : Bool))) = true := by
          apply List.any_eq_true.mpr
          refine ⟨(r.playerId, r.id), hdm, ?_⟩
          simp [List.contains, List.elem_eq_mem, hni]
        rw [hany] at hcond
        exact Bool.noConfusion hcond
    · exact hrest e2 hm spid hlk2 hsr hrpne
theorem archDetInnerFold_noop (ids : List Nat) :
    ∀ (des : List (String × Nat)) (acc : List DetailPage × Nat),
      (∀ de ∈ des, ids.contains de.2 = true) →
      des.foldl (archiveDetailInner ids) acc = acc := by
  intro des
  induction des with
  | nil =>
    intro acc _
    rfl
  | cons de rest ih =>
    intro acc h
    rw [List.foldl_cons]
    have hstep : archiveDetailInner ids acc de = acc := by
      unfold archiveDetailInner
      rw [if_pos (h de (List.mem_cons_self de rest))]
    rw [hstep]
    exact ih acc (fun d2 h2 => h d2 (List.mem_cons_of_mem de h2))

theorem archiveDetailStep_noop (spi : List (String × Nat)) (acc : List DetailPage × Nat)
    (e : String × List Nat)
    (h : ∀ spid, lookupA spi e.1 = some spid →
      ∀ de ∈ getAllDetailsBySummaryMap acc.1 spid, e.2.contains de.2 = true) :
    archiveDetailStep spi acc e = acc := by
  cases hlk : lookupA spi e.1 with
  | none => simp only [archiveDetailStep, hlk]
  | some spid =>
    have hstep : archiveDetailStep spi acc e
        = (getAllDetailsBySummaryMap acc.1 spid).foldl (archiveDetailInner e.2) acc := by
      simp only [archiveDetailStep, hlk]
    rw [hstep]
    exact archDetInnerFold_noop e.2 _ acc (h spid hlk)

theorem archiveDetailsFold_noop (spi : List (String × Nat)) :
    ∀ (sdi : List (String × List Nat)) (acc : List DetailPage × Nat),
      (∀ e ∈ sdi, ∀ spid, lookupA spi e.1 = some spid →
        ∀ de ∈ getAllDetailsBySummaryMap acc.1 spid, e.2.contains de.2 = true) →
      sdi.foldl (archiveDetailStep spi) acc = acc := by
  intro sdi
  induction sdi with
  | nil =>
    intro acc _
    rfl
  | cons e rest ih =>
    intro acc h
    rw [List.foldl_cons]
    have hstep : archiveDetailStep spi acc e = acc :=
      archiveDetailStep_noop spi acc e (h e (List.mem_cons_self e rest))
    rw [hstep]
    exact ih acc (fun e2 h2 => h e2 (List.mem_cons_of_mem e h2))

theorem forall2_unique {α β : Type} {R S : α → β → Prop} :
    ∀ {l : List α} {l1 l2 : List β},
      List.Forall₂ R l l1 → List.Forall₂ S l l2 →
      (∀ a b1 b2, R a b1 → S a b2 → b1 = b2) → l1 = l2 := by
  intro l
  induction l with
  | nil =>
    intro l1 l2 h1 h2 _
    cases h1
    cases h2
    rfl
  | cons a rest ih =>
    intro l1 l2 h1 h2 h
    cases h1 with
    | cons hr1 ht1 =>
      cases h2 with
      | cons hr2 ht2 =>
        rw [h a _ _ hr1 hr2, ih ht1 ht2 h]

theorem detInnerFold_run2_noop (api : List (String × Nat))
    (ppm : List ((String × String) × Nat)) (eps : List ((String × Option Nat) × Nat))
    (aid : String) (spid : Nat) (S : List DetailPage)
    (hnd : (S.map DetailPage.id).Nodup) :
    ∀ (rows : List CollectionDataRow) (st : DetailInner),
      (∀ row ∈ rows, ∃ q ∈ S, findDetailId S spid row.playerId = some q.id ∧
        applyDetailPayload (detailPayloadOf row spid
          (resolvePpid api ppm eps aid row)) q = q) →
      st.details = S →
      (rows.foldl (detailRowStep api ppm eps aid spid) st).details = S ∧
      (rows.foldl (detailRowStep api ppm eps aid spid) st).nextId = st.nextId ∧
      (rows.foldl (detailRowStep api ppm eps aid spid) st).created = st.created ∧
      (rows.foldl (detailRowStep api ppm eps aid spid) st).changed = st.changed := by
  intro rows
  induction rows with
  | nil =>
    intro st _ hs
    exact ⟨hs, rfl, rfl, rfl⟩
  | cons row rest ih =>
    intro st hlk hs
    obtain ⟨q, hq, hfind, hfix⟩ := hlk row (List.mem_cons_self row rest)
    have hfind2 : findDetailId st.details spid row.playerId = some q.id := by
      rw [hs]
      exact hfind
    have hnoop : updateDetailById st.details q.id (detailPayloadOf row spid
        (resolvePpid api ppm eps aid row)) = (st.details, false) := by
      apply updateDetail_noop
      intro p hp hpid
      have hpq : p = q := by
        rw [hs] at hp
        exact List.inj_on_of_nodup_map hnd hp hq hpid
      rw [hpq]
      exact hfix
    have hstep : detailRowStep api ppm eps aid spid st row
        = { st with ids := st.ids ++ [q.id] } := by
      simp only [detailRowStep, hfind2, hnoop, Bool.false_eq_true, if_false,
        Nat.add_zero]
    rw [List.foldl_cons, hstep]
    exact ih _ (fun r2 h2 => hlk r2 (List.mem_cons_of_mem row h2)) hs

theorem detailFold_run2_noop (api : List (String × Nat)) (spi : List (String × Nat))
    (ppm : List ((String × String) × Nat)) (eps : List ((String × Option Nat) × Nat))
    (S : List DetailPage) (hnd : (S.map DetailPage.id).Nodup) :
    ∀ (L : List AgentSyncSummary) (acc : DetailPhaseOut),
      (∀ g ∈ L, g.agentId ≠ "" → ∀ spid, lookupA spi g.agentId = some spid →
        ∀ row ∈ g.players, ∃ q ∈ S, findDetailId S spid row.playerId = some q.id ∧
          applyDetailPayload (detailPayloadOf row spid
            (resolvePpid api ppm eps g.agentId row)) q = q) →
      acc.details = S →
      (L.foldl (detailAgentStep api spi ppm eps) acc).details = S ∧
      (L.foldl (detailAgentStep api spi ppm eps) acc).nextId = acc.nextId ∧
      (L.foldl (detailAgentStep api spi ppm eps) acc).created = acc.created ∧
      (L.foldl (detailAgentStep api spi ppm eps) acc).changed = acc.changed := by
  intro L
  induction L with
  | nil =>
    intro acc _ hs
    exact ⟨hs, rfl, rfl, rfl⟩
  | cons g rest ih =>
    intro acc hlk hs
    rw [List.foldl_cons]
    by_cases ha : g.agentId = ""
    · have hstep : detailAgentStep api spi ppm eps acc g = acc := by
        simp [detailAgentStep, ha]
      rw [hstep]
      exact ih acc (fun g2 h2 => hlk g2 (List.mem_cons_of_mem g h2)) hs
    · cases hlk2 : lookupA spi g.agentId with
      | none =>
        have hstep : detailAgentStep api spi ppm eps acc g = acc := by
          simp only [detailAgentStep, if_neg ha, hlk2]
        rw [hstep]
        exact ih acc (fun g2 h2 => hlk g2 (List.mem_cons_of_mem g h2)) hs
      | some spid =>
        obtain ⟨hd, hn, hc, hch⟩ := detInnerFold_run2_noop api ppm eps g.agentId spid S
          hnd g.players
          { details := acc.details, nextId := acc.nextId, ids := [],
            created := acc.created, changed := acc.changed }
          (hlk g (List.mem_cons_self g rest) ha spid hlk2) hs
        have hstep : detailAgentStep api spi ppm eps acc g
            = { details := (g.players.foldl (detailRowStep api ppm eps g.agentId spid)
                  { details := acc.details, nextId := acc.nextId, ids := [],
                    created := acc.created, changed := acc.changed }).details,
                nextId := (g.players.foldl (detailRowStep api ppm eps g.agentId spid)
                  { details := acc.details, nextId := acc.nextId, ids := [],
                    created := acc.created, changed := acc.changed }).nextId,
                summaryDetailIds := setA acc.summaryDetailIds g.agentId
                  ((g.players.foldl (detailRowStep api ppm eps g.agentId spid)
                    { details := acc.details, nextId := acc.nextId, ids := [],
                      created := acc.created, changed := acc.changed }).ids),
                created := (g.players.foldl (detailRowStep api ppm eps g.agentId spid)
                  { details := acc.details, nextId := acc.nextId, ids := [],
                    created := acc.created, changed := acc.changed }).created,
                changed := (g.players.foldl (detailRowStep api ppm eps g.agentId spid)
                  { details := acc.details, nextId := acc.nextId, ids := [],
                    created := acc.created, changed := acc.changed }).changed } := by
          simp only [detailAgentStep, if_neg ha, hlk2]
        rw [hstep]
        obtain ⟨c1, c2, c3, c4⟩ := ih
          { details := (g.players.foldl (detailRowStep api ppm eps g.agentId spid)
              { details := acc.details, nextId := acc.nextId, ids := [],
                created := acc.created, changed := acc.changed }).details,
            nextId := (g.players.foldl (detailRowStep api ppm eps g.agentId spid)
              { details := acc.details, nextId := acc.nextId, ids := [],
                created := acc.created, changed := acc.changed }).nextId,
            summaryDetailIds := setA acc.summaryDetailIds g.agentId
              ((g.players.foldl (detailRowStep api ppm eps g.agentId spid)
                { details := acc.details, nextId := acc.nextId, ids := [],
                  created := acc.created, changed := acc.changed }).ids),
            created := (g.players.foldl (detailRowStep api ppm eps g.agentId spid)
              { details := acc.details, nextId := acc.nextId, ids := [],
                created := acc.created, changed := acc.changed }).created,
            changed := (g.players.foldl (detailRowStep api ppm eps g.agentId spid)
              { details := acc.details, nextId := acc.nextId, ids := [],
                created := acc.created, changed := acc.changed }).changed }
          (fun g2 h2 => hlk g2 (List.mem_cons_of_mem g h2)) hd
        refine ⟨c1, ?_, ?_, ?_⟩
        · rw [c2]
          exact hn
        · rw [c3]
          exact hc
        · rw [c4]
          exact hch
end XPoker
